import Mathlib

/-!
# Oukitel P800 SmartUPS: sensor fusion and safety decision engine

A shallow embedding of `HardwareManager` (files `hardware_manager.cpp`,
`hardware_manager_sensors.cpp`, `hardware_manager_diagnostics.cpp`,
`hardware_manager_buttons.cpp`) and of the constants of `config.h`.

Conventions of the embedding:

* `float` and `double` values are exact rationals (`ℚ`): every arithmetic
  operation is the exact one, no rounding is modelled.
* `unsigned long` clock values are naturals below `2 ^ 32`; subtraction of two
  clock values is taken modulo `2 ^ 32`.
* `int` counters are integers (`ℤ`); they stay far from the ends of the 32-bit range,
  except in `updateBeepState`, whose two `int` operations are wrapped to 32 bits.
* The member variables of `HardwareManager` are the fields of the record `HW`,
  the `g_` globals are the fields of `Globals`, and every member function is a
  function from the state before the call to the state after it.
* One reading of `millis()` is used for a whole call of a member function.
-/

namespace OukitelP800

/-! ## config.h -/

/-- The `enum BatteryState` of `config.h`. -/
inductive BatteryState where
  | STATE_REST
  | STATE_CHARGING
  | STATE_DISCHARGING
  | STATE_BYPASS
  deriving DecidableEq, Repr

open BatteryState

/-- The global calibration and advanced-settings variables (`g_...`) declared in `config.h`. -/
structure Globals where
  g_sct013OffsetIn : ℚ
  g_sct013OffsetOut : ℚ
  g_batteryDividerRatio : ℚ
  g_batteryAdcCalibration : ℚ
  g_voltageOffsetCharge : ℚ
  g_voltageOffsetDischarge : ℚ
  g_voltageOffsetRest : ℚ
  g_fixedVoltage : ℚ
  g_mainsVoltage : ℚ
  g_powerThreshold : ℚ
  g_powerFilterAlpha : ℚ
  g_voltageMinSafe : ℚ
  g_batteryLowWarning : ℚ
  g_batteryCritical : ℚ
  g_autoPowerOnDelay : ℕ
  g_socBufferSize : ℤ
  g_socChangeThreshold : ℤ
  g_powerStationOffVoltage : ℚ
  g_warmupDelay : ℕ
  g_maxPowerReading : ℚ
  g_beepsEnabled : Bool

/-- The defaults of `config.h` / `calibration_data.cpp`. -/
def defaultGlobals : Globals where
  g_sct013OffsetIn := 65 / 100
  g_sct013OffsetOut := 55 / 100
  g_batteryDividerRatio := 8925 / 1000
  g_batteryAdcCalibration := 10125 / 10000
  g_voltageOffsetCharge := 0
  g_voltageOffsetDischarge := 0
  g_voltageOffsetRest := -(20 / 100)
  g_fixedVoltage := 0
  g_mainsVoltage := 230
  g_powerThreshold := 10
  g_powerFilterAlpha := 2 / 10
  g_voltageMinSafe := 235 / 10
  g_batteryLowWarning := 20
  g_batteryCritical := 10
  g_autoPowerOnDelay := 10000
  g_socBufferSize := 10
  g_socChangeThreshold := 3
  g_powerStationOffVoltage := 20
  g_warmupDelay := 30000
  g_maxPowerReading := 1700
  g_beepsEnabled := true

/-- The constant `SOC_BUFFER_SIZE`: the capacity of the `socBuffer` array. -/
def SOC_BUFFER_SIZE : ℕ := 10

/-- The constant `VOLTAGE_OFFSET_BYPASS`. -/
def VOLTAGE_OFFSET_BYPASS : ℚ := -(20 / 100)

/-- The constant `POWER_IN_OFFSET`. -/
def POWER_IN_OFFSET : ℚ := 0

/-- The constant `POWER_OUT_OFFSET`. -/
def POWER_OUT_OFFSET : ℚ := 0

/-- The constant `BATTERY_ADC_SAMPLES`. -/
def BATTERY_ADC_SAMPLES : ℕ := 100

/-- The table `BATTERY_CURVE_NORMAL`: rows `{percent, voltage}`. -/
def BATTERY_CURVE_NORMAL : List (ℚ × ℚ) :=
  [(100, 2670 / 100), (95, 2660 / 100), (90, 2650 / 100), (80, 2605 / 100),
   (75, 2599 / 100), (70, 2595 / 100), (65, 2595 / 100), (60, 2590 / 100),
   (50, 2577 / 100), (45, 2575 / 100), (40, 2570 / 100), (35, 2560 / 100),
   (30, 2550 / 100), (25, 2535 / 100), (20, 2515 / 100), (15, 2500 / 100),
   (10, 2450 / 100), (5, 2390 / 100), (4, 2366 / 100), (3, 2350 / 100),
   (2, 2340 / 100), (1, 2330 / 100), (0, 2270 / 100)]

/-- The constant `CURVE_NORMAL_POINTS`. -/
def CURVE_NORMAL_POINTS : ℕ := 23

/-- The table `BATTERY_CURVE_CHARGE`: rows `{percent, voltage}`. -/
def BATTERY_CURVE_CHARGE : List (ℚ × ℚ) :=
  [(100, 2670 / 100), (95, 2660 / 100), (90, 2650 / 100), (80, 2605 / 100),
   (75, 2599 / 100), (70, 2595 / 100), (65, 2595 / 100), (60, 2590 / 100),
   (50, 2577 / 100), (45, 2575 / 100), (40, 2570 / 100), (35, 2560 / 100),
   (30, 2550 / 100), (25, 2535 / 100), (20, 2525 / 100), (15, 2515 / 100),
   (5, 2500 / 100), (0, 2400 / 100)]

/-- The constant `CURVE_CHARGE_POINTS`. -/
def CURVE_CHARGE_POINTS : ℕ := 18

/-! ## hardware_manager_sensors.cpp: pure conversions -/

/-- The Arduino `abs` on a float. -/
def fabs (x : ℚ) : ℚ := if x > 0 then x else -x

/-- The entry `curve[i][0]`. -/
def curvePercent (curve : List (ℚ × ℚ)) (i : ℕ) : ℚ := (curve.getD i (0, 0)).1

/-- The entry `curve[i][1]`. -/
def curveVoltage (curve : List (ℚ × ℚ)) (i : ℕ) : ℚ := (curve.getD i (0, 0)).2

/-- The value interpolated on the segment between rows `i` and `i + 1`. -/
def segmentValue (curve : List (ℚ × ℚ)) (voltage : ℚ) (i : ℕ) : ℚ :=
  curvePercent curve (i + 1) + (voltage - curveVoltage curve (i + 1)) *
    (curvePercent curve i - curvePercent curve (i + 1)) /
    (curveVoltage curve i - curveVoltage curve (i + 1))

/-- The `for` loop of `voltageToBatteryPercent`, from index `i` with `remaining`
iterations left; `none` when the loop ends without a `return`. -/
def curveScan (curve : List (ℚ × ℚ)) (voltage : ℚ) : ℕ → ℕ → Option ℚ
  | 0, _ => none
  | remaining + 1, i =>
    if voltage ≥ curveVoltage curve (i + 1) ∧ voltage ≤ curveVoltage curve i then
      some (segmentValue curve voltage i)
    else curveScan curve voltage remaining (i + 1)

/-- The curve selected by `voltageToBatteryPercent`. -/
def selectCurve (currentState : BatteryState) : List (ℚ × ℚ) :=
  if currentState = STATE_CHARGING then BATTERY_CURVE_CHARGE else BATTERY_CURVE_NORMAL

/-- The point count selected by `voltageToBatteryPercent`. -/
def selectPoints (currentState : BatteryState) : ℕ :=
  if currentState = STATE_CHARGING then CURVE_CHARGE_POINTS else CURVE_NORMAL_POINTS

/-- The part of `voltageToBatteryPercent` after `curve` and `points` are chosen. -/
def percentOn (curve : List (ℚ × ℚ)) (points : ℕ) (voltage : ℚ) : ℚ :=
  if voltage ≤ curveVoltage curve (points - 1) then 0
  else if voltage ≥ curveVoltage curve 0 then 100
  else
    match curveScan curve voltage (points - 1) 0 with
    | some percent => percent
    | none => 0

/-- `HardwareManager::voltageToBatteryPercent`, reading the member `currentState`. -/
def voltageToBatteryPercent (currentState : BatteryState) (voltage : ℚ) : ℚ :=
  percentOn (selectCurve currentState) (selectPoints currentState) voltage

/-- `HardwareManager::detectState`. -/
def detectState (g : Globals) (powerIN powerOUT : ℚ) : BatteryState :=
  if powerIN > g.g_powerThreshold ∧ powerOUT > g.g_powerThreshold ∧
      fabs (powerIN - powerOUT) < min powerIN powerOUT * (3 / 10) then
    STATE_BYPASS
  else
    let netPower := powerIN - powerOUT
    if netPower > g.g_powerThreshold then STATE_CHARGING
    else if netPower < -g.g_powerThreshold then STATE_DISCHARGING
    else STATE_REST

/-- `HardwareManager::compensateVoltageDischarge`. -/
def compensateVoltageDischarge (measuredV : ℚ) : ℚ :=
  if measuredV ≥ 285 / 10 then measuredV - 1
  else if measuredV ≥ 27 then measuredV - 0
  else if measuredV ≥ 265 / 10 then measuredV - 0
  else if measuredV ≥ 26 then measuredV - 0
  else if measuredV ≥ 255 / 10 then measuredV + 10 / 100
  else if measuredV ≥ 252 / 10 then measuredV + 20 / 100
  else if measuredV ≥ 25 then measuredV + 30 / 100
  else if measuredV ≥ 248 / 10 then measuredV + 40 / 100
  else if measuredV ≥ 245 / 10 then measuredV + 50 / 100
  else if measuredV ≥ 24 then measuredV + 50 / 100
  else if measuredV ≥ 235 / 10 then measuredV + 0
  else if measuredV ≥ 23 then measuredV + 0
  else if measuredV ≥ 225 / 10 then measuredV + 0
  else if measuredV ≥ 22 then measuredV + 0
  else if measuredV ≥ 215 / 10 then measuredV + 150 / 100
  else measuredV

/-- `HardwareManager::compensateVoltageCharge`. -/
def compensateVoltageCharge (measuredV : ℚ) : ℚ :=
  if measuredV ≥ 285 / 10 then measuredV - 1
  else if measuredV ≥ 284 / 10 then measuredV - 95 / 100
  else if measuredV ≥ 283 / 10 then measuredV - 90 / 100
  else if measuredV ≥ 282 / 10 then measuredV - 85 / 100
  else if measuredV ≥ 281 / 10 then measuredV - 80 / 100
  else if measuredV ≥ 28 then measuredV - 75 / 100
  else if measuredV ≥ 278 / 10 then measuredV - 70 / 100
  else if measuredV ≥ 276 / 10 then measuredV - 60 / 100
  else if measuredV ≥ 274 / 10 then measuredV - 50 / 100
  else if measuredV ≥ 272 / 10 then measuredV - 40 / 100
  else if measuredV ≥ 27 then measuredV - 30 / 100
  else if measuredV ≥ 265 / 10 then measuredV - 25 / 100
  else if measuredV ≥ 26 then measuredV + 0
  else if measuredV ≥ 255 / 10 then measuredV + 40 / 100
  else if measuredV ≥ 25 then measuredV + 50 / 100
  else if measuredV ≥ 245 / 10 then measuredV + 60 / 100
  else if measuredV ≥ 24 then measuredV + 70 / 100
  else if measuredV ≥ 235 / 10 then measuredV + 80 / 100
  else if measuredV ≥ 23 then measuredV + 1
  else if measuredV ≥ 225 / 10 then measuredV + 1
  else if measuredV ≥ 22 then measuredV + 1
  else if measuredV ≥ 215 / 10 then measuredV + 1
  else if measuredV ≥ 21 then measuredV + 1
  else measuredV

/-! ## The state of `HardwareManager` -/

/-- The `struct SensorData` of `config.h`. -/
structure SensorData where
  mainCurrent : ℚ
  outputCurrent : ℚ
  batteryVoltage : ℚ
  batteryPercentage : ℚ
  mainPower : ℚ
  outputPower : ℚ
  onBattery : Bool
  batteryState : BatteryState
  timestamp : ℕ

/-- The member variables of `HardwareManager` (`hardware_manager.h`).  `socBuffer` is the
array of `SOC_BUFFER_SIZE` floats; `pinHigh` holds the level last written to each of the
five button pins, by button index.  The two current-sensor objects, the web-server pointer
(only tested before printing) and the unused members `calibration` and `advancedSettings`
are left out. -/
structure HW where
  currentData : SensorData
  isWarmedUp : Bool
  warmupCounter : ℤ
  warmupStartTime : ℕ
  socBuffer : List ℚ
  socBufferIndex : ℤ
  socBufferFull : Bool
  displayedSOC : ℚ
  filteredPowerIN : ℚ
  filteredPowerOUT : ℚ
  powerFilterInitialized : Bool
  lastValidPowerIN : ℚ
  lastValidPowerOUT : ℚ
  invalidReadingsCount : ℤ
  currentState : BatteryState
  previousState : BatteryState
  lastValidSOC : ℚ
  autoPowerOnEnabled : Bool
  powerStationWasOff : Bool
  powerOnTime : ℕ
  acAlreadyActivated : Bool
  voltageMinSafeCounter : ℤ
  batteryLowWarningCounter : ℤ
  batteryCriticalCounter : ℤ
  powerStationOffVoltageCounter : ℤ
  lastLowBatteryAlertTime : ℕ
  lastCriticalBatteryAlertTime : ℕ
  lowBatteryAlertActive : Bool
  criticalBatteryAlertActive : Bool
  isBeeping : Bool
  beepCount : ℤ
  totalBeepsNeeded : ℤ
  lastBeepTime : ℕ
  isPowerStationOn : Bool
  buttonActive : Bool
  activeButtonIndex : ℤ
  buttonPressStartTime : ℕ
  buttonPressDuration : ℕ
  flashlightAlertActive : Bool
  flashlightPulseCount : ℤ
  lastFlashlightToggle : ℕ
  pinHigh : List Bool

/-- The constructor `HardwareManager::HardwareManager()`. -/
def HW.init : HW where
  currentData :=
    { mainCurrent := 0, outputCurrent := 0, batteryVoltage := 0, batteryPercentage := 0,
      mainPower := 0, outputPower := 0, onBattery := false, batteryState := STATE_REST,
      timestamp := 0 }
  isWarmedUp := false
  warmupCounter := 0
  warmupStartTime := 0
  socBuffer := List.replicate SOC_BUFFER_SIZE 0
  socBufferIndex := 0
  socBufferFull := false
  displayedSOC := 0
  filteredPowerIN := 0
  filteredPowerOUT := 0
  powerFilterInitialized := false
  lastValidPowerIN := 0
  lastValidPowerOUT := 0
  invalidReadingsCount := 0
  currentState := STATE_REST
  previousState := STATE_REST
  lastValidSOC := 0
  autoPowerOnEnabled := false
  powerStationWasOff := true
  powerOnTime := 0
  acAlreadyActivated := false
  voltageMinSafeCounter := 0
  batteryLowWarningCounter := 0
  batteryCriticalCounter := 0
  powerStationOffVoltageCounter := 0
  lastLowBatteryAlertTime := 0
  lastCriticalBatteryAlertTime := 0
  lowBatteryAlertActive := false
  criticalBatteryAlertActive := false
  isBeeping := false
  beepCount := 0
  totalBeepsNeeded := 0
  lastBeepTime := 0
  isPowerStationOn := false
  buttonActive := false
  activeButtonIndex := -1
  buttonPressStartTime := 0
  buttonPressDuration := 0
  flashlightAlertActive := false
  flashlightPulseCount := 0
  lastFlashlightToggle := 0
  pinHigh := List.replicate 5 false

/-- The difference `a - b` of two `unsigned long` values. -/
def ulongSub (a b : ℕ) : ℕ := (a + 4294967296 - b % 4294967296) % 4294967296

/-- The helper `timeElapsed(startTime, interval)`, with `now` the value of `millis()`. -/
def timeElapsed (now startTime interval : ℕ) : Bool :=
  decide (ulongSub now startTime ≥ interval)

/-! ## hardware_manager_sensors.cpp: SOC stabilizer -/

/-- The body of the inner loop of `sortArray`: swap `arr[i]` and `arr[j]` when
`arr[i] > arr[j]`. -/
def swapIfGreater (arr : List ℚ) (i j : ℕ) : List ℚ :=
  if arr.getD i 0 > arr.getD j 0 then
    let temp := arr.getD i 0
    (arr.set i (arr.getD j 0)).set j temp
  else arr

/-- The inner loop of `sortArray` for a fixed `i`: `j` runs from `i + 1` to `n - 1`. -/
def sortInner (arr : List ℚ) (n i : ℕ) : List ℚ :=
  (List.range' (i + 1) (n - (i + 1))).foldl (fun a j => swapIfGreater a i j) arr

/-- `HardwareManager::sortArray`: `i` runs from `0` to `n - 2`. -/
def sortArray (arr : List ℚ) (n : ℕ) : List ℚ :=
  (List.range (n - 1)).foldl (fun a i => sortInner a n i) arr

/-- The sample count `socBufferFull ? g_socBufferSize : socBufferIndex`. -/
def socCount (g : Globals) (s : HW) : ℤ :=
  if s.socBufferFull then g.g_socBufferSize else s.socBufferIndex

/-- `HardwareManager::getMedianSOC`.  The result is `none` when the count is negative or
exceeds the capacity of `tempArray` and `socBuffer`, where the C++ code reads or writes
outside an array. -/
def getMedianSOC (g : Globals) (s : HW) : Option ℚ :=
  let count := socCount g s
  if count = 0 then some 0
  else if count < 0 ∨ count > SOC_BUFFER_SIZE then none
  else
    let n := count.toNat
    let tempArray := sortArray (s.socBuffer.take n) n
    if n % 2 = 0 then some ((tempArray.getD (n / 2 - 1) 0 + tempArray.getD (n / 2) 0) / 2)
    else some (tempArray.getD (n / 2) 0)

/-- `HardwareManager::updateSOCBuffer`.  The result is `none` when `socBufferIndex` is
outside the array `socBuffer`. -/
def updateSOCBuffer (g : Globals) (newSOC : ℚ) (s : HW) : Option HW :=
  if 0 ≤ s.socBufferIndex ∧ s.socBufferIndex < SOC_BUFFER_SIZE then
    let s1 := { s with socBuffer := s.socBuffer.set s.socBufferIndex.toNat newSOC,
                       socBufferIndex := s.socBufferIndex + 1 }
    if s1.socBufferIndex ≥ g.g_socBufferSize then
      some { s1 with socBufferIndex := 0, socBufferFull := true }
    else some s1
  else none

/-- The agreement loop of `getStableSOC`: the number of the first `count` buffered samples
on the median's side of the displayed value by more than `1.0`. -/
def agreeCount (socBuffer : List ℚ) (count : ℕ) (medianSOC displayedSOC : ℚ) : ℤ :=
  (List.range count).foldl
    (fun acc i =>
      if medianSOC > displayedSOC then
        (if socBuffer.getD i 0 > displayedSOC + 1 then acc + 1 else acc)
      else
        (if socBuffer.getD i 0 < displayedSOC - 1 then acc + 1 else acc))
    0

/-- `HardwareManager::getStableSOC`; the value returned by the C++ function is the
`displayedSOC` of the resulting state. -/
def getStableSOC (g : Globals) (currentSOC : ℚ) (s : HW) : Option HW :=
  match updateSOCBuffer g currentSOC s with
  | none => none
  | some s1 =>
    if s1.displayedSOC = 0 ∧ s1.socBufferIndex = 1 then
      some { s1 with displayedSOC := currentSOC }
    else
      match getMedianSOC g s1 with
      | none => none
      | some medianSOC =>
        if fabs (medianSOC - s1.displayedSOC) > 3 then
          let count := socCount g s1
          if agreeCount s1.socBuffer count.toNat medianSOC s1.displayedSOC
              ≥ g.g_socChangeThreshold then
            some { s1 with displayedSOC := medianSOC }
          else some s1
        else some { s1 with displayedSOC := medianSOC }

/-! ## hardware_manager_sensors.cpp: power filter and validator -/

/-- `HardwareManager::initializePowerFilters`. -/
def initializePowerFilters (powerIN powerOUT : ℚ) (s : HW) : HW :=
  if ¬ s.powerFilterInitialized then
    { s with filteredPowerIN := powerIN, filteredPowerOUT := powerOUT,
             lastValidPowerIN := powerIN, lastValidPowerOUT := powerOUT,
             powerFilterInitialized := true }
  else s

/-- `HardwareManager::filterPowerIN`; the value returned is the new `filteredPowerIN`. -/
def filterPowerIN (g : Globals) (rawPowerIN : ℚ) (s : HW) : HW :=
  if ¬ s.powerFilterInitialized then { s with filteredPowerIN := rawPowerIN }
  else
    { s with filteredPowerIN :=
        g.g_powerFilterAlpha * rawPowerIN + (1 - g.g_powerFilterAlpha) * s.filteredPowerIN }

/-- `HardwareManager::filterPowerOUT`; the value returned is the new `filteredPowerOUT`. -/
def filterPowerOUT (g : Globals) (rawPowerOUT : ℚ) (s : HW) : HW :=
  if ¬ s.powerFilterInitialized then { s with filteredPowerOUT := rawPowerOUT }
  else
    { s with filteredPowerOUT :=
        g.g_powerFilterAlpha * rawPowerOUT + (1 - g.g_powerFilterAlpha) * s.filteredPowerOUT }

/-- `HardwareManager::validatePowerReadings`. -/
def validatePowerReadings (g : Globals) (powerIN powerOUT : ℚ) : Bool :=
  if powerIN > g.g_maxPowerReading ∨ powerOUT > g.g_maxPowerReading then false
  else if powerIN > g.g_powerThreshold ∧ powerOUT > powerIN + 5 then false
  else true

/-! ## hardware_manager_sensors.cpp and hardware_manager.cpp: acquisition -/

/-- What the hardware delivers during one call of `readSensors`: the clock, the two
results of `calcIrms` and the successive results of `analogRead(PIN_BATTERY_VOLTAGE)`. -/
structure SensorInput where
  now : ℕ
  irmsMain : ℚ
  irmsOutput : ℚ
  analogRead : ℕ → ℕ

/-- `HardwareManager::readBatteryVoltageRaw`. -/
def readBatteryVoltageRaw (g : Globals) (inp : SensorInput) (s : HW) : ℚ :=
  if g.g_fixedVoltage > 0 then g.g_fixedVoltage
  else
    let adcSum : ℕ :=
      (List.range BATTERY_ADC_SAMPLES).foldl
        (fun acc i => (acc + inp.analogRead i) % 4294967296) 0
    let adcValue : ℚ := (adcSum : ℚ) / (BATTERY_ADC_SAMPLES : ℚ)
    let adcVoltage : ℚ := adcValue / 4095 * (33 / 10)
    let batteryVoltage := adcVoltage * g.g_batteryAdcCalibration * g.g_batteryDividerRatio
    if s.currentState = STATE_DISCHARGING then
      compensateVoltageDischarge batteryVoltage + g.g_voltageOffsetDischarge
    else if s.currentState = STATE_CHARGING then
      compensateVoltageCharge batteryVoltage + g.g_voltageOffsetCharge
    else if s.currentState = STATE_BYPASS then
      batteryVoltage + VOLTAGE_OFFSET_BYPASS
    else
      batteryVoltage + g.g_voltageOffsetRest

/-- The part of `HardwareManager::readSensors` after the warm-up check. -/
def readSensorsBody (g : Globals) (inp : SensorInput) (s : HW) : Option HW :=
  let IrmsIN0 := inp.irmsMain - g.g_sct013OffsetIn
  let IrmsOUT0 := inp.irmsOutput - g.g_sct013OffsetOut
  let IrmsIN := if IrmsIN0 < 5 / 100 then 0 else IrmsIN0
  let IrmsOUT := if IrmsOUT0 < 5 / 100 then 0 else IrmsOUT0
  let rawPowerIN := IrmsIN * g.g_mainsVoltage
  let rawPowerOUT := IrmsOUT * g.g_mainsVoltage
  let s1 := initializePowerFilters rawPowerIN rawPowerOUT s
  let s2 := filterPowerIN g rawPowerIN s1
  let powerIN0 := s2.filteredPowerIN + POWER_IN_OFFSET
  let s3 := filterPowerOUT g rawPowerOUT s2
  let powerOUT0 := s3.filteredPowerOUT + POWER_OUT_OFFSET
  let valid := validatePowerReadings g powerIN0 powerOUT0
  let powerIN := if valid then powerIN0 else s3.lastValidPowerIN
  let powerOUT := if valid then powerOUT0 else s3.lastValidPowerOUT
  let s4 :=
    if valid then { s3 with lastValidPowerIN := powerIN0, lastValidPowerOUT := powerOUT0 }
    else { s3 with invalidReadingsCount := s3.invalidReadingsCount + 1 }
  let s5 := { s4 with currentState := detectState g powerIN powerOUT }
  let voltage := readBatteryVoltageRaw g inp s5
  let rawSOC := voltageToBatteryPercent s5.currentState voltage
  match getStableSOC g rawSOC s5 with
  | none => none
  | some s6 =>
    let soc := s6.displayedSOC
    some { s6 with
      lastValidSOC := soc
      currentData :=
        { mainCurrent := IrmsIN, outputCurrent := IrmsOUT, batteryVoltage := voltage,
          batteryPercentage := soc, mainPower := powerIN, outputPower := powerOUT,
          onBattery := decide (s6.currentState = STATE_DISCHARGING),
          batteryState := s6.currentState, timestamp := inp.now } }

/-- `HardwareManager::readSensors`.  During warm-up the two `calcIrms(500)` calls only
touch the current-sensor objects, which are not part of `HW`. -/
def readSensors (g : Globals) (inp : SensorInput) (s : HW) : Option HW :=
  if ¬ s.isWarmedUp then
    let elapsedTime := ulongSub inp.now s.warmupStartTime
    if elapsedTime ≥ g.g_warmupDelay then
      readSensorsBody g inp { s with isWarmedUp := true }
    else some s
  else readSensorsBody g inp s

/-! ## hardware_manager_diagnostics.cpp and hardware_manager.cpp: alarms -/

/-- The places of the code that call `emergencyShutdownUPS` or `triggerBeepAlert`. -/
inductive CallSite where
  | level1
  | level2Activation
  | level2Periodic
  | level3Activation
  | level3Periodic
  | powerLost
  | powerRestored
  deriving DecidableEq, Repr

/-- The alarm calls made by a member function, each with the place that made it:
`emergencyShutdownUPS()` and `triggerBeepAlert(pulses)`. -/
inductive Action where
  | shutdownUPS (site : CallSite)
  | beepAlert (site : CallSite) (pulses : ℤ)
  deriving DecidableEq, Repr

/-- `HardwareManager::triggerBeepAlert`. -/
def triggerBeepAlert (g : Globals) (now : ℕ) (pulses : ℤ) (s : HW) : HW :=
  if ¬ g.g_beepsEnabled then s
  else { s with isBeeping := true, beepCount := 0, totalBeepsNeeded := pulses,
                lastBeepTime := now }

/-- `HardwareManager::emergencyShutdownUPS`: the body only prints. -/
def emergencyShutdownUPS (s : HW) : HW := s

/-- `HardwareManager::checkStateTransition`, with the alarm calls it makes. -/
def checkStateTransition (g : Globals) (now : ℕ) (s : HW) : HW × List Action :=
  if ¬ s.isWarmedUp then (s, [])
  else if s.currentState ≠ s.previousState then
    let lost : Bool :=
      decide ((s.previousState = STATE_CHARGING ∨ s.previousState = STATE_REST ∨
        s.previousState = STATE_BYPASS) ∧ s.currentState = STATE_DISCHARGING)
    let s1 := if lost then triggerBeepAlert g now 2 s else s
    let a1 := if lost then [Action.beepAlert CallSite.powerLost 2] else []
    let restored : Bool :=
      decide (s1.previousState = STATE_DISCHARGING ∧
        (s1.currentState = STATE_CHARGING ∨ s1.currentState = STATE_BYPASS))
    let s2 := if restored then triggerBeepAlert g now 2 s1 else s1
    let a2 := if restored then [Action.beepAlert CallSite.powerRestored 2] else []
    ({ s2 with previousState := s2.currentState }, a1 ++ a2)
  else (s, [])

/-- The block "LIVELLO 1" of `checkEmergencyConditions` (minimum safe voltage). -/
def emergencyLevel1 (g : Globals) (now : ℕ) (s : HW) : HW × List Action :=
  if s.currentData.batteryVoltage < g.g_voltageMinSafe then
    let s1 := { s with voltageMinSafeCounter := s.voltageMinSafeCounter + 1 }
    if s1.voltageMinSafeCounter ≥ 5 then
      let s2 := triggerBeepAlert g now 5 (emergencyShutdownUPS s1)
      ({ s2 with voltageMinSafeCounter := 0 },
        [Action.shutdownUPS CallSite.level1, Action.beepAlert CallSite.level1 5])
    else (s1, [])
  else ({ s with voltageMinSafeCounter := 0 }, [])

/-- The block "LIVELLO 2" of `checkEmergencyConditions` (low-battery warning);
`currentTime` is the clock value read before the three blocks. -/
def emergencyLevel2 (g : Globals) (currentTime : ℕ) (s : HW) : HW × List Action :=
  if s.currentData.batteryPercentage < g.g_batteryLowWarning then
    let s1 := { s with batteryLowWarningCounter := s.batteryLowWarningCounter + 1 }
    let activate : Bool := decide (s1.batteryLowWarningCounter ≥ 5) && !s1.lowBatteryAlertActive
    let s2 :=
      if activate then
        triggerBeepAlert g currentTime 5
          (emergencyShutdownUPS
            { s1 with lowBatteryAlertActive := true, lastLowBatteryAlertTime := currentTime })
      else s1
    let a2 :=
      if activate then
        [Action.shutdownUPS CallSite.level2Activation,
         Action.beepAlert CallSite.level2Activation 5]
      else []
    let periodic : Bool :=
      s2.lowBatteryAlertActive && timeElapsed currentTime s2.lastLowBatteryAlertTime 300000
    let s3 :=
      if periodic then
        { triggerBeepAlert g currentTime 5 (emergencyShutdownUPS s2) with
          lastLowBatteryAlertTime := currentTime }
      else s2
    let a3 :=
      if periodic then
        [Action.shutdownUPS CallSite.level2Periodic,
         Action.beepAlert CallSite.level2Periodic 5]
      else []
    (s3, a2 ++ a3)
  else
    let s1 :=
      if s.lowBatteryAlertActive then
        { s with lowBatteryAlertActive := false, lastLowBatteryAlertTime := 0 }
      else s
    ({ s1 with batteryLowWarningCounter := 0 }, [])

/-- The block "LIVELLO 3" of `checkEmergencyConditions` (critical battery). -/
def emergencyLevel3 (g : Globals) (currentTime : ℕ) (s : HW) : HW × List Action :=
  if s.currentData.batteryPercentage < g.g_batteryCritical then
    let s1 := { s with batteryCriticalCounter := s.batteryCriticalCounter + 1 }
    let activate : Bool :=
      decide (s1.batteryCriticalCounter ≥ 3) && !s1.criticalBatteryAlertActive
    let s2 :=
      if activate then
        triggerBeepAlert g currentTime 10
          { s1 with criticalBatteryAlertActive := true,
                    lastCriticalBatteryAlertTime := currentTime,
                    lowBatteryAlertActive := false }
      else s1
    let a2 := if activate then [Action.beepAlert CallSite.level3Activation 10] else []
    let periodic : Bool :=
      s2.criticalBatteryAlertActive &&
        timeElapsed currentTime s2.lastCriticalBatteryAlertTime 60000
    let s3 :=
      if periodic then
        { triggerBeepAlert g currentTime 10 s2 with lastCriticalBatteryAlertTime := currentTime }
      else s2
    let a3 := if periodic then [Action.beepAlert CallSite.level3Periodic 10] else []
    (s3, a2 ++ a3)
  else
    let s1 :=
      if s.criticalBatteryAlertActive then
        let s0 := { s with criticalBatteryAlertActive := false,
                           lastCriticalBatteryAlertTime := 0 }
        if s0.currentData.batteryPercentage < g.g_batteryLowWarning then
          { s0 with lowBatteryAlertActive := true, lastLowBatteryAlertTime := currentTime }
        else s0
      else s
    ({ s1 with batteryCriticalCounter := 0 }, [])

/-- `HardwareManager::checkEmergencyConditions`, with the alarm calls it makes. -/
def checkEmergencyConditions (g : Globals) (now : ℕ) (s : HW) : HW × List Action :=
  if ¬ s.isWarmedUp then (s, [])
  else
    let wasPowerStationOn := s.isPowerStationOn
    if s.currentData.batteryVoltage < g.g_powerStationOffVoltage then
      let s1 := { s with isPowerStationOn := false }
      let s2 :=
        if wasPowerStationOn && !s1.isPowerStationOn then
          { s1 with isWarmedUp := false, warmupStartTime := now }
        else s1
      ({ s2 with voltageMinSafeCounter := 0, batteryLowWarningCounter := 0,
                 batteryCriticalCounter := 0, powerStationOffVoltageCounter := 0,
                 lowBatteryAlertActive := false, criticalBatteryAlertActive := false,
                 lastLowBatteryAlertTime := 0, lastCriticalBatteryAlertTime := 0 }, [])
    else
      let s1 :=
        if !wasPowerStationOn ∧ s.currentData.batteryVoltage ≥ g.g_powerStationOffVoltage then
          { s with isWarmedUp := false, warmupStartTime := now }
        else s
      let s2 := { s1 with isPowerStationOn := true }
      if s2.currentState = STATE_CHARGING then
        if s2.lowBatteryAlertActive ∨ s2.criticalBatteryAlertActive then
          ({ s2 with lowBatteryAlertActive := false, criticalBatteryAlertActive := false,
                     lastLowBatteryAlertTime := 0, lastCriticalBatteryAlertTime := 0,
                     voltageMinSafeCounter := 0, batteryLowWarningCounter := 0,
                     batteryCriticalCounter := 0 }, [])
        else (s2, [])
      else if s2.currentState = STATE_BYPASS then
        ({ s2 with voltageMinSafeCounter := 0, batteryLowWarningCounter := 0,
                   batteryCriticalCounter := 0 }, [])
      else
        let currentTime := now
        let r1 := emergencyLevel1 g now s2
        let r2 := emergencyLevel2 g currentTime r1.1
        let r3 := emergencyLevel3 g currentTime r2.1
        (r3.1, r1.2 ++ r2.2 ++ r3.2)

/-! ## hardware_manager_buttons.cpp and hardware_manager_diagnostics.cpp: actuators -/

/-- The value `BTN_POWER` of `enum ButtonIndex`. -/
def BTN_POWER : ℤ := 0

/-- The value `BTN_FLASHLIGHT` of `enum ButtonIndex`, as an index into `pinHigh`. -/
def BTN_FLASHLIGHT : ℕ := 3

/-- The value `BTN_AC` of `enum ButtonIndex`. -/
def BTN_AC : ℤ := 4

/-- The constant `BUTTON_STANDARD_DURATION`. -/
def BUTTON_STANDARD_DURATION : ℤ := 1000

/-- The constant `FLASHLIGHT_ALERT_PULSES`. -/
def FLASHLIGHT_ALERT_PULSES : ℤ := 4

/-- The constant `FLASHLIGHT_ALERT_INTERVAL`. -/
def FLASHLIGHT_ALERT_INTERVAL : ℕ := 500

/-- The conversion of an `int` to `unsigned long`. -/
def ulongOfInt (n : ℤ) : ℕ := (n % 4294967296).toNat

/-- `HardwareManager::pressButton`, with the value returned; `now` is the value of
`millis()`. -/
def pressButton (now : ℕ) (buttonIndex duration : ℤ) (s : HW) : HW × Bool :=
  if buttonIndex < 0 ∨ buttonIndex ≥ 5 then (s, false)
  else if s.buttonActive then (s, false)
  else
    ({ s with
        buttonActive := true
        activeButtonIndex := buttonIndex
        buttonPressStartTime := now
        buttonPressDuration := ulongOfInt duration
        pinHigh := s.pinHigh.set buttonIndex.toNat true }, true)

/-- A call of `pressButton`: the button index and the duration asked for. -/
structure PressRequest where
  buttonIndex : ℤ
  duration : ℤ
  deriving DecidableEq, Repr

/-- The call `pressButton(r.buttonIndex, r.duration)` with its record: the state after the
call and the value returned, and the request made. -/
def pressButtonCall (now : ℕ) (r : PressRequest) (s : HW) : (HW × Bool) × List PressRequest :=
  (pressButton now r.buttonIndex r.duration s, [r])

/-- `HardwareManager::pressBeepButton`: `return pressButton(BTN_POWER, 500)`, with the
request it makes. -/
def pressBeepButton (now : ℕ) (s : HW) : (HW × Bool) × List PressRequest :=
  pressButtonCall now { buttonIndex := BTN_POWER, duration := 500 } s

/-- `HardwareManager::pressACButton`. -/
def pressACButton (now : ℕ) (s : HW) : HW × Bool :=
  pressButton now BTN_AC BUTTON_STANDARD_DURATION s

/-- `HardwareManager::flashlightAlert`. -/
def flashlightAlert (now : ℕ) (s : HW) : HW :=
  { s with
    flashlightAlertActive := true
    flashlightPulseCount := 0
    lastFlashlightToggle := now
    pinHigh := s.pinHigh.set BTN_FLASHLIGHT true }

/-- The first part of `HardwareManager::updateButtonState`: release of the button when its
hold time has elapsed.  The result is `none` when `activeButtonIndex` is outside
`buttonPins`. -/
def releaseButton (now : ℕ) (s : HW) : Option HW :=
  if s.buttonActive = true ∧
      timeElapsed now s.buttonPressStartTime s.buttonPressDuration = true then
    if 0 ≤ s.activeButtonIndex ∧ s.activeButtonIndex < 5 then
      some { s with
        pinHigh := s.pinHigh.set s.activeButtonIndex.toNat false
        buttonActive := false
        activeButtonIndex := -1
        buttonPressStartTime := 0
        buttonPressDuration := 0 }
    else none
  else some s

/-- The second part of `HardwareManager::updateButtonState`: the flashlight alert.
`digitalRead` of the flashlight pin gives the level last written to it. -/
def flashlightStep (now : ℕ) (s : HW) : HW :=
  if s.flashlightAlertActive = true ∧
      timeElapsed now s.lastFlashlightToggle FLASHLIGHT_ALERT_INTERVAL = true then
    let currentState := s.pinHigh.getD BTN_FLASHLIGHT false
    let s1 := { s with
      pinHigh := s.pinHigh.set BTN_FLASHLIGHT (!currentState)
      lastFlashlightToggle := now }
    if !currentState then
      let s2 := { s1 with flashlightPulseCount := s1.flashlightPulseCount + 1 }
      if s2.flashlightPulseCount ≥ FLASHLIGHT_ALERT_PULSES * 2 then
        { s2 with
          flashlightAlertActive := false
          flashlightPulseCount := 0
          lastFlashlightToggle := 0
          pinHigh := s2.pinHigh.set BTN_FLASHLIGHT false }
      else s2
    else s1
  else s

/-- `HardwareManager::updateButtonState`. -/
def updateButtonState (now : ℕ) (s : HW) : Option HW :=
  match releaseButton now s with
  | none => none
  | some s1 => some (flashlightStep now s1)

/-- The value of a 32-bit `int` expression whose exact result is `x`: two's-complement
wrap-around into `-2 ^ 31 .. 2 ^ 31 - 1`. -/
def wrapInt32 (x : ℤ) : ℤ := (x + 2147483648) % 4294967296 - 2147483648

/-- `HardwareManager::updateBeepState`, with the button-press requests it issues: the
requests are those of its call of `pressBeepButton`.  The increment `beepCount++` and the
product `totalBeepsNeeded * 2` are computed in 32-bit `int`. -/
def updateBeepState (now : ℕ) (s : HW) : HW × List PressRequest :=
  if ¬ s.isBeeping then (s, [])
  else if timeElapsed now s.lastBeepTime 500 = true then
    let s1 := { s with beepCount := wrapInt32 (s.beepCount + 1), lastBeepTime := now }
    let pressed : Bool := decide (Int.tmod s1.beepCount 2 = 1)
    let press := pressBeepButton now s1
    let s2 := if pressed then press.1.1 else s1
    let requests : List PressRequest := if pressed then press.2 else []
    if s2.beepCount ≥ wrapInt32 (s2.totalBeepsNeeded * 2) then
      ({ s2 with isBeeping := false, beepCount := 0, totalBeepsNeeded := 0 }, requests)
    else (s2, requests)
  else (s, [])

/-- What a call of `checkAutoPowerOn` does: it detects the power station turning on, it
detects it turning off, it calls `pressACButton`. -/
inductive AutoEvent where
  | powerOnDetected
  | powerOffDetected
  | acPressRequested
  deriving DecidableEq, Repr

/-- `HardwareManager::checkAutoPowerOn`, with what it detects and requests. -/
def checkAutoPowerOn (now : ℕ) (s : HW) : HW × List AutoEvent :=
  if ¬ s.autoPowerOnEnabled then (s, [])
  else
    let isPowerOn : Bool := decide (s.currentData.batteryVoltage ≥ 20)
    let turnedOn : Bool := isPowerOn && s.powerStationWasOff
    let s1 :=
      if turnedOn then
        { s with powerOnTime := now, powerStationWasOff := false, acAlreadyActivated := false }
      else s
    let turnedOff : Bool := !isPowerOn && !s1.powerStationWasOff
    let s2 := if turnedOff then { s1 with powerStationWasOff := true } else s1
    let activate : Bool :=
      (isPowerOn && !s2.acAlreadyActivated && !s2.powerStationWasOff) &&
        timeElapsed now s2.powerOnTime 5000
    let s3 :=
      if activate then { (pressACButton now s2).1 with acAlreadyActivated := true } else s2
    (s3,
      (if turnedOn then [AutoEvent.powerOnDetected] else []) ++
      (if turnedOff then [AutoEvent.powerOffDetected] else []) ++
      (if activate then [AutoEvent.acPressRequested] else []))

/-! ## Runs of the firmware -/

/-- Feeding successive raw SOC samples to `getStableSOC`, one call per sample. -/
def feedSOC (g : Globals) : List ℚ → HW → Option HW
  | [], s => some s
  | x :: xs, s =>
    match getStableSOC g x s with
    | none => none
    | some s1 => feedSOC g xs s1

/-- The place of the code that made an alarm call. -/
def Action.site : Action → CallSite
  | Action.shutdownUPS site => site
  | Action.beepAlert site _ => site

/-- The alarm calls of the block "LIVELLO 1". -/
def isLevel1 (a : Action) : Bool := decide (a.site = CallSite.level1)

/-- The alarm calls of the block "LIVELLO 2". -/
def isLevel2 (a : Action) : Bool :=
  decide (a.site = CallSite.level2Activation ∨ a.site = CallSite.level2Periodic)

/-- Two states agree on the variables that only `checkEmergencyConditions` writes: the
three debounce counters, the two alert flags, the two alert timestamps and the
power-station flag. -/
def sameAlarmState (a b : HW) : Prop :=
  a.voltageMinSafeCounter = b.voltageMinSafeCounter ∧
  a.batteryLowWarningCounter = b.batteryLowWarningCounter ∧
  a.batteryCriticalCounter = b.batteryCriticalCounter ∧
  a.lowBatteryAlertActive = b.lowBatteryAlertActive ∧
  a.criticalBatteryAlertActive = b.criticalBatteryAlertActive ∧
  a.lastLowBatteryAlertTime = b.lastLowBatteryAlertTime ∧
  a.lastCriticalBatteryAlertTime = b.lastCriticalBatteryAlertTime ∧
  a.isPowerStationOn = b.isPowerStationOn

/-- One call of `checkEmergencyConditions`: the value of `millis()` and the state on
entry. -/
structure Tick where
  now : ℕ
  pre : HW

/-- The state after a tick. -/
def Tick.post (g : Globals) (t : Tick) : HW := (checkEmergencyConditions g t.now t.pre).1

/-- The alarm calls made during a tick. -/
def Tick.actions (g : Globals) (t : Tick) : List Action :=
  (checkEmergencyConditions g t.now t.pre).2

/-- A run of consecutive ticks from state `s`: between two ticks the rest of the firmware
may change everything except the variables that only `checkEmergencyConditions` writes. -/
def alarmRun (g : Globals) : HW → List Tick → Prop
  | _, [] => True
  | s, t :: rest => sameAlarmState s t.pre ∧ alarmRun g (t.post g) rest

/-- The alarm calls made during a list of ticks, in order. -/
def runActions (g : Globals) : List Tick → List Action
  | [] => []
  | t :: rest => t.actions g ++ runActions g rest

/-- The conditions under which a tick evaluates the three alarm levels: warmed up, battery
voltage at or above the power-station-off voltage, state Rest or Discharging. -/
def Tick.evaluates (g : Globals) (t : Tick) : Prop :=
  t.pre.isWarmedUp = true ∧
  g.g_powerStationOffVoltage ≤ t.pre.currentData.batteryVoltage ∧
  (t.pre.currentState = STATE_REST ∨ t.pre.currentState = STATE_DISCHARGING)

/-- A state ready for a tick: the state `s` with the published voltage, SOC and battery
state replaced and the warm-up flag set. -/
def HW.observing (s : HW) (voltage soc : ℚ) (state : BatteryState) : HW :=
  { s with
    currentData := { s.currentData with batteryVoltage := voltage, batteryPercentage := soc }
    currentState := state
    isWarmedUp := true }

/-- The state at the end of a run of ticks started in `s`. -/
def runFinal (g : Globals) : HW → List Tick → HW
  | s, [] => s
  | _, t :: rest => runFinal g (t.post g) rest

/-- What is published before a tick: clock value, battery voltage, SOC and battery state. -/
structure Reading where
  now : ℕ
  voltage : ℚ
  soc : ℚ
  state : BatteryState

/-- The run in which every tick starts from the state left by the previous tick, with the
given readings published and the warm-up flag set. -/
def observedRun (g : Globals) : HW → List Reading → List Tick
  | _, [] => []
  | s, r :: rest =>
    { now := r.now, pre := s.observing r.voltage r.soc r.state } ::
      observedRun g (Tick.post g { now := r.now, pre := s.observing r.voltage r.soc r.state })
        rest

/-- Five readings one second apart with the battery at 23 V (below the default min-safe
voltage of 23.5 V), 50 % and discharging. -/
def fiveLowVoltageReadings : List Reading :=
  [{ now := 1000, voltage := 23, soc := 50, state := STATE_DISCHARGING },
   { now := 2000, voltage := 23, soc := 50, state := STATE_DISCHARGING },
   { now := 3000, voltage := 23, soc := 50, state := STATE_DISCHARGING },
   { now := 4000, voltage := 23, soc := 50, state := STATE_DISCHARGING },
   { now := 5000, voltage := 23, soc := 50, state := STATE_DISCHARGING }]

/-- Five readings one second apart with the battery at 25 V, 5 % and discharging. -/
def fiveCriticalReadings : List Reading :=
  [{ now := 1000, voltage := 25, soc := 5, state := STATE_DISCHARGING },
   { now := 2000, voltage := 25, soc := 5, state := STATE_DISCHARGING },
   { now := 3000, voltage := 25, soc := 5, state := STATE_DISCHARGING },
   { now := 4000, voltage := 25, soc := 5, state := STATE_DISCHARGING },
   { now := 5000, voltage := 25, soc := 5, state := STATE_DISCHARGING }]

/-- The state of a freshly constructed manager after `fiveCriticalReadings`, with the
default settings. -/
def afterFiveCritical : HW :=
  runFinal defaultGlobals HW.init (observedRun defaultGlobals HW.init fiveCriticalReadings)

/-- Two later readings at 15 %: one second and 300 seconds after the last of
`fiveCriticalReadings`. -/
def recoveryReadings : List Reading :=
  [{ now := 6000, voltage := 25, soc := 15, state := STATE_DISCHARGING },
   { now := 305000, voltage := 25, soc := 15, state := STATE_DISCHARGING }]

/-- Five readings one second apart with the battery at 25 V, 15 % and discharging. -/
def fiveLowReadings : List Reading :=
  [{ now := 1000, voltage := 25, soc := 15, state := STATE_DISCHARGING },
   { now := 2000, voltage := 25, soc := 15, state := STATE_DISCHARGING },
   { now := 3000, voltage := 25, soc := 15, state := STATE_DISCHARGING },
   { now := 4000, voltage := 25, soc := 15, state := STATE_DISCHARGING },
   { now := 5000, voltage := 25, soc := 15, state := STATE_DISCHARGING }]

/-- The state of a freshly constructed manager after `fiveLowReadings`, with the default
settings. -/
def afterFiveLow : HW :=
  runFinal defaultGlobals HW.init (observedRun defaultGlobals HW.init fiveLowReadings)

/-- A tick one second after `afterFiveLow`, still at 15 %. -/
def refireTick1 : Tick :=
  { now := 6000, pre := afterFiveLow.observing 25 15 STATE_DISCHARGING }

/-- A tick 300 seconds after `afterFiveLow`, still at 15 %. -/
def refireTick2 : Tick :=
  { now := 305000,
    pre := (refireTick1.post defaultGlobals).observing 25 15 STATE_DISCHARGING }

/-- Four readings at 23 V while discharging, then one reading at 25 V while charging. -/
def lowVoltageThenCharging : List Reading :=
  [{ now := 1000, voltage := 23, soc := 50, state := STATE_DISCHARGING },
   { now := 2000, voltage := 23, soc := 50, state := STATE_DISCHARGING },
   { now := 3000, voltage := 23, soc := 50, state := STATE_DISCHARGING },
   { now := 4000, voltage := 23, soc := 50, state := STATE_DISCHARGING },
   { now := 5000, voltage := 25, soc := 50, state := STATE_CHARGING }]

/-- The state of a freshly constructed manager after the first four readings of
`lowVoltageThenCharging`, with the charging reading published. -/
def chargingTick : Tick :=
  { now := 5000,
    pre := (runFinal defaultGlobals HW.init
      (observedRun defaultGlobals HW.init (lowVoltageThenCharging.take 4))).observing
        25 50 STATE_CHARGING }

/-- The hardware input of a `readSensors` call at 1000 ms: both currents 1 A, every
`analogRead` 3000. -/
def sampleInput : SensorInput :=
  { now := 1000, irmsMain := 1, irmsOutput := 1, analogRead := fun _ => 3000 }

/-- A manager whose SOC buffer is full of samples equal to `a`, with write index `k` and
displayed SOC `a`. -/
def stableAt (a : ℚ) (k : ℤ) : HW :=
  { HW.init with
    socBuffer := List.replicate 10 a
    socBufferIndex := k
    socBufferFull := true
    displayedSOC := a }

/-- The voltage at the ADC pin computed by `readBatteryVoltageRaw`: the mean of the
`BATTERY_ADC_SAMPLES` readings, scaled by `3.3 / 4095`. -/
def adcVoltage (inp : SensorInput) : ℚ :=
  (((List.range BATTERY_ADC_SAMPLES).foldl
      (fun acc i => (acc + inp.analogRead i) % 4294967296) 0 : ℕ) : ℚ) /
    (BATTERY_ADC_SAMPLES : ℚ) / 4095 * (33 / 10)

/-- The reference definition of the battery voltage, in the words of the specification:
the fixed-voltage override when it is configured; otherwise the divider voltage `base`
corrected by the discharge table plus the discharge offset, by the charge table plus the
charge offset, by the bypass offset of -0.20 V, or by the rest offset, according to the
battery state. -/
def voltageReference (g : Globals) (adc : ℚ) (state : BatteryState) : ℚ :=
  if g.g_fixedVoltage > 0 then g.g_fixedVoltage
  else
    match state with
    | STATE_DISCHARGING =>
      compensateVoltageDischarge (adc * g.g_batteryAdcCalibration * g.g_batteryDividerRatio) +
        g.g_voltageOffsetDischarge
    | STATE_CHARGING =>
      compensateVoltageCharge (adc * g.g_batteryAdcCalibration * g.g_batteryDividerRatio) +
        g.g_voltageOffsetCharge
    | STATE_BYPASS => adc * g.g_batteryAdcCalibration * g.g_batteryDividerRatio - 20 / 100
    | STATE_REST =>
      adc * g.g_batteryAdcCalibration * g.g_batteryDividerRatio + g.g_voltageOffsetRest

/-- The value `rawPowerIN` computed by `readSensors`. -/
def rawPowerIN (g : Globals) (inp : SensorInput) : ℚ :=
  (if inp.irmsMain - g.g_sct013OffsetIn < 5 / 100 then 0
    else inp.irmsMain - g.g_sct013OffsetIn) * g.g_mainsVoltage

/-- The value `rawPowerOUT` computed by `readSensors`. -/
def rawPowerOUT (g : Globals) (inp : SensorInput) : ℚ :=
  (if inp.irmsOutput - g.g_sct013OffsetOut < 5 / 100 then 0
    else inp.irmsOutput - g.g_sct013OffsetOut) * g.g_mainsVoltage

/-- The hardware input of a `readSensors` call at 30000 ms, when the default warm-up delay
has elapsed: 10.65 A on the input sensor (10 A after the offset, 2300 W at 230 V), 0.55 A
on the output sensor (0 A after the offset), every `analogRead` 3000. -/
def overloadInput : SensorInput :=
  { now := 30000, irmsMain := 1065 / 100, irmsOutput := 55 / 100,
    analogRead := fun _ => 3000 }

/-- The tick at 6000 ms after `afterFiveCritical`, with the SOC back at 15 %. -/
def recoveryTick : Tick :=
  { now := 6000, pre := afterFiveCritical.observing 25 15 STATE_DISCHARGING }

/-- A tick on a freshly constructed manager with state Bypass published. -/
def bypassTick : Tick :=
  { now := 1000, pre := HW.init.observing 25 50 STATE_BYPASS }

/-- Successive calls of `updateButtonState` at the given clock values. -/
def pollButtons : List ℕ → HW → Option HW
  | [], s => some s
  | now :: rest, s =>
    match updateButtonState now s with
    | none => none
    | some s1 => pollButtons rest s1

/-- The level of the flashlight output after each of successive calls of
`updateButtonState` at the given clock values. -/
def flashlightLevels : List ℕ → HW → List Bool
  | [], _ => []
  | now :: rest, s =>
    match updateButtonState now s with
    | none => []
    | some s1 => s1.pinHigh.getD BTN_FLASHLIGHT false :: flashlightLevels rest s1

/-- The clock values 500, 1000, ..., `500 * n`. -/
def pollTimes (n : ℕ) : List ℕ := (List.range n).map (fun k => 500 * (k + 1))

/-- One call of `updateBeepState`: the value of `millis()` and the state on entry. -/
structure BeepPoll where
  now : ℕ
  pre : HW

/-- The state after a call of `updateBeepState`. -/
def BeepPoll.post (p : BeepPoll) : HW := (updateBeepState p.now p.pre).1

/-- The button-press requests issued during a call of `updateBeepState`. -/
def BeepPoll.requests (p : BeepPoll) : List PressRequest := (updateBeepState p.now p.pre).2

/-- One call of `checkAutoPowerOn`: the value of `millis()` and the state on entry. -/
structure AutoCall where
  now : ℕ
  pre : HW

/-- The state after a call of `checkAutoPowerOn`. -/
def AutoCall.post (c : AutoCall) : HW := (checkAutoPowerOn c.now c.pre).1

/-- What a call of `checkAutoPowerOn` detects and requests. -/
def AutoCall.events (c : AutoCall) : List AutoEvent := (checkAutoPowerOn c.now c.pre).2

/-- Two states agree on the variables that only `checkAutoPowerOn` writes. -/
def sameAutoState (a b : HW) : Prop :=
  a.powerStationWasOff = b.powerStationWasOff ∧
  a.acAlreadyActivated = b.acAlreadyActivated ∧ a.powerOnTime = b.powerOnTime

/-- A run of consecutive calls of `checkAutoPowerOn` from state `s`: between two calls the
rest of the firmware may change everything except the variables that only
`checkAutoPowerOn` writes. -/
def autoRun : HW → List AutoCall → Prop
  | _, [] => True
  | s, c :: rest => sameAutoState s c.pre ∧ autoRun c.post rest

/-- The detections and requests of a list of calls, in order. -/
def autoEvents : List AutoCall → List AutoEvent
  | [] => []
  | c :: rest => c.events ++ autoEvents rest

/-- The one-shot rule of the specification as a monitor on a trace, with `armed` telling
that a power-on was detected since the last power-off detection, and `fired` that a
request was issued since the last power-on detection: a request is allowed only when
armed and not fired. -/
def oneShot : Bool → Bool → List AutoEvent → Bool
  | _, _, [] => true
  | _, _, AutoEvent.powerOnDetected :: rest => oneShot true false rest
  | _, fired, AutoEvent.powerOffDetected :: rest => oneShot false fired rest
  | armed, fired, AutoEvent.acPressRequested :: rest =>
    armed && !fired && oneShot armed true rest

/-- The run in which every call of `checkAutoPowerOn` starts from the state left by the
previous call, with the feature enabled and the given battery voltage published, at the
given clock values. -/
def autoCalls : HW → List (ℕ × ℚ) → List AutoCall
  | _, [] => []
  | s, (now, voltage) :: rest =>
    { now := now,
      pre := { s with autoPowerOnEnabled := true,
                      currentData := { s.currentData with batteryVoltage := voltage } } } ::
      autoCalls
        (AutoCall.post
          { now := now,
            pre := { s with autoPowerOnEnabled := true,
                            currentData := { s.currentData with batteryVoltage := voltage } } })
        rest

/-- Calls at 1000 ms, 7000 ms and 8000 ms with the battery at 25 V, at 9000 ms with the
battery at 0 V, at 10000 ms and 16000 ms with the battery at 25 V again. -/
def powerCycleCalls : List AutoCall :=
  autoCalls HW.init [(1000, 25), (7000, 25), (8000, 25), (9000, 0), (10000, 25), (16000, 25)]

/-! ## hardware_manager_sensors.cpp: advanced settings -/

/-- The `struct AdvancedSettings` of `config.h`. -/
structure AdvancedSettings where
  powerThreshold : ℚ
  powerFilterAlpha : ℚ
  voltageMinSafe : ℚ
  batteryLowWarning : ℚ
  batteryCritical : ℚ
  autoPowerOnDelay : ℕ
  socBufferSize : ℤ
  socChangeThreshold : ℤ
  powerStationOffVoltage : ℚ
  warmupDelay : ℕ
  maxPowerReading : ℚ
  valid : Bool

/-- `HardwareManager::getAdvancedSettings`. -/
def getAdvancedSettings (g : Globals) : AdvancedSettings :=
  { powerStationOffVoltage := g.g_powerStationOffVoltage
    powerThreshold := g.g_powerThreshold
    powerFilterAlpha := g.g_powerFilterAlpha
    voltageMinSafe := g.g_voltageMinSafe
    batteryLowWarning := g.g_batteryLowWarning
    batteryCritical := g.g_batteryCritical
    autoPowerOnDelay := g.g_autoPowerOnDelay
    socBufferSize := g.g_socBufferSize
    socChangeThreshold := g.g_socChangeThreshold
    warmupDelay := g.g_warmupDelay
    maxPowerReading := g.g_maxPowerReading
    valid := true }

/-- `HardwareManager::applyAdvancedSettings`: every field is copied to its global as it
is. -/
def applyAdvancedSettings (settings : AdvancedSettings) (g : Globals) : Globals :=
  { g with
    g_powerStationOffVoltage := settings.powerStationOffVoltage
    g_powerThreshold := settings.powerThreshold
    g_powerFilterAlpha := settings.powerFilterAlpha
    g_voltageMinSafe := settings.voltageMinSafe
    g_batteryLowWarning := settings.batteryLowWarning
    g_batteryCritical := settings.batteryCritical
    g_autoPowerOnDelay := settings.autoPowerOnDelay
    g_socBufferSize := settings.socBufferSize
    g_socChangeThreshold := settings.socChangeThreshold
    g_warmupDelay := settings.warmupDelay
    g_maxPowerReading := settings.maxPowerReading }

/-! ## Further runs and reference definitions -/

/-- Calls of `checkAutoPowerOn` at 1000 ms, 3000 ms and 6000 ms on a freshly constructed
manager with the feature enabled and the battery at 25 V. -/
def delayCalls : List AutoCall :=
  autoCalls HW.init [(1000, 25), (3000, 25), (6000, 25)]

/-- The first three of `fiveCriticalReadings`. -/
def threeCriticalReadings : List Reading := fiveCriticalReadings.take 3

/-- The state of a freshly constructed manager after `threeCriticalReadings`, with the
default settings. -/
def afterThreeCritical : HW :=
  runFinal defaultGlobals HW.init (observedRun defaultGlobals HW.init threeCriticalReadings)

/-- The first tick of a freshly constructed manager, warmed up, with the battery at 23 V
and 5 %, discharging: the power station is seen on for the first time. -/
def edgeTick : Tick :=
  { now := 1000, pre := HW.init.observing 23 5 STATE_DISCHARGING }

/-- The default settings with the SOC buffer size set to 11 through
`applyAdvancedSettings`. -/
def oversizeGlobals : Globals :=
  applyAdvancedSettings { getAdvancedSettings defaultGlobals with socBufferSize := 11 }
    defaultGlobals

/-- The reference definition of the median of a list of samples: the middle entry of the
samples put in increasing order, or the mean of the two middle entries when the number of
samples is even. -/
def medianOf (samples : List ℚ) : ℚ :=
  if samples.length % 2 = 0 then
    ((samples.insertionSort (· ≤ ·)).getD (samples.length / 2 - 1) 0 +
      (samples.insertionSort (· ≤ ·)).getD (samples.length / 2) 0) / 2
  else (samples.insertionSort (· ≤ ·)).getD (samples.length / 2) 0

/-- A manager that displays 50 % and holds the four samples 50, 50, 60, 60. -/
def fourSamples : HW :=
  { HW.init with
    socBuffer := [50, 50, 60, 60, 0, 0, 0, 0, 0, 0]
    socBufferIndex := 4
    displayedSOC := 50 }

/-- The manager `fourSamples` after a fifth sample of 60 % is pushed. -/
def fiveSamples : HW :=
  { fourSamples with
    socBuffer := [50, 50, 60, 60, 60, 0, 0, 0, 0, 0]
    socBufferIndex := 5 }

/-! ## Properties of the state classifier -/

theorem fabs_eq_abs (x : ℚ) : fabs x = |x| := by
  unfold fabs
  split_ifs with h
  · exact (abs_of_pos h).symm
  · exact (abs_of_nonpos (not_lt.mp h)).symm

/-- C1: `detectState` is Bypass exactly when both powers exceed the threshold and
`|in - out| < 0.3 * min(in, out)`; otherwise it is Charging when `in - out > T`, otherwise
Discharging when `in - out < -T`, otherwise Rest.  With `T = 10` the pairs `(100, 95)`,
`(100, 0)`, `(0, 100)` and `(5, 5)` give Bypass, Charging, Discharging and Rest. -/
theorem detectState_classification (g : Globals) (powerIN powerOUT : ℚ) :
    (detectState g powerIN powerOUT = STATE_BYPASS ↔
      (powerIN > g.g_powerThreshold ∧ powerOUT > g.g_powerThreshold ∧
        |powerIN - powerOUT| < 3 / 10 * min powerIN powerOUT)) ∧
    detectState g powerIN powerOUT =
      (if powerIN > g.g_powerThreshold ∧ powerOUT > g.g_powerThreshold ∧
          |powerIN - powerOUT| < 3 / 10 * min powerIN powerOUT then STATE_BYPASS
        else if powerIN - powerOUT > g.g_powerThreshold then STATE_CHARGING
        else if powerIN - powerOUT < -g.g_powerThreshold then STATE_DISCHARGING
        else STATE_REST) ∧
    detectState { g with g_powerThreshold := 10 } 100 95 = STATE_BYPASS ∧
    detectState { g with g_powerThreshold := 10 } 100 0 = STATE_CHARGING ∧
    detectState { g with g_powerThreshold := 10 } 0 100 = STATE_DISCHARGING ∧
    detectState { g with g_powerThreshold := 10 } 5 5 = STATE_REST := by
  have key : detectState g powerIN powerOUT =
      (if powerIN > g.g_powerThreshold ∧ powerOUT > g.g_powerThreshold ∧
          |powerIN - powerOUT| < 3 / 10 * min powerIN powerOUT then STATE_BYPASS
        else if powerIN - powerOUT > g.g_powerThreshold then STATE_CHARGING
        else if powerIN - powerOUT < -g.g_powerThreshold then STATE_DISCHARGING
        else STATE_REST) := by
    unfold detectState
    rw [fabs_eq_abs, mul_comm (min powerIN powerOUT) (3 / 10)]
  refine ⟨?_, key, ?_, ?_, ?_, ?_⟩
  · rw [key]
    constructor
    · intro h
      by_contra hc
      rw [if_neg hc] at h
      split_ifs at h
    · intro h
      rw [if_pos h]
  · unfold detectState fabs
    norm_num
  · unfold detectState fabs
    norm_num
  · unfold detectState fabs
    norm_num
  · unfold detectState fabs
    norm_num

/-! ## Properties of the SOC estimator -/

/-- The loop of `voltageToBatteryPercent` returns at the first segment whose lower voltage
is at most `v`, provided `v` is below the voltage of the starting row and at least the
voltage of the last row scanned. -/
theorem curveScan_bracket (curve : List (ℚ × ℚ)) (v : ℚ) :
    ∀ (remaining i : ℕ), v < curveVoltage curve i → curveVoltage curve (i + remaining) ≤ v →
      ∃ k, i ≤ k ∧ k < i + remaining ∧ curveVoltage curve (k + 1) ≤ v ∧
        v < curveVoltage curve k ∧
        curveScan curve v remaining i = some (segmentValue curve v k) := by
  intro remaining
  induction remaining with
  | zero =>
    intro i h1 h2
    exact absurd (lt_of_lt_of_le h1 h2) (lt_irrefl _)
  | succ n ih =>
    intro i h1 h2
    by_cases hc : v ≥ curveVoltage curve (i + 1)
    · refine ⟨i, le_rfl, by omega, hc, h1, ?_⟩
      simp only [curveScan]
      rw [if_pos ⟨hc, le_of_lt h1⟩]
    · have h3 : v < curveVoltage curve (i + 1) := not_le.mp hc
      have h4 : curveVoltage curve (i + 1 + n) ≤ v := by
        have : i + 1 + n = i + (n + 1) := by omega
        rw [this]
        exact h2
      obtain ⟨k, hk1, hk2, hk3, hk4, hk5⟩ := ih (i + 1) h3 h4
      refine ⟨k, by omega, by omega, hk3, hk4, ?_⟩
      simp only [curveScan]
      rw [if_neg (fun h => hc h.1)]
      exact hk5

theorem curveVoltage_eq (curve : List (ℚ × ℚ)) (i : ℕ) (p u : ℚ)
    (h : curve[i]? = some (p, u)) : curveVoltage curve i = u := by
  simp [curveVoltage, List.getD, h]

theorem curvePercent_eq (curve : List (ℚ × ℚ)) (i : ℕ) (p u : ℚ)
    (h : curve[i]? = some (p, u)) : curvePercent curve i = p := by
  simp [curvePercent, List.getD, h]

theorem curve_getElem?_of_lt (curve : List (ℚ × ℚ)) (i : ℕ) (h : i < curve.length) :
    curve[i]? = some (curvePercent curve i, curveVoltage curve i) := by
  simp [curvePercent, curveVoltage, List.getD, List.getElem?_eq_getElem h]

/-- The body of `voltageToBatteryPercent` on an arbitrary table of `n + 1` rows: clamp at
both ends, and between them the interpolation on a segment that brackets `v` and has a
non-zero width; the loop never falls through. -/
theorem percentOn_cases (curve : List (ℚ × ℚ)) (n : ℕ) (hn : curve.length = n + 1) (v : ℚ) :
    if v ≤ curveVoltage curve n then percentOn curve (n + 1) v = 0
    else if curveVoltage curve 0 ≤ v then percentOn curve (n + 1) v = 100
    else
      ∃ i percentHigh vHigh percentLow vLow,
        curve[i]? = some (percentHigh, vHigh) ∧ curve[i + 1]? = some (percentLow, vLow) ∧
        vLow ≤ v ∧ v ≤ vHigh ∧ vLow < vHigh ∧
        curveScan curve v n 0 =
          some (percentLow + (v - vLow) * (percentHigh - percentLow) / (vHigh - vLow)) ∧
        percentOn curve (n + 1) v =
          percentLow + (v - vLow) * (percentHigh - percentLow) / (vHigh - vLow) := by
  unfold percentOn
  simp only [Nat.add_sub_cancel]
  by_cases h1 : v ≤ curveVoltage curve n
  · simp only [if_pos h1]
  · by_cases h2 : curveVoltage curve 0 ≤ v
    · simp only [if_neg h1, if_pos h2, ge_iff_le, if_true]
    · simp only [if_neg h1, if_neg h2, ge_iff_le, if_false]
      obtain ⟨k, _, hk2, hk3, hk4, hk5⟩ :=
        curveScan_bracket curve v n 0 (not_le.mp h2) (by simpa using le_of_lt (not_le.mp h1))
      refine ⟨k, curvePercent curve k, curveVoltage curve k, curvePercent curve (k + 1),
        curveVoltage curve (k + 1), curve_getElem?_of_lt curve k (by omega),
        curve_getElem?_of_lt curve (k + 1) (by omega), hk3, le_of_lt hk4,
        lt_of_le_of_lt hk3 hk4, ?_, ?_⟩
      · exact hk5
      · rw [hk5]
        rfl

/-- C2: `voltageToBatteryPercent` uses the 18-point charging curve exactly in the Charging
state and the 23-point normal curve otherwise; it is 0 at or below the lowest curve voltage
(22.70 normal, 24.00 charging), 100 at or above the highest (26.70), and otherwise
`percentLow + (v - vLow) * (percentHigh - percentLow) / (vHigh - vLow)` for two adjacent
curve rows with `vLow ≤ v ≤ vHigh` and `vLow < vHigh`: the divisor is not zero and the loop
returns, so the trailing `return 0.0` is not reached. -/
theorem voltageToBatteryPercent_reference (currentState : BatteryState) (v : ℚ) :
    (selectCurve currentState =
      if currentState = STATE_CHARGING then BATTERY_CURVE_CHARGE else BATTERY_CURVE_NORMAL) ∧
    (selectCurve currentState).length = selectPoints currentState ∧
    (selectCurve currentState).length = (if currentState = STATE_CHARGING then 18 else 23) ∧
    (selectCurve currentState)[selectPoints currentState - 1]? =
      some (0, if currentState = STATE_CHARGING then 24 else 2270 / 100) ∧
    (selectCurve currentState)[0]? = some (100, 2670 / 100) ∧
    (if v ≤ (if currentState = STATE_CHARGING then 24 else 2270 / 100) then
      voltageToBatteryPercent currentState v = 0
    else if 2670 / 100 ≤ v then
      voltageToBatteryPercent currentState v = 100
    else
      ∃ i percentHigh vHigh percentLow vLow,
        (selectCurve currentState)[i]? = some (percentHigh, vHigh) ∧
        (selectCurve currentState)[i + 1]? = some (percentLow, vLow) ∧
        vLow ≤ v ∧ v ≤ vHigh ∧ vLow < vHigh ∧
        curveScan (selectCurve currentState) v (selectPoints currentState - 1) 0 =
          some (percentLow + (v - vLow) * (percentHigh - percentLow) / (vHigh - vLow)) ∧
        voltageToBatteryPercent currentState v =
          percentLow + (v - vLow) * (percentHigh - percentLow) / (vHigh - vLow)) := by
  by_cases hs : currentState = STATE_CHARGING
  · have hlow : curveVoltage BATTERY_CURVE_CHARGE 17 = 24 := by
      norm_num [curveVoltage, BATTERY_CURVE_CHARGE]
    have hhigh : curveVoltage BATTERY_CURVE_CHARGE 0 = 2670 / 100 := by
      norm_num [curveVoltage, BATTERY_CURVE_CHARGE]
    have key := percentOn_cases BATTERY_CURVE_CHARGE 17 (by simp [BATTERY_CURVE_CHARGE]) v
    rw [hlow, hhigh] at key
    simp only [selectCurve, selectPoints, if_pos hs, CURVE_CHARGE_POINTS,
      voltageToBatteryPercent, hlow, hhigh]
    refine ⟨trivial, by simp [BATTERY_CURVE_CHARGE], by simp [BATTERY_CURVE_CHARGE],
      by norm_num [BATTERY_CURVE_CHARGE], by norm_num [BATTERY_CURVE_CHARGE], key⟩
  · have hlow : curveVoltage BATTERY_CURVE_NORMAL 22 = 2270 / 100 := by
      norm_num [curveVoltage, BATTERY_CURVE_NORMAL]
    have hhigh : curveVoltage BATTERY_CURVE_NORMAL 0 = 2670 / 100 := by
      norm_num [curveVoltage, BATTERY_CURVE_NORMAL]
    have key := percentOn_cases BATTERY_CURVE_NORMAL 22 (by simp [BATTERY_CURVE_NORMAL]) v
    rw [hlow, hhigh] at key
    simp only [selectCurve, selectPoints, if_neg hs, CURVE_NORMAL_POINTS,
      voltageToBatteryPercent, hlow, hhigh]
    refine ⟨trivial, by simp [BATTERY_CURVE_NORMAL], by simp [BATTERY_CURVE_NORMAL],
      by norm_num [BATTERY_CURVE_NORMAL], by norm_num [BATTERY_CURVE_NORMAL], key⟩

/-- On a segment with `vLow ≤ vHigh` and `percentLow ≤ percentHigh` the interpolated value
lies between the two percentages and grows with the voltage. -/
theorem interpolation_bounds (pH vH pL vL v : ℚ) (hp : pL ≤ pH) (h1 : vL ≤ v) (h2 : v ≤ vH) :
    pL ≤ pL + (v - vL) * (pH - pL) / (vH - vL) ∧
      pL + (v - vL) * (pH - pL) / (vH - vL) ≤ pH := by
  have hd : 0 ≤ vH - vL := by linarith
  have hn : 0 ≤ (v - vL) * (pH - pL) := mul_nonneg (by linarith) (by linarith)
  refine ⟨by linarith [div_nonneg hn hd], ?_⟩
  rcases eq_or_lt_of_le hd with h0 | hpos
  · rw [← h0, div_zero]
    linarith
  · have : (v - vL) * (pH - pL) / (vH - vL) ≤ pH - pL := by
      rw [div_le_iff₀ hpos]
      nlinarith
    linarith

theorem interpolation_mono (pH vH pL vL v1 v2 : ℚ) (hp : pL ≤ pH) (hv : vL ≤ vH)
    (h12 : v1 ≤ v2) :
    pL + (v1 - vL) * (pH - pL) / (vH - vL) ≤ pL + (v2 - vL) * (pH - pL) / (vH - vL) := by
  have hd : 0 ≤ vH - vL := by linarith
  have : (v1 - vL) * (pH - pL) ≤ (v2 - vL) * (pH - pL) :=
    mul_le_mul_of_nonneg_right (by linarith) (by linarith)
  linarith [div_le_div_of_nonneg_right this hd]

/-- A result of the loop started at row `i` is at most the percentage of row `i`. -/
theorem curveScan_le (curve : List (ℚ × ℚ)) (n : ℕ)
    (hord : ∀ k, k < n → curveVoltage curve (k + 1) ≤ curveVoltage curve k ∧
      curvePercent curve (k + 1) ≤ curvePercent curve k) (v : ℚ) :
    ∀ (remaining i : ℕ) (r : ℚ), i + remaining ≤ n →
      curveScan curve v remaining i = some r → r ≤ curvePercent curve i := by
  intro remaining
  induction remaining with
  | zero =>
    intro i r _ h
    simp [curveScan] at h
  | succ m ih =>
    intro i r hi h
    simp only [curveScan] at h
    split_ifs at h with hc
    · have hr : r = segmentValue curve v i := (Option.some.inj h).symm
      rw [hr]
      exact (interpolation_bounds _ _ _ _ v (hord i (by omega)).2 hc.1 hc.2).2
    · exact le_trans (ih (i + 1) r (by omega) h) (hord i (by omega)).2

/-- A result of the loop is at least the percentage of the last row scanned. -/
theorem curveScan_ge (curve : List (ℚ × ℚ)) (n : ℕ)
    (hord : ∀ k, k < n → curveVoltage curve (k + 1) ≤ curveVoltage curve k ∧
      curvePercent curve (k + 1) ≤ curvePercent curve k) (v : ℚ) :
    ∀ (remaining i : ℕ) (r : ℚ), i + remaining ≤ n →
      curveScan curve v remaining i = some r → curvePercent curve n ≤ r := by
  have chain : ∀ (m i : ℕ), i + m ≤ n → curvePercent curve (i + m) ≤ curvePercent curve i := by
    intro m
    induction m with
    | zero => intro i _; exact le_rfl
    | succ m ihm =>
      intro i hi
      have h1 := ihm (i + 1) (by omega)
      have h2 := (hord i (by omega)).2
      have e : i + 1 + m = i + (m + 1) := by omega
      rw [e] at h1
      exact le_trans h1 h2
  intro remaining
  induction remaining with
  | zero =>
    intro i r _ h
    simp [curveScan] at h
  | succ m ih =>
    intro i r hi h
    simp only [curveScan] at h
    split_ifs at h with hc
    · have hr : r = segmentValue curve v i := (Option.some.inj h).symm
      rw [hr]
      have hb := (interpolation_bounds _ _ _ _ v (hord i (by omega)).2 hc.1 hc.2).1
      have hch := chain (n - (i + 1)) (i + 1) (by omega)
      have e : i + 1 + (n - (i + 1)) = n := by omega
      rw [e] at hch
      exact le_trans hch hb
    · exact ih (i + 1) r (by omega) h

/-- Above the voltage of the starting row the loop finds no segment. -/
theorem curveScan_none (curve : List (ℚ × ℚ)) (n : ℕ)
    (hord : ∀ k, k < n → curveVoltage curve (k + 1) ≤ curveVoltage curve k ∧
      curvePercent curve (k + 1) ≤ curvePercent curve k) (v : ℚ) :
    ∀ (remaining i : ℕ), i + remaining ≤ n → curveVoltage curve i < v →
      curveScan curve v remaining i = none := by
  intro remaining
  induction remaining with
  | zero =>
    intro i _ _
    rfl
  | succ m ih =>
    intro i hi h
    simp only [curveScan]
    rw [if_neg (fun hc => absurd hc.2 (not_le.mpr h))]
    exact ih (i + 1) (by omega) (lt_of_le_of_lt (hord i (by omega)).1 h)

/-- The loop is monotone in the voltage on a table whose voltages and percentages do not
increase from one row to the next. -/
theorem curveScan_mono (curve : List (ℚ × ℚ)) (n : ℕ)
    (hord : ∀ k, k < n → curveVoltage curve (k + 1) ≤ curveVoltage curve k ∧
      curvePercent curve (k + 1) ≤ curvePercent curve k) (v1 v2 : ℚ) (h12 : v1 ≤ v2) :
    ∀ (remaining i : ℕ) (r1 r2 : ℚ), i + remaining ≤ n →
      curveScan curve v1 remaining i = some r1 → curveScan curve v2 remaining i = some r2 →
      r1 ≤ r2 := by
  intro remaining
  induction remaining with
  | zero =>
    intro i r1 r2 _ h
    simp [curveScan] at h
  | succ m ih =>
    intro i r1 r2 hi h1 h2
    simp only [curveScan] at h1 h2
    have ho := hord i (by omega)
    by_cases c2 : v2 ≥ curveVoltage curve (i + 1) ∧ v2 ≤ curveVoltage curve i
    · rw [if_pos c2] at h2
      have e2 : r2 = segmentValue curve v2 i := (Option.some.inj h2).symm
      by_cases c1 : v1 ≥ curveVoltage curve (i + 1) ∧ v1 ≤ curveVoltage curve i
      · rw [if_pos c1] at h1
        have e1 : r1 = segmentValue curve v1 i := (Option.some.inj h1).symm
        rw [e1, e2]
        exact interpolation_mono _ _ _ _ v1 v2 ho.2 ho.1 h12
      · rw [if_neg c1] at h1
        have hA := curveScan_le curve n hord v1 m (i + 1) r1 (by omega) h1
        have hB := (interpolation_bounds _ _ _ _ v2 ho.2 c2.1 c2.2).1
        rw [e2]
        exact le_trans hA hB
    · rw [if_neg c2] at h2
      by_cases c1 : v1 ≥ curveVoltage curve (i + 1) ∧ v1 ≤ curveVoltage curve i
      · have hgt : curveVoltage curve i < v2 := by
          by_contra hle
          exact c2 ⟨le_trans c1.1 h12, not_lt.mp hle⟩
        have hnone := curveScan_none curve n hord v2 m (i + 1) (by omega)
          (lt_of_le_of_lt ho.1 hgt)
        rw [hnone] at h2
        exact absurd h2 (by simp)
      · rw [if_neg c1] at h1
        exact ih (i + 1) r1 r2 (by omega) h1 h2

/-- The body of `voltageToBatteryPercent` is monotone on every table of `n + 1` rows whose
voltages and percentages do not increase from one row to the next, whose first percentage
is 100 and whose last percentage is 0. -/
theorem percentOn_mono (curve : List (ℚ × ℚ)) (n : ℕ)
    (hord : ∀ k, k < n → curveVoltage curve (k + 1) ≤ curveVoltage curve k ∧
      curvePercent curve (k + 1) ≤ curvePercent curve k)
    (h100 : curvePercent curve 0 = 100) (h0 : curvePercent curve n = 0)
    (v1 v2 : ℚ) (h12 : v1 ≤ v2) :
    percentOn curve (n + 1) v1 ≤ percentOn curve (n + 1) v2 := by
  have bounds : ∀ v, 0 ≤ percentOn curve (n + 1) v ∧ percentOn curve (n + 1) v ≤ 100 := by
    intro v
    unfold percentOn
    simp only [Nat.add_sub_cancel]
    split_ifs
    · exact ⟨le_rfl, by norm_num⟩
    · exact ⟨by norm_num, le_rfl⟩
    · cases hsc : curveScan curve v n 0 with
      | none => exact ⟨le_rfl, by norm_num⟩
      | some r =>
        have hA := curveScan_le curve n hord v n 0 r (by omega) hsc
        have hB := curveScan_ge curve n hord v n 0 r (by omega) hsc
        rw [h100] at hA
        rw [h0] at hB
        exact ⟨hB, hA⟩
  by_cases a1 : v1 ≤ curveVoltage curve n
  · have e : percentOn curve (n + 1) v1 = 0 := by
      unfold percentOn
      simp only [Nat.add_sub_cancel]
      rw [if_pos a1]
    rw [e]
    exact (bounds v2).1
  · have a2 : ¬ v2 ≤ curveVoltage curve n := fun h => a1 (le_trans h12 h)
    by_cases b2 : v2 ≥ curveVoltage curve 0
    · have e : percentOn curve (n + 1) v2 = 100 := by
        unfold percentOn
        simp only [Nat.add_sub_cancel]
        rw [if_neg a2, if_pos b2]
      rw [e]
      exact (bounds v1).2
    · have b1 : ¬ v1 ≥ curveVoltage curve 0 := fun h => b2 (le_trans h h12)
      obtain ⟨k1, _, _, _, _, hs1⟩ := curveScan_bracket curve v1 n 0 (not_le.mp b1)
        (by simpa using le_of_lt (not_le.mp a1))
      obtain ⟨k2, _, _, _, _, hs2⟩ := curveScan_bracket curve v2 n 0 (not_le.mp b2)
        (by simpa using le_of_lt (not_le.mp a2))
      have := curveScan_mono curve n hord v1 v2 h12 n 0 _ _ (by omega) hs1 hs2
      unfold percentOn
      simp only [Nat.add_sub_cancel]
      rw [if_neg a1, if_neg b1, if_neg a2, if_neg b2, hs1, hs2]
      exact this

theorem normalCurve_ordered : ∀ k, k < 22 →
    curveVoltage BATTERY_CURVE_NORMAL (k + 1) ≤ curveVoltage BATTERY_CURVE_NORMAL k ∧
      curvePercent BATTERY_CURVE_NORMAL (k + 1) ≤ curvePercent BATTERY_CURVE_NORMAL k := by
  intro k hk
  interval_cases k <;>
    simp only [curveVoltage, curvePercent, BATTERY_CURVE_NORMAL] <;> norm_num

theorem chargeCurve_ordered : ∀ k, k < 17 →
    curveVoltage BATTERY_CURVE_CHARGE (k + 1) ≤ curveVoltage BATTERY_CURVE_CHARGE k ∧
      curvePercent BATTERY_CURVE_CHARGE (k + 1) ≤ curvePercent BATTERY_CURVE_CHARGE k := by
  intro k hk
  interval_cases k <;>
    simp only [curveVoltage, curvePercent, BATTERY_CURVE_CHARGE] <;> norm_num

/-- C3: `voltageToBatteryPercent` is monotonically non-decreasing in the voltage, in the
Charging state (charging curve) and in every other state (normal curve). -/
theorem voltageToBatteryPercent_monotone (currentState : BatteryState) (v1 v2 : ℚ)
    (h : v1 ≤ v2) :
    voltageToBatteryPercent currentState v1 ≤ voltageToBatteryPercent currentState v2 := by
  unfold voltageToBatteryPercent selectCurve selectPoints
  by_cases hs : currentState = STATE_CHARGING
  · rw [if_pos hs, if_pos hs]
    exact percentOn_mono BATTERY_CURVE_CHARGE 17 chargeCurve_ordered
      (by norm_num [curvePercent, BATTERY_CURVE_CHARGE])
      (by norm_num [curvePercent, BATTERY_CURVE_CHARGE]) v1 v2 h
  · rw [if_neg hs, if_neg hs]
    exact percentOn_mono BATTERY_CURVE_NORMAL 22 normalCurve_ordered
      (by norm_num [curvePercent, BATTERY_CURVE_NORMAL])
      (by norm_num [curvePercent, BATTERY_CURVE_NORMAL]) v1 v2 h

/-- Witness for C3: on the normal curve 25.94 V gives at most what 25.95 V gives. -/
theorem voltageToBatteryPercent_monotone_witness :
    (2594 / 100 : ℚ) ≤ 2595 / 100 ∧
      voltageToBatteryPercent STATE_REST (2594 / 100) ≤
        voltageToBatteryPercent STATE_REST (2595 / 100) :=
  ⟨by norm_num, voltageToBatteryPercent_monotone STATE_REST (2594 / 100) (2595 / 100)
    (by norm_num)⟩

/-! ## `sortArray` sorts -/

/-- One step of the inner loop on a list split at the two indices compared. -/
theorem swapIfGreater_split (pre done todo : List ℚ) (cur y : ℚ) :
    swapIfGreater (pre ++ cur :: (done ++ y :: todo)) pre.length (pre.length + 1 + done.length) =
      if cur > y then pre ++ y :: (done ++ cur :: todo)
      else pre ++ cur :: (done ++ y :: todo) := by
  have g1 : (pre ++ cur :: (done ++ y :: todo)).getD pre.length 0 = cur := by
    rw [List.getD_append_right _ _ _ _ (le_refl _)]
    simp
  have g2 : (pre ++ cur :: (done ++ y :: todo)).getD (pre.length + 1 + done.length) 0 = y := by
    rw [List.getD_append_right _ _ _ _ (by omega)]
    have e : pre.length + 1 + done.length - pre.length = done.length + 1 := by omega
    rw [e, List.getD_cons_succ, List.getD_append_right _ _ _ _ (le_refl _)]
    simp
  unfold swapIfGreater
  rw [g1, g2]
  split_ifs with h
  · simp only
    rw [List.set_append_right _ _ (le_refl _), Nat.sub_self, List.set_cons_zero,
      List.set_append_right _ _ (by omega)]
    have e : pre.length + 1 + done.length - pre.length = done.length + 1 := by omega
    rw [e, List.set_cons_succ, List.set_append_right _ _ (le_refl _), Nat.sub_self,
      List.set_cons_zero]
  · rfl

/-- The inner loop of `sortArray` moves a least element of the unsorted part to index `i`
and permutes the rest. -/
theorem sortInner_loop (pre : List ℚ) :
    ∀ (todo done : List ℚ) (cur : ℚ), (∀ z ∈ done, cur ≤ z) →
      ∃ m rest, (List.range' (pre.length + 1 + done.length) todo.length).foldl
          (fun a j => swapIfGreater a pre.length j) (pre ++ cur :: (done ++ todo)) =
            pre ++ m :: rest ∧
        (m :: rest).Perm (cur :: (done ++ todo)) ∧ (∀ z ∈ rest, m ≤ z) := by
  intro todo
  induction todo with
  | nil =>
    intro done cur h
    exact ⟨cur, done, by simp, by simp, h⟩
  | cons y todo ih =>
    intro done cur h
    simp only [List.length_cons, List.range'_succ, List.foldl_cons]
    rw [swapIfGreater_split]
    by_cases hc : cur > y
    · rw [if_pos hc]
      have hinv : ∀ z ∈ done ++ [cur], y ≤ z := by
        intro z hz
        rcases List.mem_append.mp hz with hz | hz
        · exact le_trans (le_of_lt hc) (h z hz)
        · rw [List.mem_singleton.mp hz]
          exact le_of_lt hc
      obtain ⟨m, rest, e, p, hm⟩ := ih (done ++ [cur]) y hinv
      refine ⟨m, rest, ?_, ?_, hm⟩
      · have e1 : pre.length + 1 + (done ++ [cur]).length = pre.length + 1 + done.length + 1 := by
          simp
          omega
        rw [e1] at e
        simp at e ⊢
        exact e
      · refine p.trans ?_
        have : (y :: (done ++ [cur] ++ todo)).Perm (y :: cur :: (done ++ todo)) := by
          refine List.Perm.cons y ?_
          simp
        refine this.trans ?_
        refine (List.Perm.swap cur y (done ++ todo)).trans ?_
        exact List.Perm.cons cur (@List.perm_middle ℚ y done todo).symm
    · rw [if_neg hc]
      have hinv : ∀ z ∈ done ++ [y], cur ≤ z := by
        intro z hz
        rcases List.mem_append.mp hz with hz | hz
        · exact h z hz
        · rw [List.mem_singleton.mp hz]
          exact not_lt.mp hc
      obtain ⟨m, rest, e, p, hm⟩ := ih (done ++ [y]) cur hinv
      refine ⟨m, rest, ?_, ?_, hm⟩
      · have e1 : pre.length + 1 + (done ++ [y]).length = pre.length + 1 + done.length + 1 := by
          simp
          omega
        rw [e1] at e
        simpa using e
      · simpa using p
theorem sortInner_spec (pre rest : List ℚ) (cur : ℚ) :
    ∃ m rest', sortInner (pre ++ cur :: rest) (pre ++ cur :: rest).length pre.length =
        pre ++ m :: rest' ∧
      (m :: rest').Perm (cur :: rest) ∧ (∀ z ∈ rest', m ≤ z) := by
  have h := sortInner_loop pre rest [] cur (by simp)
  unfold sortInner
  have e : (pre ++ cur :: rest).length - (pre.length + 1) = rest.length := by
    simp only [List.length_append, List.length_cons]
    omega
  rw [e]
  simpa using h

/-- The outer loop of `sortArray`, started at index `i` on a list whose first `i` entries
are sorted and below the others, ends with a sorted permutation. -/
theorem sortOuter_loop :
    ∀ (len : ℕ) (pre suf : List ℚ), suf.length = len + 1 → pre.Sorted (· ≤ ·) →
      (∀ a ∈ pre, ∀ b ∈ suf, a ≤ b) →
      ((List.range' pre.length len).foldl
          (fun a i => sortInner a (pre.length + len + 1) i) (pre ++ suf)).Sorted (· ≤ ·) ∧
        ((List.range' pre.length len).foldl
          (fun a i => sortInner a (pre.length + len + 1) i) (pre ++ suf)).Perm (pre ++ suf) := by
  intro len
  induction len with
  | zero =>
    intro pre suf hl hs hle
    simp only [List.range'_zero, List.foldl_nil]
    refine ⟨?_, List.Perm.refl _⟩
    exact List.pairwise_append.mpr ⟨hs, by
      match suf, hl with
      | [x], _ => simp, hle⟩
  | succ len ih =>
    intro pre suf hl hs hle
    match suf, hl with
    | cur :: rest, hl =>
      simp only [List.range'_succ, List.foldl_cons]
      obtain ⟨m, rest', e, p, hm⟩ := sortInner_spec pre rest cur
      have hlen : (pre ++ cur :: rest).length = pre.length + (len + 1) + 1 := by
        simp at hl ⊢
        omega
      rw [hlen] at e
      rw [e]
      have hrest' : rest'.length = len + 1 := by
        have := p.length_eq
        simp at this hl
        omega
      have hmem : ∀ z, z ∈ m :: rest' → z ∈ cur :: rest := fun z hz => p.subset hz
      have hs' : (pre ++ [m]).Sorted (· ≤ ·) := by
        refine List.pairwise_append.mpr ⟨hs, by simp, ?_⟩
        intro a ha b hb
        rw [List.mem_singleton.mp hb]
        exact hle a ha m (hmem m (List.mem_cons_self _ _))
      have hle' : ∀ a ∈ pre ++ [m], ∀ b ∈ rest', a ≤ b := by
        intro a ha b hb
        rcases List.mem_append.mp ha with ha | ha
        · exact hle a ha b (hmem b (List.mem_cons_of_mem _ hb))
        · rw [List.mem_singleton.mp ha]
          exact hm b hb
      have key := ih (pre ++ [m]) rest' hrest' hs' hle'
      have e1 : (pre ++ [m]).length = pre.length + 1 := by simp
      have e2 : pre.length + 1 + len + 1 = pre.length + (len + 1) + 1 := by omega
      have e3 : pre ++ [m] ++ rest' = pre ++ m :: rest' := by simp
      rw [e1, e2, e3] at key
      refine ⟨key.1, key.2.trans ?_⟩
      exact List.Perm.append_left pre p

/-- `sortArray` applied to a whole array returns a sorted permutation of it. -/
theorem sortArray_sorted_perm (arr : List ℚ) :
    (sortArray arr arr.length).Sorted (· ≤ ·) ∧ (sortArray arr arr.length).Perm arr := by
  unfold sortArray
  rw [List.range_eq_range']
  match arr with
  | [] => simp
  | x :: xs =>
    have h := sortOuter_loop xs.length [] (x :: xs) (by simp) (by simp) (by simp)
    simpa using h

/-! ## Properties of the emergency monitor -/

/-- `triggerBeepAlert` only writes the four beep variables. -/
theorem triggerBeepAlert_eq (g : Globals) (now : ℕ) (pulses : ℤ) (s : HW) :
    triggerBeepAlert g now pulses s =
      { s with
        isBeeping := if g.g_beepsEnabled then true else s.isBeeping
        beepCount := if g.g_beepsEnabled then 0 else s.beepCount
        totalBeepsNeeded := if g.g_beepsEnabled then pulses else s.totalBeepsNeeded
        lastBeepTime := if g.g_beepsEnabled then now else s.lastBeepTime } := by
  unfold triggerBeepAlert
  cases hb : g.g_beepsEnabled <;> simp

/-- The blocks "LIVELLO 2" and "LIVELLO 3" leave the min-safe counter alone and make no
Level-1 call. -/
theorem emergencyLevel2_minSafe (g : Globals) (now : ℕ) (s : HW) :
    (emergencyLevel2 g now s).1.voltageMinSafeCounter = s.voltageMinSafeCounter ∧
      (emergencyLevel2 g now s).2.filter isLevel1 = [] := by
  simp only [emergencyLevel2, triggerBeepAlert_eq, emergencyShutdownUPS]
  split_ifs <;> simp [isLevel1, Action.site]

theorem emergencyLevel3_minSafe (g : Globals) (now : ℕ) (s : HW) :
    (emergencyLevel3 g now s).1.voltageMinSafeCounter = s.voltageMinSafeCounter ∧
      (emergencyLevel3 g now s).2.filter isLevel1 = [] := by
  simp only [emergencyLevel3, triggerBeepAlert_eq]
  split_ifs <;> simp [isLevel1, Action.site]

/-- A tick that evaluates the alarm levels runs the three blocks in order on the state
with `isPowerStationOn` set (and the warm-up restarted when the station was off). -/
theorem checkEmergencyConditions_evaluates (g : Globals) (t : Tick) (he : t.evaluates g) :
    ∃ s2 : HW, sameAlarmState { t.pre with isPowerStationOn := true } s2 ∧
      s2.currentData = t.pre.currentData ∧
      t.post g = (emergencyLevel3 g t.now (emergencyLevel2 g t.now
        (emergencyLevel1 g t.now s2).1).1).1 ∧
      t.actions g = (emergencyLevel1 g t.now s2).2 ++
        (emergencyLevel2 g t.now (emergencyLevel1 g t.now s2).1).2 ++
        (emergencyLevel3 g t.now (emergencyLevel2 g t.now
          (emergencyLevel1 g t.now s2).1).1).2 := by
  obtain ⟨hw, hon, hst⟩ := he
  have hnc : t.pre.currentState ≠ STATE_CHARGING := by
    rcases hst with h | h <;> rw [h] <;> decide
  have hnb : t.pre.currentState ≠ STATE_BYPASS := by
    rcases hst with h | h <;> rw [h] <;> decide
  by_cases hp : t.pre.isPowerStationOn = true
  · refine ⟨{ t.pre with isPowerStationOn := true }, ?_, rfl, ?_, ?_⟩
    · simp [sameAlarmState]
    · simp [Tick.post, checkEmergencyConditions, hw, not_lt.mpr hon, hp, hnc, hnb]
    · simp [Tick.actions, checkEmergencyConditions, hw, not_lt.mpr hon, hp, hnc, hnb]
  · refine ⟨{ t.pre with isWarmedUp := false, warmupStartTime := t.now,
                         isPowerStationOn := true }, ?_, rfl, ?_, ?_⟩
    · simp [sameAlarmState]
    · simp [Tick.post, checkEmergencyConditions, hw, not_lt.mpr hon, hp, hnc, hnb, hon]
    · simp [Tick.actions, checkEmergencyConditions, hw, not_lt.mpr hon, hp, hnc, hnb, hon]

/-- One tick of the Level-1 debounce: below the min-safe voltage the counter goes up by
one and, on reaching 5, the Level-1 action is made once and the counter is cleared. -/
theorem level1_tick (g : Globals) (t : Tick) (he : t.evaluates g)
    (hv : t.pre.currentData.batteryVoltage < g.g_voltageMinSafe) :
    (t.post g).voltageMinSafeCounter =
        (if t.pre.voltageMinSafeCounter + 1 ≥ 5 then 0 else t.pre.voltageMinSafeCounter + 1) ∧
      (t.actions g).filter isLevel1 =
        (if t.pre.voltageMinSafeCounter + 1 ≥ 5 then
          [Action.shutdownUPS CallSite.level1, Action.beepAlert CallSite.level1 5]
        else []) := by
  obtain ⟨s2, hs, hd, hpost, hact⟩ := checkEmergencyConditions_evaluates g t he
  have hc : s2.voltageMinSafeCounter = t.pre.voltageMinSafeCounter := hs.1.symm
  rw [hpost, hact, List.filter_append, List.filter_append,
    (emergencyLevel3_minSafe g t.now _).1, (emergencyLevel3_minSafe g t.now _).2,
    (emergencyLevel2_minSafe g t.now _).1, (emergencyLevel2_minSafe g t.now _).2]
  rw [← hd] at hv
  simp only [emergencyLevel1, triggerBeepAlert_eq, emergencyShutdownUPS, if_pos hv, hc]
  split_ifs <;> simp [isLevel1, Action.site]

theorem sameAlarmState_observing (s : HW) (voltage soc : ℚ) (state : BatteryState) :
    sameAlarmState s (s.observing voltage soc state) := by
  simp [sameAlarmState, HW.observing]

theorem alarmRun_observedRun (g : Globals) (rs : List Reading) :
    ∀ s : HW, alarmRun g s (observedRun g s rs) := by
  induction rs with
  | nil =>
    intro s
    simp [observedRun, alarmRun]
  | cons r rest ih =>
    intro s
    simp only [observedRun, alarmRun]
    exact ⟨sameAlarmState_observing s _ _ _, ih _⟩

theorem observedRun_pre (g : Globals) (rs : List Reading) :
    ∀ (s : HW) (t : Tick), t ∈ observedRun g s rs →
      ∃ (s1 : HW) (r : Reading), r ∈ rs ∧
        t = { now := r.now, pre := s1.observing r.voltage r.soc r.state } := by
  induction rs with
  | nil =>
    intro s t ht
    simp [observedRun] at ht
  | cons r rest ih =>
    intro s t ht
    simp only [observedRun, List.mem_cons] at ht
    rcases ht with ht | ht
    · exact ⟨s, r, List.mem_cons_self _ _, ht⟩
    · obtain ⟨s1, r1, hr1, e⟩ := ih _ t ht
      exact ⟨s1, r1, List.mem_cons_of_mem _ hr1, e⟩

/-- C4: Level-1 debounce.  In a run of five consecutive ticks started with the min-safe
counter at 0, each evaluated warmed up, with the voltage at or above the
power-station-off voltage, in state Rest or Discharging and with the voltage below the
min-safe threshold, the first four ticks make no Level-1 call, the fifth makes the
Level-1 calls (shutdown signal, then a 5-beep alert) exactly once, and the min-safe
counter is 0 at the end of the fifth tick. -/
theorem level1_debounce (g : Globals) (s0 : HW) (ticks : List Tick)
    (hlen : ticks.length = 5) (hrun : alarmRun g s0 ticks)
    (h0 : s0.voltageMinSafeCounter = 0)
    (hev : ∀ t ∈ ticks, t.evaluates g ∧
      t.pre.currentData.batteryVoltage < g.g_voltageMinSafe) :
    ticks.map (fun t => (t.actions g).filter isLevel1) =
        [[], [], [], [], [Action.shutdownUPS CallSite.level1,
          Action.beepAlert CallSite.level1 5]] ∧
      (runFinal g s0 ticks).voltageMinSafeCounter = 0 := by
  obtain ⟨t1, t2, t3, t4, t5, rfl⟩ : ∃ t1 t2 t3 t4 t5, ticks = [t1, t2, t3, t4, t5] := by
    rcases ticks with _ | ⟨t1, _ | ⟨t2, _ | ⟨t3, _ | ⟨t4, _ | ⟨t5, _ | ⟨t6, r⟩⟩⟩⟩⟩⟩ <;>
      simp at hlen
    exact ⟨t1, t2, t3, t4, t5, rfl⟩
  · simp only [alarmRun] at hrun
    obtain ⟨r1, r2, r3, r4, r5, _⟩ := hrun
    have e1 := hev t1 (by simp)
    have e2 := hev t2 (by simp)
    have e3 := hev t3 (by simp)
    have e4 := hev t4 (by simp)
    have e5 := hev t5 (by simp)
    have k1 := level1_tick g t1 e1.1 e1.2
    have k2 := level1_tick g t2 e2.1 e2.2
    have k3 := level1_tick g t3 e3.1 e3.2
    have k4 := level1_tick g t4 e4.1 e4.2
    have k5 := level1_tick g t5 e5.1 e5.2
    rw [← r1.1, h0, if_neg (by norm_num), if_neg (by norm_num)] at k1
    rw [← r2.1, k1.1, if_neg (by norm_num), if_neg (by norm_num)] at k2
    rw [← r3.1, k2.1, if_neg (by norm_num), if_neg (by norm_num)] at k3
    rw [← r4.1, k3.1, if_neg (by norm_num), if_neg (by norm_num)] at k4
    rw [← r5.1, k4.1, if_pos (by norm_num), if_pos (by norm_num)] at k5
    simp only [List.map_cons, List.map_nil, runFinal]
    rw [k1.2, k2.2, k3.2, k4.2, k5.2, k5.1]
    exact ⟨rfl, rfl⟩

/-- Witness for C4: five readings at 23 V fed to the freshly constructed manager. -/
theorem level1_debounce_witness :
    (observedRun defaultGlobals HW.init fiveLowVoltageReadings).length = 5 ∧
    alarmRun defaultGlobals HW.init (observedRun defaultGlobals HW.init fiveLowVoltageReadings) ∧
    HW.init.voltageMinSafeCounter = 0 ∧
    (∀ t ∈ observedRun defaultGlobals HW.init fiveLowVoltageReadings,
      t.evaluates defaultGlobals ∧
        t.pre.currentData.batteryVoltage < defaultGlobals.g_voltageMinSafe) ∧
    ((observedRun defaultGlobals HW.init fiveLowVoltageReadings).map
        (fun t => (t.actions defaultGlobals).filter isLevel1) =
        [[], [], [], [], [Action.shutdownUPS CallSite.level1,
          Action.beepAlert CallSite.level1 5]] ∧
      (runFinal defaultGlobals HW.init
        (observedRun defaultGlobals HW.init fiveLowVoltageReadings)).voltageMinSafeCounter = 0) := by
  have hlen : (observedRun defaultGlobals HW.init fiveLowVoltageReadings).length = 5 := by
    simp [observedRun, fiveLowVoltageReadings]
  have hev : ∀ t ∈ observedRun defaultGlobals HW.init fiveLowVoltageReadings,
      t.evaluates defaultGlobals ∧
        t.pre.currentData.batteryVoltage < defaultGlobals.g_voltageMinSafe := by
    intro t ht
    obtain ⟨s1, r, hr, e⟩ := observedRun_pre defaultGlobals _ _ t ht
    have hr2 : r.voltage = 23 ∧ r.state = STATE_DISCHARGING := by
      simp only [fiveLowVoltageReadings, List.mem_cons, List.mem_singleton, List.mem_nil_iff,
        or_false] at hr
      rcases hr with h | h | h | h | h <;> rw [h] <;> exact ⟨rfl, rfl⟩
    rw [e]
    simp only [Tick.evaluates, HW.observing, hr2.1, hr2.2, defaultGlobals]
    norm_num
  exact ⟨hlen, alarmRun_observedRun _ _ _, rfl, hev,
    level1_debounce defaultGlobals HW.init _ hlen (alarmRun_observedRun _ _ _) rfl hev⟩

/-- The block "LIVELLO 1" leaves the Level-2 and Level-3 variables and the published data
alone and makes no Level-2 call. -/
theorem emergencyLevel1_frame (g : Globals) (now : ℕ) (s : HW) :
    (emergencyLevel1 g now s).1.lowBatteryAlertActive = s.lowBatteryAlertActive ∧
    (emergencyLevel1 g now s).1.criticalBatteryAlertActive = s.criticalBatteryAlertActive ∧
    (emergencyLevel1 g now s).1.lastLowBatteryAlertTime = s.lastLowBatteryAlertTime ∧
    (emergencyLevel1 g now s).1.currentData = s.currentData ∧
    (emergencyLevel1 g now s).2.filter isLevel2 = [] := by
  simp only [emergencyLevel1, triggerBeepAlert_eq, emergencyShutdownUPS]
  split_ifs <;> simp [isLevel2, Action.site]

/-- The block "LIVELLO 2" with the low-battery alert already active: no activation, and a
periodic call exactly when 300000 ms have elapsed on the recorded fire time. -/
theorem emergencyLevel2_active (g : Globals) (now : ℕ) (s : HW)
    (hsoc : s.currentData.batteryPercentage < g.g_batteryLowWarning)
    (hact : s.lowBatteryAlertActive = true) :
    (emergencyLevel2 g now s).1.lowBatteryAlertActive = true ∧
    (emergencyLevel2 g now s).1.criticalBatteryAlertActive = s.criticalBatteryAlertActive ∧
    (emergencyLevel2 g now s).1.lastLowBatteryAlertTime =
      (if ulongSub now s.lastLowBatteryAlertTime ≥ 300000 then now
        else s.lastLowBatteryAlertTime) ∧
    (emergencyLevel2 g now s).1.currentData = s.currentData ∧
    (emergencyLevel2 g now s).2 =
      (if ulongSub now s.lastLowBatteryAlertTime ≥ 300000 then
        [Action.shutdownUPS CallSite.level2Periodic, Action.beepAlert CallSite.level2Periodic 5]
      else []) := by
  simp only [emergencyLevel2, triggerBeepAlert_eq, emergencyShutdownUPS, if_pos hsoc, hact,
    timeElapsed]
  split_ifs <;> simp_all

/-- The block "LIVELLO 3" with the SOC at or above the critical threshold and the critical
alert inactive only clears the critical counter. -/
theorem emergencyLevel3_idle (g : Globals) (now : ℕ) (s : HW)
    (hsoc : g.g_batteryCritical ≤ s.currentData.batteryPercentage)
    (hact : s.criticalBatteryAlertActive = false) :
    emergencyLevel3 g now s = ({ s with batteryCriticalCounter := 0 }, []) := by
  simp [emergencyLevel3, not_lt.mpr hsoc, hact]

/-- One tick with the low-battery alert active, the critical alert inactive and the SOC
between the critical and the low-warning threshold: both flags are kept, and the periodic
Level-2 calls are made exactly when 300000 ms have elapsed on the recorded fire time, which
is then set to the clock value. -/
theorem level2_tick (g : Globals) (t : Tick) (he : t.evaluates g)
    (hlow : t.pre.currentData.batteryPercentage < g.g_batteryLowWarning)
    (hcrit : g.g_batteryCritical ≤ t.pre.currentData.batteryPercentage)
    (hA : t.pre.lowBatteryAlertActive = true)
    (hC : t.pre.criticalBatteryAlertActive = false) :
    (t.post g).lowBatteryAlertActive = true ∧
    (t.post g).criticalBatteryAlertActive = false ∧
    (t.post g).lastLowBatteryAlertTime =
      (if ulongSub t.now t.pre.lastLowBatteryAlertTime ≥ 300000 then t.now
        else t.pre.lastLowBatteryAlertTime) ∧
    (t.actions g).filter isLevel2 =
      (if ulongSub t.now t.pre.lastLowBatteryAlertTime ≥ 300000 then
        [Action.shutdownUPS CallSite.level2Periodic, Action.beepAlert CallSite.level2Periodic 5]
      else []) := by
  obtain ⟨s2, hs, hd, hpost, hact⟩ := checkEmergencyConditions_evaluates g t he
  obtain ⟨_, _, _, h4, h5, h6, _, _⟩ := hs
  simp only at h4 h5 h6
  obtain ⟨f1, f2, f3, f4, f5⟩ := emergencyLevel1_frame g t.now s2
  have hlow1 : (emergencyLevel1 g t.now s2).1.currentData.batteryPercentage <
      g.g_batteryLowWarning := by
    rw [f4, hd]
    exact hlow
  have hA1 : (emergencyLevel1 g t.now s2).1.lowBatteryAlertActive = true := by
    rw [f1, ← h4]
    exact hA
  obtain ⟨k1, k2, k3, k4, k5⟩ :=
    emergencyLevel2_active g t.now (emergencyLevel1 g t.now s2).1 hlow1 hA1
  have hcrit2 : g.g_batteryCritical ≤
      (emergencyLevel2 g t.now (emergencyLevel1 g t.now s2).1).1.currentData.batteryPercentage := by
    rw [k4, f4, hd]
    exact hcrit
  have hC2 : (emergencyLevel2 g t.now
      (emergencyLevel1 g t.now s2).1).1.criticalBatteryAlertActive = false := by
    rw [k2, f2, ← h5]
    exact hC
  have k6 := emergencyLevel3_idle g t.now _ hcrit2 hC2
  rw [hpost, hact, k6]
  simp only [List.append_nil, List.filter_append, f5, List.nil_append]
  rw [k1, k2, k3, k5, f2, f3, ← h5, ← h6, hC]
  refine ⟨rfl, rfl, rfl, ?_⟩
  split_ifs <;> simp [isLevel2, Action.site]

/-- Level-2 periodic re-fire while the critical alert is inactive.  Start with the
low-battery alert active with recorded fire time `t0` and the critical-battery alert
inactive.  In every run of
consecutive ticks, each evaluated warmed up, with the unit on, in state Rest or Discharging
and with the SOC below the low-warning threshold and not below the critical threshold, in
which every tick but the last has `now - t0 < 300000` and the last has
`now - t0 = 300000`: no tick before the last makes a Level-2 call, the last tick makes the
Level-2 calls (shutdown signal, then a 5-beep alert) exactly once and sets the recorded
fire time to its clock value, so the whole run makes exactly one Level-2 fire. -/
theorem level2_refire (g : Globals) (ticks : List Tick) (last : Tick) :
    ∀ (s0 : HW), alarmRun g s0 (ticks ++ [last]) →
      s0.lowBatteryAlertActive = true → s0.criticalBatteryAlertActive = false →
      (∀ t ∈ ticks ++ [last], t.evaluates g ∧
        t.pre.currentData.batteryPercentage < g.g_batteryLowWarning ∧
        g.g_batteryCritical ≤ t.pre.currentData.batteryPercentage) →
      (∀ t ∈ ticks, ulongSub t.now s0.lastLowBatteryAlertTime < 300000) →
      ulongSub last.now s0.lastLowBatteryAlertTime = 300000 →
      (∀ t ∈ ticks, (t.actions g).filter isLevel2 = []) ∧
      (last.actions g).filter isLevel2 =
        [Action.shutdownUPS CallSite.level2Periodic,
          Action.beepAlert CallSite.level2Periodic 5] ∧
      (runFinal g s0 (ticks ++ [last])).lastLowBatteryAlertTime = last.now ∧
      (runActions g (ticks ++ [last])).filter isLevel2 =
        [Action.shutdownUPS CallSite.level2Periodic,
          Action.beepAlert CallSite.level2Periodic 5] := by
  induction ticks with
  | nil =>
    intro s0 hrun hA hC hev _ hlast
    simp only [List.nil_append, alarmRun] at hrun
    obtain ⟨_, _, _, h4, h5, h6, _, _⟩ := hrun.1
    have e := hev last (by simp)
    obtain ⟨k1, k2, k3, k4⟩ := level2_tick g last e.1 e.2.1 e.2.2 (h4 ▸ hA) (h5 ▸ hC)
    rw [← h6, hlast] at k3 k4
    simp only [ge_iff_le, le_refl, if_true] at k3 k4
    refine ⟨by simp, k4, ?_, ?_⟩
    · simpa [runFinal] using k3
    · simpa [runActions] using k4
  | cons t rest ih =>
    intro s0 hrun hA hC hev hbefore hlast
    simp only [List.cons_append, alarmRun] at hrun
    obtain ⟨_, _, _, h4, h5, h6, _, _⟩ := hrun.1
    have e := hev t (by simp)
    obtain ⟨k1, k2, k3, k4⟩ := level2_tick g t e.1 e.2.1 e.2.2 (h4 ▸ hA) (h5 ▸ hC)
    have hlt := hbefore t (by simp)
    rw [← h6, if_neg (not_le.mpr hlt)] at k3 k4
    have hev2 : ∀ u ∈ rest ++ [last], u.evaluates g ∧
        u.pre.currentData.batteryPercentage < g.g_batteryLowWarning ∧
        g.g_batteryCritical ≤ u.pre.currentData.batteryPercentage :=
      fun u hu => hev u (List.mem_cons_of_mem _ hu)
    have hbefore2 : ∀ u ∈ rest, ulongSub u.now (t.post g).lastLowBatteryAlertTime < 300000 := by
      intro u hu
      rw [k3]
      exact hbefore u (List.mem_cons_of_mem _ hu)
    have hlast2 : ulongSub last.now (t.post g).lastLowBatteryAlertTime = 300000 := by
      rw [k3]
      exact hlast
    obtain ⟨j1, j2, j3, j4⟩ := ih (t.post g) hrun.2 k1 k2 hev2 hbefore2 hlast2
    refine ⟨?_, j2, ?_, ?_⟩
    · intro u hu
      rcases List.mem_cons.mp hu with hu | hu
      · rw [hu]
        exact k4
      · exact j1 u hu
    · simpa [runFinal] using j3
    · simp only [List.cons_append, runActions, List.filter_append, k4, List.nil_append]
      exact j4

theorem discharging_ne_charging : (STATE_DISCHARGING = STATE_CHARGING) = False := by decide

theorem discharging_ne_bypass : (STATE_DISCHARGING = STATE_BYPASS) = False := by decide

theorem afterFiveLow_alarm :
    afterFiveLow.lowBatteryAlertActive = true ∧
    afterFiveLow.criticalBatteryAlertActive = false ∧
    afterFiveLow.lastLowBatteryAlertTime = 5000 := by
  norm_num [afterFiveLow, observedRun, runFinal, fiveLowReadings, Tick.post,
    checkEmergencyConditions, HW.observing, HW.init, defaultGlobals, emergencyLevel1,
    emergencyLevel2, emergencyLevel3, triggerBeepAlert_eq, emergencyShutdownUPS, timeElapsed,
    ulongSub, discharging_ne_charging, discharging_ne_bypass]

/-- An instance of the periodic re-fire: the low-battery alert raised at 5000 ms on a fresh
manager, then a tick at 6000 ms and a tick at 305000 ms, all at 15 %. -/
theorem level2_refire_witness :
    alarmRun defaultGlobals afterFiveLow ([refireTick1] ++ [refireTick2]) ∧
    afterFiveLow.lowBatteryAlertActive = true ∧
    afterFiveLow.criticalBatteryAlertActive = false ∧
    (∀ t ∈ [refireTick1] ++ [refireTick2], t.evaluates defaultGlobals ∧
      t.pre.currentData.batteryPercentage < defaultGlobals.g_batteryLowWarning ∧
      defaultGlobals.g_batteryCritical ≤ t.pre.currentData.batteryPercentage) ∧
    (∀ t ∈ [refireTick1], ulongSub t.now afterFiveLow.lastLowBatteryAlertTime < 300000) ∧
    ulongSub refireTick2.now afterFiveLow.lastLowBatteryAlertTime = 300000 ∧
    ((∀ t ∈ [refireTick1], (t.actions defaultGlobals).filter isLevel2 = []) ∧
      (refireTick2.actions defaultGlobals).filter isLevel2 =
        [Action.shutdownUPS CallSite.level2Periodic,
          Action.beepAlert CallSite.level2Periodic 5] ∧
      (runFinal defaultGlobals afterFiveLow
        ([refireTick1] ++ [refireTick2])).lastLowBatteryAlertTime = refireTick2.now ∧
      (runActions defaultGlobals ([refireTick1] ++ [refireTick2])).filter isLevel2 =
        [Action.shutdownUPS CallSite.level2Periodic,
          Action.beepAlert CallSite.level2Periodic 5]) := by
  have hrun : alarmRun defaultGlobals afterFiveLow ([refireTick1] ++ [refireTick2]) := by
    simp only [List.singleton_append, alarmRun, refireTick1, refireTick2, and_true]
    exact ⟨sameAlarmState_observing _ _ _ _, sameAlarmState_observing _ _ _ _⟩
  have hev : ∀ t ∈ [refireTick1] ++ [refireTick2], t.evaluates defaultGlobals ∧
      t.pre.currentData.batteryPercentage < defaultGlobals.g_batteryLowWarning ∧
      defaultGlobals.g_batteryCritical ≤ t.pre.currentData.batteryPercentage := by
    intro t ht
    simp only [List.singleton_append, List.mem_cons, List.mem_singleton, List.mem_nil_iff,
      or_false] at ht
    rcases ht with h | h <;> rw [h] <;>
      simp only [refireTick1, refireTick2, Tick.evaluates, HW.observing, defaultGlobals] <;>
      norm_num
  have hbefore : ∀ t ∈ [refireTick1],
      ulongSub t.now afterFiveLow.lastLowBatteryAlertTime < 300000 := by
    intro t ht
    rw [List.mem_singleton.mp ht, afterFiveLow_alarm.2.2]
    norm_num [refireTick1, ulongSub]
  have hlast : ulongSub refireTick2.now afterFiveLow.lastLowBatteryAlertTime = 300000 := by
    rw [afterFiveLow_alarm.2.2]
    norm_num [refireTick2, ulongSub]
  exact ⟨hrun, afterFiveLow_alarm.1, afterFiveLow_alarm.2.1, hev, hbefore, hlast,
    level2_refire defaultGlobals [refireTick1] refireTick2 afterFiveLow hrun
      afterFiveLow_alarm.1 afterFiveLow_alarm.2.1 hev hbefore hlast⟩

set_option maxHeartbeats 1000000 in
theorem afterFiveCritical_alarm :
    afterFiveCritical.lowBatteryAlertActive = true ∧
    afterFiveCritical.criticalBatteryAlertActive = true ∧
    afterFiveCritical.lastLowBatteryAlertTime = 5000 := by
  norm_num [afterFiveCritical, observedRun, runFinal, fiveCriticalReadings, Tick.post,
    checkEmergencyConditions, HW.observing, HW.init, defaultGlobals, emergencyLevel1,
    emergencyLevel2, emergencyLevel3, triggerBeepAlert_eq, emergencyShutdownUPS, timeElapsed,
    ulongSub, discharging_ne_charging, discharging_ne_bypass]

set_option maxHeartbeats 2000000 in
theorem recovery_actions :
    (runActions defaultGlobals
      (observedRun defaultGlobals afterFiveCritical recoveryReadings)).filter isLevel2 = [] := by
  norm_num [afterFiveCritical, observedRun, runFinal, runActions, recoveryReadings,
    fiveCriticalReadings, Tick.post, Tick.actions,
    checkEmergencyConditions, HW.observing, HW.init, defaultGlobals, emergencyLevel1,
    emergencyLevel2, emergencyLevel3, triggerBeepAlert_eq, emergencyShutdownUPS,
    timeElapsed, ulongSub, discharging_ne_charging, discharging_ne_bypass, isLevel2,
    Action.site]

/-- C5, the defect: on a fresh manager five readings at 5 % raise the critical alert
(third tick) and then the low-battery alert (fifth tick, fire time 5000 ms) although the
critical alert is active, so both are active.  With the SOC then at 15 % the tick at
6000 ms clears the critical alert and restarts the Level-2 timer without a fire, and the
tick at 305000 ms, exactly 300000 ms after the recorded fire, makes no Level-2 call: the
re-fire due at that tick is missed. -/
theorem level2_refire_counterexample :
    alarmRun defaultGlobals HW.init (observedRun defaultGlobals HW.init fiveCriticalReadings) ∧
    afterFiveCritical.criticalBatteryAlertActive = true ∧
    afterFiveCritical.lowBatteryAlertActive = true ∧
    afterFiveCritical.lastLowBatteryAlertTime = 5000 ∧
    alarmRun defaultGlobals afterFiveCritical
      (observedRun defaultGlobals afterFiveCritical recoveryReadings) ∧
    (∀ t ∈ observedRun defaultGlobals afterFiveCritical recoveryReadings,
      t.evaluates defaultGlobals ∧
      t.pre.currentData.batteryPercentage < defaultGlobals.g_batteryLowWarning ∧
      defaultGlobals.g_batteryCritical ≤ t.pre.currentData.batteryPercentage) ∧
    (observedRun defaultGlobals afterFiveCritical recoveryReadings).map
      (fun t => ulongSub t.now 5000) = [1000, 300000] ∧
    (runActions defaultGlobals
      (observedRun defaultGlobals afterFiveCritical recoveryReadings)).filter isLevel2 = [] := by
  refine ⟨alarmRun_observedRun _ _ _, afterFiveCritical_alarm.2.1, afterFiveCritical_alarm.1,
    afterFiveCritical_alarm.2.2, alarmRun_observedRun _ _ _, ?_, ?_, recovery_actions⟩
  · intro t ht
    obtain ⟨s1, r, hr, e⟩ := observedRun_pre defaultGlobals _ _ t ht
    have hr2 : r.voltage = 25 ∧ r.soc = 15 ∧ r.state = STATE_DISCHARGING := by
      simp only [recoveryReadings, List.mem_cons, List.mem_singleton, List.mem_nil_iff,
        or_false] at hr
      rcases hr with h | h <;> rw [h] <;> exact ⟨rfl, rfl, rfl⟩
    rw [e]
    simp only [Tick.evaluates, HW.observing, hr2.1, hr2.2.1, hr2.2.2, defaultGlobals]
    norm_num
  · norm_num [observedRun, recoveryReadings, ulongSub]

set_option maxHeartbeats 1000000 in
/-- C6, the code at a failing input: a fresh manager sees four ticks at 23 V while
discharging (min-safe counter 4, no alert active) and then a tick evaluated warmed up, at
25 V (above the power-station-off voltage) and Charging.  Both alert flags are false after
that tick, but the min-safe counter is still 4: the three counters are cleared in the
Charging branch only when one of the two alerts was active. -/
theorem charging_keeps_minSafeCounter :
    chargingTick.pre.isWarmedUp = true ∧
    defaultGlobals.g_powerStationOffVoltage ≤ chargingTick.pre.currentData.batteryVoltage ∧
    chargingTick.pre.currentState = STATE_CHARGING ∧
    (chargingTick.post defaultGlobals).lowBatteryAlertActive = false ∧
    (chargingTick.post defaultGlobals).criticalBatteryAlertActive = false ∧
    (chargingTick.post defaultGlobals).voltageMinSafeCounter = 4 := by
  norm_num [chargingTick, lowVoltageThenCharging, observedRun, runFinal, Tick.post,
    checkEmergencyConditions, HW.observing, HW.init, defaultGlobals, emergencyLevel1,
    emergencyLevel2, emergencyLevel3, triggerBeepAlert_eq, emergencyShutdownUPS, timeElapsed,
    ulongSub, discharging_ne_charging, discharging_ne_bypass]

/-- C7: warm-up gate.  When the warmed-up flag is false, `checkEmergencyConditions` changes
nothing and makes no alarm call, `checkStateTransition` changes nothing and requests no
beep, and `readSensors`, called while the time elapsed since the warm-up start is less than
the warm-up delay, leaves the whole state (snapshot, power filters, SOC buffer, displayed
SOC) unchanged. -/
theorem warmup_gate (g : Globals) (now : ℕ) (inp : SensorInput) (s : HW)
    (h : s.isWarmedUp = false) :
    checkEmergencyConditions g now s = (s, []) ∧
    checkStateTransition g now s = (s, []) ∧
    (ulongSub inp.now s.warmupStartTime < g.g_warmupDelay → readSensors g inp s = some s) := by
  refine ⟨?_, ?_, ?_⟩
  · simp [checkEmergencyConditions, h]
  · simp [checkStateTransition, h]
  · intro hlt
    simp [readSensors, h, not_le.mpr hlt]

/-- Witness for C7: the freshly constructed manager, 1000 ms after the warm-up start, with
the default warm-up delay of 30000 ms. -/
theorem warmup_gate_witness :
    HW.init.isWarmedUp = false ∧
    ulongSub sampleInput.now HW.init.warmupStartTime < defaultGlobals.g_warmupDelay ∧
    checkEmergencyConditions defaultGlobals 1000 HW.init = (HW.init, []) ∧
    checkStateTransition defaultGlobals 1000 HW.init = (HW.init, []) ∧
    readSensors defaultGlobals sampleInput HW.init = some HW.init := by
  have hlt : ulongSub sampleInput.now HW.init.warmupStartTime < defaultGlobals.g_warmupDelay := by
    norm_num [ulongSub, sampleInput, HW.init, defaultGlobals]
  have key := warmup_gate defaultGlobals 1000 sampleInput HW.init rfl
  exact ⟨rfl, hlt, key.1, key.2.1, key.2.2 hlt⟩

/-! ## Properties of the SOC stabilizer -/

theorem countP_add_le (p q r : ℚ → Bool) (l : List ℚ)
    (hd : ∀ x ∈ l, p x = true → q x = true → False)
    (hp : ∀ x ∈ l, p x = true → r x = true)
    (hq : ∀ x ∈ l, q x = true → r x = true) :
    l.countP p + l.countP q ≤ l.countP r := by
  induction l with
  | nil => simp
  | cons x xs ih =>
    have ih2 := ih (fun y hy => hd y (List.mem_cons_of_mem _ hy))
      (fun y hy => hp y (List.mem_cons_of_mem _ hy))
      (fun y hy => hq y (List.mem_cons_of_mem _ hy))
    have hdx := hd x (List.mem_cons_self _ _)
    have hpx := hp x (List.mem_cons_self _ _)
    have hqx := hq x (List.mem_cons_self _ _)
    simp only [List.countP_cons]
    cases hpv : p x <;> cases hqv : q x <;> cases hrv : r x <;> simp_all <;> omega

/-- In a sorted list fewer than `i + 1` entries are strictly below the entry at index `i`. -/
theorem sorted_countP_lt (l : List ℚ) (hs : l.Sorted (· ≤ ·)) :
    ∀ i, i < l.length → l.countP (fun y => decide (y < l.getD i 0)) ≤ i := by
  induction l with
  | nil =>
    intro i hi
    simp at hi
  | cons x xs ih =>
    intro i hi
    have hx : ∀ y ∈ xs, x ≤ y := (List.sorted_cons.mp hs).1
    cases i with
    | zero =>
      simp only [List.getD_cons_zero, Nat.le_zero, List.countP_eq_zero]
      intro y hy
      simp only [decide_eq_true_eq, not_lt]
      rcases List.mem_cons.mp hy with h | h
      · exact le_of_eq h.symm
      · exact hx y h
    | succ j =>
      have hj : j < xs.length := by simpa using hi
      have := ih (List.sorted_cons.mp hs).2 j hj
      simp only [List.getD_cons_succ, List.countP_cons]
      split_ifs <;> omega

/-- In a sorted list at least `i + 1` entries are at most the entry at index `i`. -/
theorem sorted_countP_le (l : List ℚ) (hs : l.Sorted (· ≤ ·)) :
    ∀ i, i < l.length → i + 1 ≤ l.countP (fun y => decide (y ≤ l.getD i 0)) := by
  induction l with
  | nil =>
    intro i hi
    simp at hi
  | cons x xs ih =>
    intro i hi
    have hx : ∀ y ∈ xs, x ≤ y := (List.sorted_cons.mp hs).1
    cases i with
    | zero =>
      simp only [List.getD_cons_zero, List.countP_cons, le_refl, decide_True, if_true]
      omega
    | succ j =>
      have hj : j < xs.length := by simpa using hi
      have := ih (List.sorted_cons.mp hs).2 j hj
      have hmem : xs.getD j 0 ∈ xs := by
        rw [List.getD_eq_getElem xs 0 hj]
        exact List.getElem_mem _
      have hle : x ≤ xs.getD j 0 := hx _ hmem
      simp only [List.getD_cons_succ, List.countP_cons, decide_eq_true_eq, if_pos hle]
      omega
/-- In a sorted list of ten entries of which at least six equal `a`, the two middle entries
equal `a`. -/
theorem middle_of_six (l : List ℚ) (a : ℚ) (hs : l.Sorted (· ≤ ·)) (hlen : l.length = 10)
    (hc : 6 ≤ l.count a) : l.getD 4 0 = a ∧ l.getD 5 0 = a := by
  have hca : l.count a = l.countP (fun y => decide (y = a)) := by
    rw [List.count_eq_countP]
    congr 1
  rw [hca] at hc
  have key : ∀ i, i < 10 → i + 6 > 9 → i < 6 → l.getD i 0 = a := by
    intro i hi h1 h2
    have hlt := sorted_countP_lt l hs i (by omega)
    have hle := sorted_countP_le l hs i (by omega)
    rcases lt_trichotomy (l.getD i 0) a with h | h | h
    · have := countP_add_le (fun y => decide (y ≤ l.getD i 0)) (fun y => decide (y = a))
        (fun _ => true) l
        (by
          intro x _ hx1 hx2
          simp only [decide_eq_true_eq] at hx1 hx2
          rw [hx2] at hx1
          exact absurd h (not_lt.mpr hx1))
        (by simp) (by simp)
      have hl : l.countP (fun _ => true) = l.length := by simp
      omega
    · exact h
    · have := List.countP_mono_left (p := fun y => decide (y = a))
        (q := fun y => decide (y < l.getD i 0)) (l := l)
        (by
          intro x _ hx
          simp only [decide_eq_true_eq] at hx ⊢
          rw [hx]
          exact h)
      omega
  exact ⟨key 4 (by omega) (by omega) (by omega), key 5 (by omega) (by omega) (by omega)⟩
/-- In a sorted list of ten entries, five equal to `a` and five equal to `b ≠ a`, the two
middle entries are `a` and `b`. -/
theorem middle_of_five_five (l : List ℚ) (a b : ℚ) (hs : l.Sorted (· ≤ ·))
    (hlen : l.length = 10) (hab : a < b) (ha : l.count a = 5) (hb : l.count b = 5) :
    l.getD 4 0 = a ∧ l.getD 5 0 = b := by
  have hca : l.count a = l.countP (fun y => decide (y = a)) := by
    rw [List.count_eq_countP]
    congr 1
  have hcb : l.count b = l.countP (fun y => decide (y = b)) := by
    rw [List.count_eq_countP]
    congr 1
  rw [hca] at ha
  rw [hcb] at hb
  have hl : l.countP (fun _ => true) = l.length := by simp
  have hab2 := countP_add_le (fun y => decide (y = a)) (fun y => decide (y = b))
  constructor
  · have hlt := sorted_countP_lt l hs 4 (by omega)
    have hle := sorted_countP_le l hs 4 (by omega)
    rcases lt_trichotomy (l.getD 4 0) a with h | h | h
    · have h1 := hab2 (fun y => decide (¬ (y ≤ l.getD 4 0))) l
        (by
          intro x _ hx1 hx2
          simp only [decide_eq_true_eq] at hx1 hx2
          rw [hx1] at hx2
          exact absurd hx2 (ne_of_lt hab))
        (by
          intro x _ hx
          simp only [decide_eq_true_eq, not_le] at hx ⊢
          rw [hx]
          exact h)
        (by
          intro x _ hx
          simp only [decide_eq_true_eq, not_le] at hx ⊢
          rw [hx]
          exact lt_trans h hab)
      have h2 := List.length_eq_countP_add_countP (fun y => decide (y ≤ l.getD 4 0)) l
      simp only [decide_eq_true_eq] at h2
      omega
    · exact h
    · have := List.countP_mono_left (p := fun y => decide (y = a))
        (q := fun y => decide (y < l.getD 4 0)) (l := l)
        (by
          intro x _ hx
          simp only [decide_eq_true_eq] at hx ⊢
          rw [hx]
          exact h)
      omega
  · have hlt := sorted_countP_lt l hs 5 (by omega)
    have hle := sorted_countP_le l hs 5 (by omega)
    rcases lt_trichotomy (l.getD 5 0) b with h | h | h
    · have h1 := countP_add_le (fun y => decide (y ≤ l.getD 5 0)) (fun y => decide (y = b))
        (fun _ => true) l
        (by
          intro x _ hx1 hx2
          simp only [decide_eq_true_eq] at hx1 hx2
          rw [hx2] at hx1
          exact absurd h (not_lt.mpr hx1))
        (by simp) (by simp)
      omega
    · exact h
    · have h1 := hab2 (fun y => decide (y < l.getD 5 0)) l
        (by
          intro x _ hx1 hx2
          simp only [decide_eq_true_eq] at hx1 hx2
          rw [hx1] at hx2
          exact absurd hx2 (ne_of_lt hab))
        (by
          intro x _ hx
          simp only [decide_eq_true_eq] at hx ⊢
          rw [hx]
          exact lt_trans hab h)
        (by
          intro x _ hx
          simp only [decide_eq_true_eq] at hx ⊢
          rw [hx]
          exact h)
      omega

/-- The agreement loop counts the buffered samples on the median's side of the displayed
value. -/
theorem agreeCount_eq_countP (buf : List ℚ) (m d : ℚ) :
    ∀ n, n ≤ buf.length →
      agreeCount buf n m d =
        ((buf.take n).countP (fun y =>
          if m > d then decide (y > d + 1) else decide (y < d - 1)) : ℤ) := by
  intro n
  induction n with
  | zero =>
    intro _
    simp [agreeCount]
  | succ k ih =>
    intro hk
    have hk2 : k < buf.length := by omega
    have ihk := ih (by omega)
    unfold agreeCount at ihk ⊢
    rw [List.range_succ, List.foldl_append, ihk, List.take_succ,
      List.getElem?_eq_getElem hk2, List.countP_append]
    simp only [List.foldl_cons, List.foldl_nil, Option.toList_some, List.countP_cons,
      List.countP_nil, zero_add, List.getD_eq_getElem buf 0 hk2]
    split_ifs <;> simp_all <;> linarith
/-- `updateSOCBuffer` on a full buffer of configured size 10. -/
theorem updateSOCBuffer_full (g : Globals) (x : ℚ) (s : HW)
    (hsize : g.g_socBufferSize = 10) (hfull : s.socBufferFull = true)
    (h0 : 0 ≤ s.socBufferIndex) (h1 : s.socBufferIndex < 10) :
    ∃ s1, updateSOCBuffer g x s = some s1 ∧
      s1.socBuffer = s.socBuffer.set s.socBufferIndex.toNat x ∧
      s1.socBufferIndex = (if s.socBufferIndex + 1 ≥ 10 then 0 else s.socBufferIndex + 1) ∧
      s1.socBufferFull = true ∧ s1.displayedSOC = s.displayedSOC := by
  have hcap : s.socBufferIndex < (SOC_BUFFER_SIZE : ℤ) := by
    simpa [SOC_BUFFER_SIZE] using h1
  unfold updateSOCBuffer
  rw [if_pos ⟨h0, hcap⟩]
  simp only [hsize]
  by_cases hw : s.socBufferIndex + 1 ≥ 10
  · rw [if_pos hw, if_pos hw]
    exact ⟨_, rfl, rfl, rfl, rfl, rfl⟩
  · rw [if_neg hw, if_neg hw]
    exact ⟨_, rfl, rfl, rfl, hfull, rfl⟩

/-- `getMedianSOC` on a full buffer of ten samples: the mean of the two middle entries of
the sorted copy. -/
theorem getMedianSOC_full (g : Globals) (s : HW)
    (hsize : g.g_socBufferSize = 10) (hfull : s.socBufferFull = true)
    (hlen : s.socBuffer.length = 10) :
    getMedianSOC g s =
      some (((sortArray s.socBuffer 10).getD 4 0 + (sortArray s.socBuffer 10).getD 5 0) / 2) := by
  have htake : s.socBuffer.take 10 = s.socBuffer := List.take_of_length_le (by omega)
  unfold getMedianSOC socCount
  rw [if_pos hfull]
  simp only [hsize, SOC_BUFFER_SIZE]
  rw [if_neg (by norm_num), if_neg (by norm_num)]
  have e : (10 : ℤ).toNat = 10 := rfl
  rw [e, htake, if_pos (by norm_num)]

/-- One call of `getStableSOC` on a full buffer of ten samples, outside the first-sample
shortcut: the sample is written at the write index, the index advances cyclically, and the
displayed SOC follows the median rule. -/
theorem getStableSOC_full (g : Globals) (x : ℚ) (s : HW)
    (hsize : g.g_socBufferSize = 10) (hfull : s.socBufferFull = true)
    (hlen : s.socBuffer.length = 10)
    (h0 : 0 ≤ s.socBufferIndex) (h1 : s.socBufferIndex < 10)
    (hns : ¬ (s.displayedSOC = 0 ∧ s.socBufferIndex = 0)) :
    ∃ s1, getStableSOC g x s = some s1 ∧
      s1.socBuffer = s.socBuffer.set s.socBufferIndex.toNat x ∧
      s1.socBufferIndex = (if s.socBufferIndex + 1 ≥ 10 then 0 else s.socBufferIndex + 1) ∧
      s1.socBufferFull = true ∧
      s1.displayedSOC =
        (if fabs (((sortArray (s.socBuffer.set s.socBufferIndex.toNat x) 10).getD 4 0 +
              (sortArray (s.socBuffer.set s.socBufferIndex.toNat x) 10).getD 5 0) / 2 -
              s.displayedSOC) > 3 then
          (if agreeCount (s.socBuffer.set s.socBufferIndex.toNat x) 10
              (((sortArray (s.socBuffer.set s.socBufferIndex.toNat x) 10).getD 4 0 +
                (sortArray (s.socBuffer.set s.socBufferIndex.toNat x) 10).getD 5 0) / 2)
              s.displayedSOC ≥ g.g_socChangeThreshold then
            ((sortArray (s.socBuffer.set s.socBufferIndex.toNat x) 10).getD 4 0 +
              (sortArray (s.socBuffer.set s.socBufferIndex.toNat x) 10).getD 5 0) / 2
          else s.displayedSOC)
        else
          ((sortArray (s.socBuffer.set s.socBufferIndex.toNat x) 10).getD 4 0 +
            (sortArray (s.socBuffer.set s.socBufferIndex.toNat x) 10).getD 5 0) / 2) := by
  obtain ⟨s1, hu, hb, hi, hf, hd⟩ := updateSOCBuffer_full g x s hsize hfull h0 h1
  have hlen1 : s1.socBuffer.length = 10 := by
    rw [hb, List.length_set]
    exact hlen
  have hm := getMedianSOC_full g s1 hsize hf hlen1
  have hshort : ¬ (s1.displayedSOC = 0 ∧ s1.socBufferIndex = 1) := by
    rw [hd, hi]
    intro h
    apply hns
    refine ⟨h.1, ?_⟩
    have h2 := h.2
    split_ifs at h2 <;> omega
  have hcount : (socCount g s1).toNat = 10 := by
    unfold socCount
    rw [if_pos hf, hsize]
    rfl
  unfold getStableSOC
  rw [hu]
  simp only
  rw [if_neg hshort, hm]
  simp only [hcount]
  rw [hb, hd]
  by_cases c1 : fabs (((sortArray (s.socBuffer.set s.socBufferIndex.toNat x) 10).getD 4 0 +
      (sortArray (s.socBuffer.set s.socBufferIndex.toNat x) 10).getD 5 0) / 2 -
      s.displayedSOC) > 3
  · rw [if_pos c1, if_pos c1]
    by_cases c2 : agreeCount (s.socBuffer.set s.socBufferIndex.toNat x) 10
        (((sortArray (s.socBuffer.set s.socBufferIndex.toNat x) 10).getD 4 0 +
          (sortArray (s.socBuffer.set s.socBufferIndex.toNat x) 10).getD 5 0) / 2)
        s.displayedSOC ≥ g.g_socChangeThreshold
    · rw [if_pos c2, if_pos c2]
      exact ⟨_, rfl, rfl, hi, hf, rfl⟩
    · rw [if_neg c2, if_neg c2]
      exact ⟨_, rfl, hb, hi, hf, hd⟩
  · rw [if_neg c1, if_neg c1]
    exact ⟨_, rfl, rfl, hi, hf, rfl⟩
/-- A call of `getStableSOC` on a full buffer of ten samples keeps the displayed SOC `a`
when at least six buffered samples (after the push) equal `a`. -/
theorem getStableSOC_keeps (g : Globals) (x a : ℚ) (s : HW)
    (hsize : g.g_socBufferSize = 10) (hfull : s.socBufferFull = true)
    (hlen : s.socBuffer.length = 10)
    (h0 : 0 ≤ s.socBufferIndex) (h1 : s.socBufferIndex < 10)
    (hd : s.displayedSOC = a) (ha : a ≠ 0)
    (hc : 6 ≤ (s.socBuffer.set s.socBufferIndex.toNat x).count a) :
    ∃ s1, getStableSOC g x s = some s1 ∧
      s1.socBuffer = s.socBuffer.set s.socBufferIndex.toNat x ∧
      s1.socBufferIndex = (if s.socBufferIndex + 1 ≥ 10 then 0 else s.socBufferIndex + 1) ∧
      s1.socBufferFull = true ∧ s1.displayedSOC = a ∧ getMedianSOC g s1 = some a := by
  obtain ⟨s1, e1, e2, e3, e4, e5⟩ := getStableSOC_full g x s hsize hfull hlen h0 h1
    (fun h => ha (hd ▸ h.1))
  have hl : (s.socBuffer.set s.socBufferIndex.toNat x).length = 10 := by
    rw [List.length_set]
    exact hlen
  have hmed := getMedianSOC_full g s1 hsize e4 (by rw [e2]; exact hl)
  rw [e2] at hmed
  have hsp := sortArray_sorted_perm (s.socBuffer.set s.socBufferIndex.toNat x)
  rw [hl] at hsp
  have hmid := middle_of_six _ a hsp.1 (by rw [hsp.2.length_eq, hl])
    (by rw [hsp.2.count_eq]; exact hc)
  have hma : (a + a) / 2 = a := by ring
  rw [hmid.1, hmid.2, hma] at hmed
  refine ⟨s1, e1, e2, e3, e4, ?_, hmed⟩
  rw [e5, hmid.1, hmid.2, hd]
  have hz : fabs ((a + a) / 2 - a) = 0 := by
    have : (a + a) / 2 - a = 0 := by ring
    rw [this]
    simp [fabs]
  rw [hz, if_neg (by norm_num)]
  ring

/-- A call of `getStableSOC` on a full buffer of ten samples, with agreement count 3, moves
the displayed SOC from `a` to `(a + b) / 2` when (after the push) five buffered samples
equal `a` and five equal `b`. -/
theorem getStableSOC_moves (g : Globals) (x a b : ℚ) (s : HW)
    (hsize : g.g_socBufferSize = 10) (hN : g.g_socChangeThreshold = 3)
    (hfull : s.socBufferFull = true) (hlen : s.socBuffer.length = 10)
    (h0 : 0 ≤ s.socBufferIndex) (h1 : s.socBufferIndex < 10)
    (hd : s.displayedSOC = a) (ha : a ≠ 0) (hab : a ≠ b)
    (hca : (s.socBuffer.set s.socBufferIndex.toNat x).count a = 5)
    (hcb : (s.socBuffer.set s.socBufferIndex.toNat x).count b = 5) :
    ∃ s1, getStableSOC g x s = some s1 ∧ s1.displayedSOC = (a + b) / 2 ∧
      getMedianSOC g s1 = some ((a + b) / 2) := by
  obtain ⟨s1, e1, e2, e3, e4, e5⟩ := getStableSOC_full g x s hsize hfull hlen h0 h1
    (fun h => ha (hd ▸ h.1))
  have hl : (s.socBuffer.set s.socBufferIndex.toNat x).length = 10 := by
    rw [List.length_set]
    exact hlen
  have hmed := getMedianSOC_full g s1 hsize e4 (by rw [e2]; exact hl)
  rw [e2] at hmed
  have hsp := sortArray_sorted_perm (s.socBuffer.set s.socBufferIndex.toNat x)
  rw [hl] at hsp
  have hm : ((sortArray (s.socBuffer.set s.socBufferIndex.toNat x) 10).getD 4 0 +
      (sortArray (s.socBuffer.set s.socBufferIndex.toNat x) 10).getD 5 0) / 2 = (a + b) / 2 := by
    rcases lt_or_gt_of_ne hab with h | h
    · have := middle_of_five_five _ a b hsp.1 (by rw [hsp.2.length_eq, hl]) h
        (by rw [hsp.2.count_eq]; exact hca) (by rw [hsp.2.count_eq]; exact hcb)
      rw [this.1, this.2]
    · have := middle_of_five_five _ b a hsp.1 (by rw [hsp.2.length_eq, hl]) h
        (by rw [hsp.2.count_eq]; exact hcb) (by rw [hsp.2.count_eq]; exact hca)
      rw [this.1, this.2, add_comm]
  rw [hm] at hmed
  refine ⟨s1, e1, ?_, hmed⟩
  rw [e5, hm, hd]
  by_cases c1 : fabs ((a + b) / 2 - a) > 3
  · rw [if_pos c1]
    have hag : agreeCount (s.socBuffer.set s.socBufferIndex.toNat x) 10 ((a + b) / 2) a ≥
        g.g_socChangeThreshold := by
      rw [agreeCount_eq_countP _ _ _ 10 (by omega), List.take_of_length_le (by omega), hN]
      rw [fabs_eq_abs] at c1
      have hcb2 : (s.socBuffer.set s.socBufferIndex.toNat x).countP (fun y => decide (y = b)) = 5 := by
        rw [← hcb, List.count_eq_countP]
        congr 1
      have hmono := List.countP_mono_left (p := fun y => decide (y = b))
        (q := fun y => if (a + b) / 2 > a then decide (y > a + 1) else decide (y < a - 1))
        (l := s.socBuffer.set s.socBufferIndex.toNat x)
        (by
          intro y _ hy
          simp only [decide_eq_true_eq] at hy
          rw [hy]
          by_cases hgt : (a + b) / 2 > a
          · rw [abs_of_pos (by linarith)] at c1
            simp only [if_pos hgt, decide_eq_true_eq]
            linarith
          · rw [abs_of_nonpos (by linarith)] at c1
            simp only [if_neg hgt, decide_eq_true_eq]
            linarith)
      rw [hcb2] at hmono
      have : (3 : ℤ) ≤ 5 := by norm_num
      exact le_trans this (by exact_mod_cast hmono)
    rw [if_pos hag]
  · rw [if_neg c1]

/-- Five samples `b ≠ a` fed to a full buffer of ten samples `a`: four calls keep the
displayed SOC and the fifth moves it to `(a + b) / 2`. -/
theorem sustained_change_ne (g : Globals) (s : HW) (a b : ℚ)
    (hsize : g.g_socBufferSize = 10) (hN : g.g_socChangeThreshold = 3)
    (hbuf : s.socBuffer = [a, a, a, a, a, a, a, a, a, a]) (hfull : s.socBufferFull = true)
    (k : ℤ) (hk : s.socBufferIndex = k) (h0 : 0 ≤ k) (h1 : k < 10)
    (hd : s.displayedSOC = a) (ha : a ≠ 0) (hab : a ≠ b) :
    ∃ s1 s2 s3 s4 s5, getStableSOC g b s = some s1 ∧ s1.displayedSOC = a ∧
      getStableSOC g b s1 = some s2 ∧ s2.displayedSOC = a ∧
      getStableSOC g b s2 = some s3 ∧ s3.displayedSOC = a ∧
      getStableSOC g b s3 = some s4 ∧ s4.displayedSOC = a ∧
      getStableSOC g b s4 = some s5 ∧ s5.displayedSOC = (a + b) / 2 ∧
      getMedianSOC g s5 = some ((a + b) / 2) := by
  have hba : b ≠ a := Ne.symm hab
  interval_cases k
  all_goals
    obtain ⟨s1, e1, b1, i1, f1, d1, _⟩ := getStableSOC_keeps g b a s hsize hfull
      (by rw [hbuf]; rfl) (by norm_num [hk]) (by norm_num [hk]) hd ha
      (by rw [hbuf, hk]; simp [List.count_cons, hab, hba])
    rw [hbuf, hk] at b1
    rw [hk] at i1
    simp at b1 i1
    obtain ⟨s2, e2, b2, i2, f2, d2, _⟩ := getStableSOC_keeps g b a s1 hsize f1
      (by rw [b1]; rfl) (by norm_num [i1]) (by norm_num [i1]) d1 ha
      (by rw [b1, i1]; simp [List.count_cons, hab, hba])
    rw [b1, i1] at b2
    rw [i1] at i2
    simp at b2 i2
    obtain ⟨s3, e3, b3, i3, f3, d3, _⟩ := getStableSOC_keeps g b a s2 hsize f2
      (by rw [b2]; rfl) (by norm_num [i2]) (by norm_num [i2]) d2 ha
      (by rw [b2, i2]; simp [List.count_cons, hab, hba])
    rw [b2, i2] at b3
    rw [i2] at i3
    simp at b3 i3
    obtain ⟨s4, e4, b4, i4, f4, d4, _⟩ := getStableSOC_keeps g b a s3 hsize f3
      (by rw [b3]; rfl) (by norm_num [i3]) (by norm_num [i3]) d3 ha
      (by rw [b3, i3]; simp [List.count_cons, hab, hba])
    rw [b3, i3] at b4
    rw [i3] at i4
    simp at b4 i4
    obtain ⟨s5, e5, d5, m5⟩ := getStableSOC_moves g b a b s4 hsize hN f4
      (by rw [b4]; rfl) (by norm_num [i4]) (by norm_num [i4]) d4 ha hab
      (by rw [b4, i4]; simp [List.count_cons, hab, hba])
      (by rw [b4, i4]; simp [List.count_cons, hab, hba])
    exact ⟨s1, s2, s3, s4, s5, e1, d1, e2, d2, e3, d3, e4, d4, e5, d5, m5⟩

/-- A sample `a` fed to a full buffer of ten samples `a` changes neither the buffer nor the
displayed SOC `a`. -/
theorem same_sample (g : Globals) (s : HW) (a : ℚ)
    (hsize : g.g_socBufferSize = 10)
    (hbuf : s.socBuffer = [a, a, a, a, a, a, a, a, a, a]) (hfull : s.socBufferFull = true)
    (h0 : 0 ≤ s.socBufferIndex) (h1 : s.socBufferIndex < 10)
    (hd : s.displayedSOC = a) (ha : a ≠ 0) :
    ∃ s1, getStableSOC g a s = some s1 ∧ s1.socBuffer = [a, a, a, a, a, a, a, a, a, a] ∧
      s1.socBufferFull = true ∧ 0 ≤ s1.socBufferIndex ∧ s1.socBufferIndex < 10 ∧
      s1.displayedSOC = a ∧ getMedianSOC g s1 = some a := by
  have hset : s.socBuffer.set s.socBufferIndex.toNat a = [a, a, a, a, a, a, a, a, a, a] := by
    obtain ⟨k, hk⟩ : ∃ k : ℤ, s.socBufferIndex = k := ⟨_, rfl⟩
    rw [hk] at h0 h1 ⊢
    rw [hbuf]
    interval_cases k <;> simp
  obtain ⟨s1, e1, b1, i1, f1, d1, m1⟩ := getStableSOC_keeps g a a s hsize hfull
    (by rw [hbuf]; rfl) h0 h1 hd ha (by rw [hset]; simp)
  refine ⟨s1, e1, b1.trans hset, f1, ?_, ?_, d1, m1⟩
  · rw [i1]
    split_ifs <;> omega
  · rw [i1]
    split_ifs <;> omega

/-- C10: sustained change.  With buffer size 10 and agreement count 3, start from a buffer
full of samples equal to `a` with displayed SOC `a`, for any position of the write index
and any `a ≠ 0` (in particular `0 < a ≤ 100`), and feed consecutive samples equal to `b`
(any value, in particular `0 ≤ b ≤ 100`): each call returns, the displayed SOC is `a` after
each of the first four samples and `(a + b) / 2`, the buffer median, after the fifth. -/
theorem sustained_change (g : Globals) (s : HW) (a b : ℚ)
    (hsize : g.g_socBufferSize = 10) (hN : g.g_socChangeThreshold = 3)
    (hbuf : s.socBuffer = List.replicate 10 a) (hfull : s.socBufferFull = true)
    (h0 : 0 ≤ s.socBufferIndex) (h1 : s.socBufferIndex < 10)
    (hd : s.displayedSOC = a) (ha : a ≠ 0) :
    ∃ s1 s2 s3 s4 s5, getStableSOC g b s = some s1 ∧ s1.displayedSOC = a ∧
      getStableSOC g b s1 = some s2 ∧ s2.displayedSOC = a ∧
      getStableSOC g b s2 = some s3 ∧ s3.displayedSOC = a ∧
      getStableSOC g b s3 = some s4 ∧ s4.displayedSOC = a ∧
      getStableSOC g b s4 = some s5 ∧ s5.displayedSOC = (a + b) / 2 ∧
      getMedianSOC g s5 = some ((a + b) / 2) := by
  have hbuf2 : s.socBuffer = [a, a, a, a, a, a, a, a, a, a] := by
    rw [hbuf]
    rfl
  by_cases hab : a = b
  · subst hab
    obtain ⟨s1, e1, b1, f1, l1, u1, d1, _⟩ := same_sample g s a hsize hbuf2 hfull h0 h1 hd ha
    obtain ⟨s2, e2, b2, f2, l2, u2, d2, _⟩ := same_sample g s1 a hsize b1 f1 l1 u1 d1 ha
    obtain ⟨s3, e3, b3, f3, l3, u3, d3, _⟩ := same_sample g s2 a hsize b2 f2 l2 u2 d2 ha
    obtain ⟨s4, e4, b4, f4, l4, u4, d4, _⟩ := same_sample g s3 a hsize b3 f3 l3 u3 d3 ha
    obtain ⟨s5, e5, b5, f5, l5, u5, d5, m5⟩ := same_sample g s4 a hsize b4 f4 l4 u4 d4 ha
    have hm : (a + a) / 2 = a := by ring
    exact ⟨s1, s2, s3, s4, s5, e1, d1, e2, d2, e3, d3, e4, d4, e5, by rw [d5, hm],
      by rw [m5, hm]⟩
  · exact sustained_change_ne g s a b hsize hN hbuf2 hfull _ rfl h0 h1 hd ha hab

/-- Witness for C10: buffer full of 50 with the write index at 7, samples of 80, default
settings; the fifth sample gives `(50 + 80) / 2`, which is 65. -/
theorem sustained_change_witness :
    defaultGlobals.g_socBufferSize = 10 ∧ defaultGlobals.g_socChangeThreshold = 3 ∧
    (stableAt 50 7).socBuffer = List.replicate 10 50 ∧
    (stableAt 50 7).socBufferFull = true ∧
    0 ≤ (stableAt 50 7).socBufferIndex ∧ (stableAt 50 7).socBufferIndex < 10 ∧
    (stableAt 50 7).displayedSOC = 50 ∧ (50 : ℚ) ≠ 0 ∧ ((50 : ℚ) + 80) / 2 = 65 ∧
    ∃ s1 s2 s3 s4 s5, getStableSOC defaultGlobals 80 (stableAt 50 7) = some s1 ∧
      s1.displayedSOC = 50 ∧
      getStableSOC defaultGlobals 80 s1 = some s2 ∧ s2.displayedSOC = 50 ∧
      getStableSOC defaultGlobals 80 s2 = some s3 ∧ s3.displayedSOC = 50 ∧
      getStableSOC defaultGlobals 80 s3 = some s4 ∧ s4.displayedSOC = 50 ∧
      getStableSOC defaultGlobals 80 s4 = some s5 ∧ s5.displayedSOC = (50 + 80) / 2 ∧
      getMedianSOC defaultGlobals s5 = some ((50 + 80) / 2) :=
  ⟨rfl, rfl, rfl, rfl, by norm_num [stableAt], by norm_num [stableAt], rfl, by norm_num,
    by norm_num,
    sustained_change defaultGlobals (stableAt 50 7) 50 80 rfl rfl rfl rfl
      (by norm_num [stableAt]) (by norm_num [stableAt]) rfl (by norm_num)⟩

set_option maxHeartbeats 4000000 in
/-- C8, the code at a failing input: a fresh manager with the default settings is fed ten
samples of 0 % and then one sample of 80 %.  After the ten samples the displayed SOC is 0.
The eleventh call is not the first sample after construction, the median of the buffer
after its push is 0 and `|0 - 0| ≤ 3`, so the step rule gives 0; the code returns 80,
because the buffer index has wrapped to 1 while the displayed SOC is 0 and the
first-sample branch is taken again. -/
theorem firstSample_branch_taken_again :
    (feedSOC defaultGlobals (List.replicate 10 0) HW.init).map HW.displayedSOC = some 0 ∧
    (feedSOC defaultGlobals (List.replicate 10 0 ++ [80]) HW.init).bind
      (getMedianSOC defaultGlobals) = some 0 ∧
    (feedSOC defaultGlobals (List.replicate 10 0 ++ [80]) HW.init).map HW.displayedSOC =
      some 80 := by
  have e : List.replicate 10 (0 : ℚ) = [0, 0, 0, 0, 0, 0, 0, 0, 0, 0] := rfl
  rw [e]
  simp [feedSOC, getStableSOC, updateSOCBuffer, getMedianSOC, socCount, HW.init,
    defaultGlobals, SOC_BUFFER_SIZE, sortArray, sortInner, swapIfGreater, fabs, agreeCount,
    List.range, List.range.loop, List.range']

/-- Outlier rejection away from the first-sample branch: on a full buffer of ten samples
equal to `a ≠ 0` with displayed SOC `a`, one call with any sample `o` keeps the displayed
SOC, whatever the write index and the agreement count. -/
theorem outlier_rejected (g : Globals) (s : HW) (a o : ℚ)
    (hsize : g.g_socBufferSize = 10)
    (hbuf : s.socBuffer = List.replicate 10 a) (hfull : s.socBufferFull = true)
    (h0 : 0 ≤ s.socBufferIndex) (h1 : s.socBufferIndex < 10)
    (hd : s.displayedSOC = a) (ha : a ≠ 0) :
    ∃ s1, getStableSOC g o s = some s1 ∧ s1.displayedSOC = a := by
  have hlen : s.socBuffer.length = 10 := by
    rw [hbuf, List.length_replicate]
  have hi : s.socBufferIndex.toNat < s.socBuffer.length := by
    rw [hlen]
    omega
  have hc : 6 ≤ (s.socBuffer.set s.socBufferIndex.toNat o).count a := by
    rw [List.count_set o a s.socBuffer s.socBufferIndex.toNat hi]
    have h10 : s.socBuffer.count a = 10 := by
      rw [hbuf, List.count_replicate_self]
    rw [h10]
    split_ifs <;> omega
  obtain ⟨s1, e1, _, _, _, d1, _⟩ :=
    getStableSOC_keeps g o a s hsize hfull hlen h0 h1 hd ha hc
  exact ⟨s1, e1, d1⟩

/-- C9, the code at a failing input: buffer size 10, agreement count 3, buffer full of
samples equal to 0, displayed SOC 0, write index 0.  One call `getStableSOC(80)` returns
and moves the displayed SOC to 80. -/
theorem outlier_moves_displayed_at_zero :
    defaultGlobals.g_socBufferSize = 10 ∧ defaultGlobals.g_socChangeThreshold = 3 ∧
    (stableAt 0 0).socBuffer = List.replicate 10 0 ∧ (stableAt 0 0).socBufferFull = true ∧
    (stableAt 0 0).socBufferIndex = 0 ∧ (stableAt 0 0).displayedSOC = 0 ∧
    (getStableSOC defaultGlobals 80 (stableAt 0 0)).map HW.displayedSOC = some 80 := by
  refine ⟨rfl, rfl, rfl, rfl, rfl, rfl, ?_⟩
  norm_num [getStableSOC, updateSOCBuffer, stableAt, HW.init, defaultGlobals, SOC_BUFFER_SIZE]

/-! ## Properties of the reading validator and the actuators -/

/-- C11: `validatePowerReadings` returns false if and only if the input power exceeds the
maximum plausible power, or the output power exceeds it, or the input power exceeds the
classification threshold while the output power exceeds the input power by more than 5 W;
for every other pair it returns true. -/
theorem validatePowerReadings_rejects (g : Globals) (powerIN powerOUT : ℚ) :
    (validatePowerReadings g powerIN powerOUT = false ↔
      (powerIN > g.g_maxPowerReading ∨ powerOUT > g.g_maxPowerReading ∨
        (powerIN > g.g_powerThreshold ∧ powerOUT - powerIN > 5))) ∧
    (validatePowerReadings g powerIN powerOUT = true ↔
      ¬ (powerIN > g.g_maxPowerReading ∨ powerOUT > g.g_maxPowerReading ∨
        (powerIN > g.g_powerThreshold ∧ powerOUT - powerIN > 5))) := by
  have e : powerOUT - powerIN > 5 ↔ powerOUT > powerIN + 5 := by
    constructor <;> intro h <;> linarith
  rw [e]
  unfold validatePowerReadings
  by_cases h1 : powerIN > g.g_maxPowerReading ∨ powerOUT > g.g_maxPowerReading
  · rw [if_pos h1]
    rcases h1 with h | h <;> simp [h]
  · rw [if_neg h1]
    rw [not_or] at h1
    by_cases h2 : powerIN > g.g_powerThreshold ∧ powerOUT > powerIN + 5
    · rw [if_pos h2]
      simp [h2]
    · rw [if_neg h2]
      simp [h1.1, h1.2, h2]

/-- C13: `pressButton` contention.  A request made while a press is in flight, or with an
index outside 0..4, returns false and leaves the whole state (in-flight flag, active index,
start time, hold duration, every output level) unchanged.  A request with an index in 0..4
made while no press is in flight returns true, sets the in-flight flag, drives that output
high, leaves the other outputs alone and records the index, the clock value and the
duration (converted to `unsigned long`, which is the duration itself when it is not
negative). -/
theorem pressButton_contention (now : ℕ) (buttonIndex duration : ℤ) (s : HW) :
    (s.buttonActive = true → pressButton now buttonIndex duration s = (s, false)) ∧
    ((buttonIndex < 0 ∨ 4 < buttonIndex) → pressButton now buttonIndex duration s = (s, false)) ∧
    (s.buttonActive = false → 0 ≤ buttonIndex → buttonIndex ≤ 4 →
      (pressButton now buttonIndex duration s).2 = true ∧
      (pressButton now buttonIndex duration s).1.buttonActive = true ∧
      (pressButton now buttonIndex duration s).1.activeButtonIndex = buttonIndex ∧
      (pressButton now buttonIndex duration s).1.buttonPressStartTime = now ∧
      (pressButton now buttonIndex duration s).1.buttonPressDuration = ulongOfInt duration ∧
      (0 ≤ duration → duration < 4294967296 →
        ((pressButton now buttonIndex duration s).1.buttonPressDuration : ℤ) = duration) ∧
      (pressButton now buttonIndex duration s).1.pinHigh =
        s.pinHigh.set buttonIndex.toNat true ∧
      (s.pinHigh.length = 5 →
        (pressButton now buttonIndex duration s).1.pinHigh.getD buttonIndex.toNat false = true ∧
        ∀ j, j ≠ buttonIndex.toNat →
          (pressButton now buttonIndex duration s).1.pinHigh.getD j false =
            s.pinHigh.getD j false)) := by
  refine ⟨?_, ?_, ?_⟩
  · intro h
    unfold pressButton
    split_ifs <;> rfl
  · intro h
    unfold pressButton
    rw [if_pos (by omega)]
  · intro h h0 h4
    have hr : ¬ (buttonIndex < 0 ∨ buttonIndex ≥ 5) := by omega
    simp only [pressButton, if_neg hr, h, Bool.false_eq_true, if_false]
    refine ⟨trivial, trivial, trivial, trivial, trivial, ?_, trivial, ?_⟩
    · intro d0 d1
      unfold ulongOfInt
      rw [Int.emod_eq_of_lt d0 d1, Int.toNat_of_nonneg d0]
    · intro hlen
      have hi : buttonIndex.toNat < s.pinHigh.length := by omega
      constructor
      · simp [List.getD_eq_getElem?_getD, List.getElem?_set, hi]
      · intro j hj
        simp [List.getD_eq_getElem?_getD, List.getElem?_set, Ne.symm hj]

/-- The block "LIVELLO 2" never touches the critical alert flag or the published data, and
leaves the low-battery alert inactive when the SOC is at or above the low-warning
threshold. -/
theorem emergencyLevel2_frame (g : Globals) (now : ℕ) (s : HW) :
    (emergencyLevel2 g now s).1.criticalBatteryAlertActive = s.criticalBatteryAlertActive ∧
    (emergencyLevel2 g now s).1.currentData = s.currentData ∧
    (g.g_batteryLowWarning ≤ s.currentData.batteryPercentage →
      (emergencyLevel2 g now s).1.lowBatteryAlertActive = false) := by
  simp only [emergencyLevel2, triggerBeepAlert_eq, emergencyShutdownUPS]
  refine ⟨?_, ?_, ?_⟩
  · split_ifs <;> rfl
  · split_ifs <;> rfl
  · intro h
    rw [if_neg (not_lt.mpr h)]
    split_ifs with h2
    · rfl
    · simpa using h2

/-- The block "LIVELLO 3" on recovery: with the critical alert active and the SOC at or
above the critical threshold, the alert and the counter are cleared and the low-battery
alert is re-armed at the current time when the SOC is below the low-warning threshold. -/
theorem emergencyLevel3_recovery (g : Globals) (now : ℕ) (s : HW)
    (hsoc : g.g_batteryCritical ≤ s.currentData.batteryPercentage)
    (hact : s.criticalBatteryAlertActive = true) :
    (emergencyLevel3 g now s).1.criticalBatteryAlertActive = false ∧
    (emergencyLevel3 g now s).1.batteryCriticalCounter = 0 ∧
    (emergencyLevel3 g now s).1.lastCriticalBatteryAlertTime = 0 ∧
    (if s.currentData.batteryPercentage < g.g_batteryLowWarning then
      (emergencyLevel3 g now s).1.lowBatteryAlertActive = true ∧
        (emergencyLevel3 g now s).1.lastLowBatteryAlertTime = now
    else
      (emergencyLevel3 g now s).1.lowBatteryAlertActive = s.lowBatteryAlertActive) ∧
    (emergencyLevel3 g now s).2 = [] := by
  simp only [emergencyLevel3, if_neg (not_lt.mpr hsoc), hact, if_true]
  split_ifs <;> simp

/-- C16: Level-3 recovery.  After a tick evaluated with the unit on and warmed up, in state
Rest or Discharging, with the critical alert active and the SOC at or above the critical
threshold: the critical alert is inactive and the critical counter is 0; the low-battery
alert is active, with its fire time set to the clock value of the tick, when the SOC is
below the low-warning threshold (whatever the low-warning counter is), and inactive
otherwise. -/
theorem level3_recovery (g : Globals) (t : Tick) (he : t.evaluates g)
    (hact : t.pre.criticalBatteryAlertActive = true)
    (hsoc : g.g_batteryCritical ≤ t.pre.currentData.batteryPercentage) :
    (t.post g).criticalBatteryAlertActive = false ∧
    (t.post g).batteryCriticalCounter = 0 ∧
    (if t.pre.currentData.batteryPercentage < g.g_batteryLowWarning then
      (t.post g).lowBatteryAlertActive = true ∧ (t.post g).lastLowBatteryAlertTime = t.now
    else (t.post g).lowBatteryAlertActive = false) := by
  obtain ⟨s2, hs, hd, hpost, _⟩ := checkEmergencyConditions_evaluates g t he
  obtain ⟨_, _, _, _, h5, _, _, _⟩ := hs
  simp only at h5
  obtain ⟨_, f2, _, f4, _⟩ := emergencyLevel1_frame g t.now s2
  obtain ⟨k1, k2, k3⟩ := emergencyLevel2_frame g t.now (emergencyLevel1 g t.now s2).1
  have hdata : (emergencyLevel2 g t.now (emergencyLevel1 g t.now s2).1).1.currentData =
      t.pre.currentData := by
    rw [k2, f4, hd]
  have hcrit : (emergencyLevel2 g t.now
      (emergencyLevel1 g t.now s2).1).1.criticalBatteryAlertActive = true := by
    rw [k1, f2, ← h5]
    exact hact
  obtain ⟨r1, r2, _, r4, _⟩ := emergencyLevel3_recovery g t.now _ (by rw [hdata]; exact hsoc) hcrit
  rw [hdata] at r4
  rw [hpost]
  refine ⟨r1, r2, ?_⟩
  by_cases hl : t.pre.currentData.batteryPercentage < g.g_batteryLowWarning
  · rw [if_pos hl] at r4 ⊢
    exact r4
  · rw [if_neg hl] at r4 ⊢
    rw [r4]
    apply k3
    rw [f4, hd]
    exact not_lt.mp hl

/-- C17: Bypass handling.  After a tick evaluated warmed up, with the voltage at or above
the power-station-off voltage and in state Bypass, whatever the voltage and the SOC: the
three debounce counters are 0, the two alert flags and the two recorded fire times are
unchanged, and no alarm call (shutdown signal or beep alert) is made. -/
theorem bypass_tick (g : Globals) (t : Tick)
    (hw : t.pre.isWarmedUp = true)
    (hon : g.g_powerStationOffVoltage ≤ t.pre.currentData.batteryVoltage)
    (hst : t.pre.currentState = STATE_BYPASS) :
    (t.post g).voltageMinSafeCounter = 0 ∧
    (t.post g).batteryLowWarningCounter = 0 ∧
    (t.post g).batteryCriticalCounter = 0 ∧
    (t.post g).lowBatteryAlertActive = t.pre.lowBatteryAlertActive ∧
    (t.post g).criticalBatteryAlertActive = t.pre.criticalBatteryAlertActive ∧
    (t.post g).lastLowBatteryAlertTime = t.pre.lastLowBatteryAlertTime ∧
    (t.post g).lastCriticalBatteryAlertTime = t.pre.lastCriticalBatteryAlertTime ∧
    t.actions g = [] ∧
    (t.post g).isBeeping = t.pre.isBeeping := by
  have hnc : t.pre.currentState ≠ STATE_CHARGING := by
    rw [hst]
    decide
  by_cases hp : t.pre.isPowerStationOn = true
  · simp [Tick.post, Tick.actions, checkEmergencyConditions, hw, not_lt.mpr hon, hp, hnc, hst]
  · simp [Tick.post, Tick.actions, checkEmergencyConditions, hw, not_lt.mpr hon, hp, hnc, hst,
      hon]

/-- With the write index inside the buffer, `updateSOCBuffer` returns a state that differs
from the old one in the SOC buffer, its index and its full flag only, and whose sample
count lies between 1 and the configured size. -/
theorem updateSOCBuffer_total (g : Globals) (x : ℚ) (s : HW)
    (h0 : 0 ≤ s.socBufferIndex) (h1 : s.socBufferIndex < SOC_BUFFER_SIZE) :
    ∃ s1, updateSOCBuffer g x s = some s1 ∧
      s1 = { s with socBuffer := s1.socBuffer, socBufferIndex := s1.socBufferIndex,
                    socBufferFull := s1.socBufferFull } ∧
      (socCount g s1 = g.g_socBufferSize ∨
        (0 < socCount g s1 ∧ socCount g s1 ≤ SOC_BUFFER_SIZE)) := by
  unfold updateSOCBuffer
  rw [if_pos ⟨h0, h1⟩]
  by_cases hw : s.socBufferIndex + 1 ≥ g.g_socBufferSize
  · simp only [if_pos hw]
    exact ⟨_, rfl, rfl, Or.inl (by simp [socCount])⟩
  · simp only [if_neg hw]
    refine ⟨_, rfl, rfl, ?_⟩
    unfold socCount
    simp only []
    split_ifs
    · exact Or.inl rfl
    · right; constructor <;> omega

/-- With a sample count between 0 and the capacity, `getMedianSOC` returns. -/
theorem getMedianSOC_total (g : Globals) (s : HW)
    (h0 : 0 ≤ socCount g s) (h1 : socCount g s ≤ SOC_BUFFER_SIZE) :
    ∃ m, getMedianSOC g s = some m := by
  unfold getMedianSOC
  simp only []
  split_ifs with a b c
  · exact ⟨_, rfl⟩
  · omega
  · exact ⟨_, rfl⟩
  · exact ⟨_, rfl⟩

/-- With the write index inside the buffer and a configured size between 0 and the
capacity, `getStableSOC` returns, and it changes nothing but the SOC buffer, its index,
its full flag and the displayed SOC. -/
theorem getStableSOC_total (g : Globals) (x : ℚ) (s : HW)
    (h0 : 0 ≤ s.socBufferIndex) (h1 : s.socBufferIndex < SOC_BUFFER_SIZE)
    (h2 : 0 ≤ g.g_socBufferSize) (h3 : g.g_socBufferSize ≤ SOC_BUFFER_SIZE) :
    ∃ s2, getStableSOC g x s = some s2 ∧
      s2 = { s with socBuffer := s2.socBuffer, socBufferIndex := s2.socBufferIndex,
                    socBufferFull := s2.socBufferFull, displayedSOC := s2.displayedSOC } := by
  obtain ⟨s1, hu, hf, hc⟩ := updateSOCBuffer_total g x s h0 h1
  obtain ⟨m, hm⟩ := getMedianSOC_total g s1 (by rcases hc with h | h <;> omega)
    (by rcases hc with h | h <;> omega)
  unfold getStableSOC
  rw [hu]
  simp only [hm]
  have e : ∀ d : ℚ, ({ s1 with displayedSOC := d } : HW) =
      { s with socBuffer := s1.socBuffer, socBufferIndex := s1.socBufferIndex,
               socBufferFull := s1.socBufferFull, displayedSOC := d } := by
    intro d
    rw [hf]
  have e1 : s1 =
      { s with socBuffer := s1.socBuffer, socBufferIndex := s1.socBufferIndex,
               socBufferFull := s1.socBufferFull, displayedSOC := s1.displayedSOC } :=
    e s1.displayedSOC
  split_ifs
  · exact ⟨_, rfl, e _⟩
  · exact ⟨_, rfl, e _⟩
  · exact ⟨_, rfl, e1⟩
  · exact ⟨_, rfl, e _⟩

/-- With the write index inside the buffer and a configured size between 0 and the
capacity, `getStableSOC` does not fail. -/
theorem getStableSOC_ne_none (g : Globals) (x : ℚ) (s : HW)
    (h0 : 0 ≤ s.socBufferIndex) (h1 : s.socBufferIndex < SOC_BUFFER_SIZE)
    (h2 : 0 ≤ g.g_socBufferSize) (h3 : g.g_socBufferSize ≤ SOC_BUFFER_SIZE) :
    getStableSOC g x s ≠ none := by
  obtain ⟨s2, h, -⟩ := getStableSOC_total g x s h0 h1 h2 h3
  rw [h]
  exact Option.some_ne_none _

/-- What `getStableSOC` leaves unchanged. -/
theorem getStableSOC_frame (g : Globals) (x : ℚ) (s s2 : HW)
    (h : getStableSOC g x s = some s2) :
    s2 = { s with socBuffer := s2.socBuffer, socBufferIndex := s2.socBufferIndex,
                  socBufferFull := s2.socBufferFull, displayedSOC := s2.displayedSOC } := by
  have hu : ∃ s1, updateSOCBuffer g x s = some s1 := by
    cases hu : updateSOCBuffer g x s with
    | none => simp [getStableSOC, hu] at h
    | some s1 => exact ⟨s1, rfl⟩
  obtain ⟨s1, hu⟩ := hu
  have h01 : 0 ≤ s.socBufferIndex ∧ s.socBufferIndex < SOC_BUFFER_SIZE := by
    by_contra hc
    simp [updateSOCBuffer, hc] at hu
  obtain ⟨s1b, hub, hf, -⟩ := updateSOCBuffer_total g x s h01.1 h01.2
  rw [hu] at hub
  have hs := Option.some.inj hub
  subst hs
  have e : ∀ d : ℚ, ({ s1 with displayedSOC := d } : HW) =
      { s with socBuffer := s1.socBuffer, socBufferIndex := s1.socBufferIndex,
               socBufferFull := s1.socBufferFull, displayedSOC := d } := by
    intro d
    rw [hf]
  unfold getStableSOC at h
  rw [hu] at h
  simp only [] at h
  split_ifs at h with a
  · cases h; exact e _
  · cases hm : getMedianSOC g s1 with
    | none => simp [hm] at h
    | some m =>
      simp only [hm] at h
      split_ifs at h <;> cases h
      · exact e _
      · exact e s2.displayedSOC
      · exact e _

/-- The smoothing step applied to a state equal to the raw value gives the raw value. -/
theorem ema_same (a r : ℚ) : a * r + (1 - a) * r = r := by ring

/-- The first cycle of `readSensors` that runs the acquisition, on a state whose power
filter has not been initialised: the cycle returns; the filtered pair, the last-valid pair
and the published pair are the raw pair of this cycle, whether or not the validator
accepts it; the state is classified on the raw pair; the rejection counter goes up by one
exactly when the validator rejects the raw pair. -/
theorem readSensorsBody_first (g : Globals) (inp : SensorInput) (s : HW)
    (hinit : s.powerFilterInitialized = false)
    (h0 : 0 ≤ s.socBufferIndex) (h1 : s.socBufferIndex < SOC_BUFFER_SIZE)
    (h2 : 0 ≤ g.g_socBufferSize) (h3 : g.g_socBufferSize ≤ SOC_BUFFER_SIZE) :
    ∃ s2, readSensorsBody g inp s = some s2 ∧
      s2.filteredPowerIN = rawPowerIN g inp ∧ s2.filteredPowerOUT = rawPowerOUT g inp ∧
      s2.powerFilterInitialized = true ∧
      s2.currentData.mainPower = rawPowerIN g inp ∧
      s2.currentData.outputPower = rawPowerOUT g inp ∧
      s2.currentState = detectState g (rawPowerIN g inp) (rawPowerOUT g inp) ∧
      s2.lastValidPowerIN = rawPowerIN g inp ∧ s2.lastValidPowerOUT = rawPowerOUT g inp ∧
      s2.invalidReadingsCount =
        (if validatePowerReadings g (rawPowerIN g inp) (rawPowerOUT g inp) = true
          then s.invalidReadingsCount else s.invalidReadingsCount + 1) := by
  unfold readSensorsBody rawPowerIN rawPowerOUT
  simp only [initializePowerFilters, filterPowerIN, filterPowerOUT, hinit, Bool.false_eq_true,
    not_false_eq_true, if_true, not_true_eq_false, if_false, ema_same, POWER_IN_OFFSET,
    POWER_OUT_OFFSET, add_zero]
  cases hv : validatePowerReadings g
      ((if inp.irmsMain - g.g_sct013OffsetIn < 5 / 100 then 0
        else inp.irmsMain - g.g_sct013OffsetIn) * g.g_mainsVoltage)
      ((if inp.irmsOutput - g.g_sct013OffsetOut < 5 / 100 then 0
        else inp.irmsOutput - g.g_sct013OffsetOut) * g.g_mainsVoltage)
  all_goals
    simp only [Bool.false_eq_true, if_false, if_true]
    split
    · rename_i heq
      exact absurd heq (getStableSOC_ne_none g _ _ h0 h1 h2 h3)
    · rename_i s6 heq
      have hf := getStableSOC_frame g _ _ s6 heq
      refine ⟨_, rfl, ?_⟩
      simp only []
      rw [hf]
      simp

/-! ## Properties of the acquisition cycle -/

/-- C14: `readBatteryVoltageRaw` equals the reference definition on every input, state and
configuration; with the fixed-voltage override greater than 0 the result is exactly the
override; otherwise it is the discharge table at `base` plus the discharge offset when
Discharging, the charge table at `base` plus the charge offset when Charging,
`base - 0.20` when Bypass and `base` plus the rest offset when Rest, where `base` is the
ADC voltage times the calibration factor times the divider ratio. -/
theorem readBatteryVoltageRaw_reference (g : Globals) (inp : SensorInput) (s : HW) :
    readBatteryVoltageRaw g inp s = voltageReference g (adcVoltage inp) s.currentState ∧
    (g.g_fixedVoltage > 0 → readBatteryVoltageRaw g inp s = g.g_fixedVoltage) ∧
    (¬ g.g_fixedVoltage > 0 →
      (s.currentState = STATE_DISCHARGING →
        readBatteryVoltageRaw g inp s =
          compensateVoltageDischarge
              (adcVoltage inp * g.g_batteryAdcCalibration * g.g_batteryDividerRatio) +
            g.g_voltageOffsetDischarge) ∧
      (s.currentState = STATE_CHARGING →
        readBatteryVoltageRaw g inp s =
          compensateVoltageCharge
              (adcVoltage inp * g.g_batteryAdcCalibration * g.g_batteryDividerRatio) +
            g.g_voltageOffsetCharge) ∧
      (s.currentState = STATE_BYPASS →
        readBatteryVoltageRaw g inp s =
          adcVoltage inp * g.g_batteryAdcCalibration * g.g_batteryDividerRatio - 20 / 100) ∧
      (s.currentState = STATE_REST →
        readBatteryVoltageRaw g inp s =
          adcVoltage inp * g.g_batteryAdcCalibration * g.g_batteryDividerRatio +
            g.g_voltageOffsetRest)) := by
  refine ⟨?_, ?_, ?_⟩
  · unfold readBatteryVoltageRaw voltageReference adcVoltage VOLTAGE_OFFSET_BYPASS
    by_cases h : g.g_fixedVoltage > 0
    · simp only [if_pos h]
    · simp only [if_neg h]
      cases hs : s.currentState <;> simp [sub_eq_add_neg]
  · intro h
    unfold readBatteryVoltageRaw
    simp only [if_pos h]
  · intro h
    unfold readBatteryVoltageRaw adcVoltage VOLTAGE_OFFSET_BYPASS
    simp only [if_neg h]
    refine ⟨?_, ?_, ?_, ?_⟩ <;> intro hs <;> simp [hs, sub_eq_add_neg]

/-- An instance of C13: on a freshly constructed manager a press of the AC button for
1000 ms is accepted and drives the button; a press of the power button requested 100 ms
later, while the first is in flight, is rejected and changes nothing. -/
theorem pressButton_contention_witness :
    (pressButton 0 BTN_AC 1000 HW.init).2 = true ∧
    (pressButton 0 BTN_AC 1000 HW.init).1.buttonActive = true ∧
    pressButton 100 BTN_POWER 500 (pressButton 0 BTN_AC 1000 HW.init).1 =
      ((pressButton 0 BTN_AC 1000 HW.init).1, false) :=
  ⟨((pressButton_contention 0 BTN_AC 1000 HW.init).2.2 rfl (by decide) (by decide)).1,
   ((pressButton_contention 0 BTN_AC 1000 HW.init).2.2 rfl (by decide) (by decide)).2.1,
   (pressButton_contention 100 BTN_POWER 500 (pressButton 0 BTN_AC 1000 HW.init).1).1
     ((pressButton_contention 0 BTN_AC 1000 HW.init).2.2 rfl (by decide) (by decide)).2.1⟩

/-- An instance of C16: after `fiveCriticalReadings` the critical alert is active; the tick
at 6000 ms with the SOC at 15 %, between the default critical threshold of 10 % and the
default low-warning threshold of 20 %, clears the critical alert and leaves the
low-battery alert active with fire time 6000. -/
theorem level3_recovery_witness :
    recoveryTick.evaluates defaultGlobals ∧
    recoveryTick.pre.criticalBatteryAlertActive = true ∧
    defaultGlobals.g_batteryCritical ≤ recoveryTick.pre.currentData.batteryPercentage ∧
    (recoveryTick.post defaultGlobals).criticalBatteryAlertActive = false ∧
    (recoveryTick.post defaultGlobals).batteryCriticalCounter = 0 ∧
    (recoveryTick.post defaultGlobals).lowBatteryAlertActive = true ∧
    (recoveryTick.post defaultGlobals).lastLowBatteryAlertTime = 6000 := by
  have he : recoveryTick.evaluates defaultGlobals := by
    norm_num [Tick.evaluates, recoveryTick, HW.observing, defaultGlobals]
  have ha : recoveryTick.pre.criticalBatteryAlertActive = true := afterFiveCritical_alarm.2.1
  have hs : defaultGlobals.g_batteryCritical ≤ recoveryTick.pre.currentData.batteryPercentage := by
    norm_num [recoveryTick, HW.observing, defaultGlobals]
  have hl : recoveryTick.pre.currentData.batteryPercentage < defaultGlobals.g_batteryLowWarning := by
    norm_num [recoveryTick, HW.observing, defaultGlobals]
  have h := level3_recovery defaultGlobals recoveryTick he ha hs
  rw [if_pos hl] at h
  exact ⟨he, ha, hs, h.1, h.2.1, h.2.2.1, h.2.2.2⟩

/-- An instance of C17: a tick in state Bypass at 25 V and 50 % on a freshly constructed
manager makes no alarm call and leaves the counters at 0. -/
theorem bypass_tick_witness :
    bypassTick.pre.isWarmedUp = true ∧
    defaultGlobals.g_powerStationOffVoltage ≤ bypassTick.pre.currentData.batteryVoltage ∧
    bypassTick.pre.currentState = STATE_BYPASS ∧
    (bypassTick.post defaultGlobals).voltageMinSafeCounter = 0 ∧
    bypassTick.actions defaultGlobals = [] := by
  have hw : bypassTick.pre.isWarmedUp = true := rfl
  have hon : defaultGlobals.g_powerStationOffVoltage ≤
      bypassTick.pre.currentData.batteryVoltage := by
    norm_num [bypassTick, HW.observing, defaultGlobals]
  have hst : bypassTick.pre.currentState = STATE_BYPASS := rfl
  have h := bypass_tick defaultGlobals bypassTick hw hon hst
  exact ⟨hw, hon, hst, h.1, h.2.2.2.2.2.2.2.1⟩

/-- C12, the defect: in the first acquiring cycle of a freshly constructed manager, at
30000 ms with the default settings and 10 A measured on the input, the validator rejects
the pair (2300 W, 0 W), since 2300 W exceeds the maximum of 1700 W; no pair has been
accepted before, and the pair used for the classification and written to the snapshot is
the rejected pair itself: the snapshot carries 2300 W and 0 W, the state is Charging, the
last-valid pair is (2300 W, 0 W) and the rejection counter is 1. -/
theorem firstCycle_publishes_rejected_pair :
    validatePowerReadings defaultGlobals (rawPowerIN defaultGlobals overloadInput)
      (rawPowerOUT defaultGlobals overloadInput) = false ∧
    ∃ s2, readSensors defaultGlobals overloadInput HW.init = some s2 ∧
      s2.filteredPowerIN = 2300 ∧ s2.filteredPowerOUT = 0 ∧
      s2.currentData.mainPower = 2300 ∧ s2.currentData.outputPower = 0 ∧
      s2.currentState = STATE_CHARGING ∧
      s2.lastValidPowerIN = 2300 ∧ s2.lastValidPowerOUT = 0 ∧
      s2.invalidReadingsCount = 1 := by
  have ea : rawPowerIN defaultGlobals overloadInput = 2300 := by
    norm_num [rawPowerIN, defaultGlobals, overloadInput]
  have eb : rawPowerOUT defaultGlobals overloadInput = 0 := by
    norm_num [rawPowerOUT, defaultGlobals, overloadInput]
  have hv : validatePowerReadings defaultGlobals (rawPowerIN defaultGlobals overloadInput)
      (rawPowerOUT defaultGlobals overloadInput) = false := by
    rw [ea, eb]
    norm_num [validatePowerReadings, defaultGlobals]
  refine ⟨hv, ?_⟩
  obtain ⟨s2, hr, a, b, _, c, d, e, f, k, l⟩ :=
    readSensorsBody_first defaultGlobals overloadInput { HW.init with isWarmedUp := true } rfl
      (by norm_num [HW.init]) (by norm_num [HW.init, SOC_BUFFER_SIZE])
      (by norm_num [defaultGlobals]) (by norm_num [defaultGlobals, SOC_BUFFER_SIZE])
  refine ⟨s2, ?_, a.trans ea, b.trans eb, c.trans ea, d.trans eb, ?_, f.trans ea, k.trans eb, ?_⟩
  · rw [← hr]
    norm_num [readSensors, HW.init, defaultGlobals, overloadInput, ulongSub]
  · rw [e, ea, eb]
    norm_num [detectState, defaultGlobals, fabs_eq_abs]
  · rw [l, hv]
    norm_num [HW.init]

/-! ## Properties of the actuator sequencers -/

/-- C18, the defect: a flashlight alert started at 0 ms on a freshly constructed manager
and polled every 500 ms toggles the output at every poll; after 8 toggles, twice the pulse
count of 4, the alert is still active, with the pulse counter at 4; it stays active up to
the 15th toggle and completes, with the flag cleared and the output off, at the 16th. -/
theorem flashlight_sequence_length :
    FLASHLIGHT_ALERT_PULSES = 4 ∧
    (flashlightAlert 0 HW.init).pinHigh.getD BTN_FLASHLIGHT false = true ∧
    flashlightLevels (pollTimes 15) (flashlightAlert 0 HW.init) =
      [false, true, false, true, false, true, false, true,
       false, true, false, true, false, true, false] ∧
    (pollButtons (pollTimes 8) (flashlightAlert 0 HW.init)).map
      (fun s => (s.flashlightAlertActive, s.flashlightPulseCount,
        s.pinHigh.getD BTN_FLASHLIGHT false)) = some (true, 4, true) ∧
    (pollButtons (pollTimes 15) (flashlightAlert 0 HW.init)).map
      (fun s => (s.flashlightAlertActive, s.flashlightPulseCount,
        s.pinHigh.getD BTN_FLASHLIGHT false)) = some (true, 7, false) ∧
    (pollButtons (pollTimes 16) (flashlightAlert 0 HW.init)).map
      (fun s => (s.flashlightAlertActive, s.flashlightPulseCount,
        s.pinHigh.getD BTN_FLASHLIGHT false)) = some (false, 0, false) := by
  refine ⟨rfl, ?_, ?_, ?_, ?_, ?_⟩ <;>
  simp [pollTimes, List.range, List.range.loop, pollButtons, flashlightLevels, updateButtonState,
    releaseButton, flashlightStep, flashlightAlert, HW.init, timeElapsed, ulongSub,
    BTN_FLASHLIGHT, FLASHLIGHT_ALERT_INTERVAL, FLASHLIGHT_ALERT_PULSES]

/-- The difference of a clock value and itself is 0. -/
theorem ulongSub_self (a : ℕ) : ulongSub a a = 0 := by
  unfold ulongSub
  omega

/-- A call of `pressButton` leaves the auto power-on variables unchanged. -/
theorem pressButton_autoState (now : ℕ) (i d : ℤ) (s : HW) :
    (pressButton now i d s).1.powerStationWasOff = s.powerStationWasOff ∧
    (pressButton now i d s).1.acAlreadyActivated = s.acAlreadyActivated := by
  unfold pressButton
  split_ifs <;> simp

/-- One call of `checkAutoPowerOn` against the one-shot monitor: when the monitor is armed
exactly when `powerStationWasOff` is false, and has fired only if `acAlreadyActivated` is
true, the events of the call are accepted and the same relation holds afterwards. -/
theorem checkAutoPowerOn_oneShot (now : ℕ) (s : HW) (fired : Bool)
    (hf : fired = true → s.acAlreadyActivated = true) :
    ∃ fired2 : Bool,
      (fired2 = true → (checkAutoPowerOn now s).1.acAlreadyActivated = true) ∧
      ∀ rest, oneShot (!s.powerStationWasOff) fired ((checkAutoPowerOn now s).2 ++ rest) =
        oneShot (!(checkAutoPowerOn now s).1.powerStationWasOff) fired2 rest := by
  have p1 : ∀ x : HW, (pressButton now BTN_AC BUTTON_STANDARD_DURATION x).1.powerStationWasOff =
      x.powerStationWasOff := fun x => (pressButton_autoState now _ _ x).1
  by_cases hen : s.autoPowerOnEnabled = true
  · by_cases hv : s.currentData.batteryVoltage ≥ 20
    · cases hoff : s.powerStationWasOff
      · cases hac : s.acAlreadyActivated
        · cases hte : timeElapsed now s.powerOnTime 5000
          · exact ⟨fired, by simpa [checkAutoPowerOn, hen, hv, hoff, hac, hte] using hf,
              by simp [checkAutoPowerOn, hen, hv, hoff, hac, hte]⟩
          · have hfalse : fired = false := by
              cases fired
              · rfl
              · have := hf rfl
                rw [hac] at this
                exact absurd this (by decide)
            exact ⟨true, by simp [checkAutoPowerOn, hen, hv, hoff, hac, hte],
              by simp [checkAutoPowerOn, hen, hv, hoff, hac, hte, oneShot, hfalse,
                pressACButton, p1]⟩
        · exact ⟨fired, by simp [checkAutoPowerOn, hen, hv, hoff, hac],
            by simp [checkAutoPowerOn, hen, hv, hoff, hac]⟩
      · exact ⟨false, by simp,
          by simp [checkAutoPowerOn, hen, hv, hoff, timeElapsed, ulongSub_self, oneShot]⟩
    · cases hoff : s.powerStationWasOff
      · exact ⟨fired, by simpa [checkAutoPowerOn, hen, hv, hoff] using hf,
          by simp [checkAutoPowerOn, hen, hv, hoff, oneShot]⟩
      · exact ⟨fired, by simpa [checkAutoPowerOn, hen, hv, hoff] using hf,
          by simp [checkAutoPowerOn, hen, hv, hoff]⟩
  · exact ⟨fired, by simpa [checkAutoPowerOn, hen] using hf, by simp [checkAutoPowerOn, hen]⟩

/-- The events of a run of `checkAutoPowerOn` are accepted by the one-shot monitor. -/
theorem autoRun_oneShot : ∀ (calls : List AutoCall) (s : HW) (fired : Bool),
    (fired = true → s.acAlreadyActivated = true) → autoRun s calls →
    oneShot (!s.powerStationWasOff) fired (autoEvents calls) = true := by
  intro calls
  induction calls with
  | nil => intro s fired _ _; rfl
  | cons c rest ih =>
    intro s fired hf hrun
    obtain ⟨⟨e1, e2, _⟩, hrest⟩ := hrun
    obtain ⟨fired2, h2, hstep⟩ := checkAutoPowerOn_oneShot c.now c.pre fired (e2 ▸ hf)
    show oneShot (!s.powerStationWasOff) fired (c.events ++ autoEvents rest) = true
    rw [e1]
    show oneShot (!c.pre.powerStationWasOff) fired
      ((checkAutoPowerOn c.now c.pre).2 ++ autoEvents rest) = true
    rw [hstep]
    exact ih c.post fired2 h2 hrest

/-- In a trace accepted by the monitor after a request, the next request comes after a
power-on detection. -/
theorem oneShot_fired : ∀ (mid post : List AutoEvent) (armed : Bool),
    oneShot armed true (mid ++ AutoEvent.acPressRequested :: post) = true →
    AutoEvent.powerOnDetected ∈ mid := by
  intro mid
  induction mid with
  | nil =>
    intro post armed h
    simp [oneShot] at h
  | cons e rest ih =>
    intro post armed h
    cases e with
    | powerOnDetected => exact List.mem_cons_self _ _
    | powerOffDetected =>
      exact List.mem_cons_of_mem _ (ih post false (by simpa [oneShot] using h))
    | acPressRequested => simp [oneShot] at h

/-- In a trace accepted by the monitor, two requests are separated by a power-on
detection. -/
theorem oneShot_separated : ∀ (pre mid post : List AutoEvent) (armed fired : Bool),
    oneShot armed fired
      (pre ++ AutoEvent.acPressRequested :: (mid ++ AutoEvent.acPressRequested :: post)) =
        true →
    AutoEvent.powerOnDetected ∈ mid := by
  intro pre
  induction pre with
  | nil =>
    intro mid post armed fired h
    simp only [List.nil_append, oneShot, Bool.and_eq_true] at h
    exact oneShot_fired mid post armed h.2
  | cons e rest ih =>
    intro mid post armed fired h
    cases e with
    | powerOnDetected => exact ih mid post true false (by simpa [oneShot] using h)
    | powerOffDetected => exact ih mid post false fired (by simpa [oneShot] using h)
    | acPressRequested =>
      simp only [List.cons_append, oneShot, Bool.and_eq_true] at h
      exact ih mid post armed true h.2

/-- In a trace accepted by the monitor, a request comes either while the monitor was armed
from the start, with no power-off detection before it, or after a power-on detection with
no power-off detection in between. -/
theorem oneShot_armed : ∀ (pre post : List AutoEvent) (armed fired : Bool),
    oneShot armed fired (pre ++ AutoEvent.acPressRequested :: post) = true →
    (armed = true ∧ AutoEvent.powerOffDetected ∉ pre) ∨
    ∃ p1 p2, pre = p1 ++ AutoEvent.powerOnDetected :: p2 ∧
      AutoEvent.powerOffDetected ∉ p2 := by
  intro pre
  induction pre with
  | nil =>
    intro post armed fired h
    simp only [List.nil_append, oneShot, Bool.and_eq_true] at h
    exact Or.inl ⟨h.1.1, List.not_mem_nil _⟩
  | cons e rest ih =>
    intro post armed fired h
    cases e with
    | powerOnDetected =>
      rcases ih post true false (by simpa [oneShot] using h) with ⟨_, hn⟩ | ⟨p1, p2, hp, hn⟩
      · exact Or.inr ⟨[], rest, rfl, hn⟩
      · exact Or.inr ⟨AutoEvent.powerOnDetected :: p1, p2, by rw [hp]; rfl, hn⟩
    | powerOffDetected =>
      rcases ih post false fired (by simpa [oneShot] using h) with ⟨ha, _⟩ | ⟨p1, p2, hp, hn⟩
      · exact absurd ha (by decide)
      · exact Or.inr ⟨AutoEvent.powerOffDetected :: p1, p2, by rw [hp]; rfl, hn⟩
    | acPressRequested =>
      simp only [List.cons_append, oneShot, Bool.and_eq_true] at h
      rcases ih post armed true h.2 with ⟨ha, hn⟩ | ⟨p1, p2, hp, hn⟩
      · refine Or.inl ⟨ha, ?_⟩
        intro hm
        rcases List.mem_cons.mp hm with h1 | h1
        · exact absurd h1 (by decide)
        · exact hn h1
      · exact Or.inr ⟨AutoEvent.acPressRequested :: p1, p2, by rw [hp]; rfl, hn⟩

/-- C20: auto power-on is one-shot per power cycle.  In the trace of detections and
requests of every run of calls of `checkAutoPowerOn`, with the feature enabled or not: two
requests for the AC button are separated by a detected off-to-on transition; and, when the
run starts with `powerStationWasOff` true, as after construction, every request comes after
a detected off-to-on transition with no power-off detection in between. -/
theorem autoPowerOn_oneShot (s0 : HW) (calls : List AutoCall) (hrun : autoRun s0 calls) :
    (∀ pre mid post : List AutoEvent,
      autoEvents calls =
        pre ++ AutoEvent.acPressRequested :: (mid ++ AutoEvent.acPressRequested :: post) →
      AutoEvent.powerOnDetected ∈ mid) ∧
    (s0.powerStationWasOff = true → ∀ pre post : List AutoEvent,
      autoEvents calls = pre ++ AutoEvent.acPressRequested :: post →
      ∃ p1 p2, pre = p1 ++ AutoEvent.powerOnDetected :: p2 ∧
        AutoEvent.powerOffDetected ∉ p2) := by
  have hm := autoRun_oneShot calls s0 false (fun h => absurd h (by decide)) hrun
  constructor
  · intro pre mid post he
    rw [he] at hm
    exact oneShot_separated pre mid post _ _ hm
  · intro h0 pre post he
    rw [he, h0] at hm
    rcases oneShot_armed pre post _ _ hm with ⟨ha, _⟩ | h
    · exact absurd ha (by decide)
    · exact h

/-- The calls listed by `autoCalls` form a run. -/
theorem autoRun_autoCalls : ∀ (xs : List (ℕ × ℚ)) (s : HW), autoRun s (autoCalls s xs) := by
  intro xs
  induction xs with
  | nil => intro s; trivial
  | cons x rest ih =>
    intro s
    obtain ⟨now, voltage⟩ := x
    exact ⟨⟨rfl, rfl, rfl⟩, ih _⟩

/-- The trace of `powerCycleCalls`: the power station is detected on at 1000 ms, the AC
button is requested at 7000 ms, the power station is detected off at 9000 ms and on at
10000 ms, and the AC button is requested again at 16000 ms. -/
theorem powerCycleCalls_events :
    autoEvents powerCycleCalls =
      [AutoEvent.powerOnDetected, AutoEvent.acPressRequested, AutoEvent.powerOffDetected,
       AutoEvent.powerOnDetected, AutoEvent.acPressRequested] := by
  norm_num [powerCycleCalls, autoCalls, autoEvents, AutoCall.events, AutoCall.post,
    checkAutoPowerOn, HW.init, timeElapsed, ulongSub, pressACButton, pressButton, BTN_AC,
    BUTTON_STANDARD_DURATION]

/-- An instance of C20: in the trace of `powerCycleCalls`, started on a freshly constructed
manager, the two requests are separated by a power-on detection, and the first comes after
a power-on detection. -/
theorem autoPowerOn_oneShot_witness :
    autoRun HW.init powerCycleCalls ∧ HW.init.powerStationWasOff = true ∧
    AutoEvent.powerOnDetected ∈ [AutoEvent.powerOffDetected, AutoEvent.powerOnDetected] ∧
    ∃ p1 p2, [AutoEvent.powerOnDetected] = p1 ++ AutoEvent.powerOnDetected :: p2 ∧
      AutoEvent.powerOffDetected ∉ p2 :=
  ⟨autoRun_autoCalls _ _, rfl,
    (autoPowerOn_oneShot HW.init powerCycleCalls (autoRun_autoCalls _ _)).1
      [AutoEvent.powerOnDetected] [AutoEvent.powerOffDetected, AutoEvent.powerOnDetected] []
      powerCycleCalls_events,
    (autoPowerOn_oneShot HW.init powerCycleCalls (autoRun_autoCalls _ _)).2 rfl
      [AutoEvent.powerOnDetected]
      [AutoEvent.powerOffDetected, AutoEvent.powerOnDetected, AutoEvent.acPressRequested]
      powerCycleCalls_events⟩

/-! ## Properties of the configuration, the edge handling and the clock -/

/-- C21, the defect: `applyAdvancedSettings` stores every configured delay in
`g_autoPowerOnDelay`, 10000 ms by default, but `checkAutoPowerOn` compares the elapsed time
with the literal 5000.  With the power station detected on at 1000 ms, the call at 3000 ms
(2000 ms elapsed) requests nothing and the call at 6000 ms (5000 ms elapsed) requests the
AC button: the request comes before a configured delay of 10000 ms has elapsed, and does
not come at the first call after a configured delay of 2000 ms. -/
theorem autoPowerOn_ignores_configured_delay :
    (∀ (d : ℕ) (g : Globals),
      (applyAdvancedSettings { getAdvancedSettings g with autoPowerOnDelay := d }
        g).g_autoPowerOnDelay = d) ∧
    defaultGlobals.g_autoPowerOnDelay = 10000 ∧
    delayCalls.map (fun c => (c.now, c.events)) =
      [(1000, [AutoEvent.powerOnDetected]), (3000, []),
       (6000, [AutoEvent.acPressRequested])] ∧
    ulongSub 3000 1000 = 2000 ∧ ulongSub 6000 1000 = 5000 := by
  refine ⟨fun d g => rfl, rfl, ?_, by norm_num [ulongSub], by norm_num [ulongSub]⟩
  norm_num [delayCalls, autoCalls, AutoCall.events, AutoCall.post,
    checkAutoPowerOn, HW.init, timeElapsed, ulongSub, pressACButton, pressButton, BTN_AC,
    BUTTON_STANDARD_DURATION]

set_option maxHeartbeats 1000000 in
/-- The state after three ticks at 5 %: the critical alert is active and the low-battery
alert is not. -/
theorem afterThreeCritical_alarm :
    afterThreeCritical.lowBatteryAlertActive = false ∧
    afterThreeCritical.criticalBatteryAlertActive = true := by
  norm_num [afterThreeCritical, threeCriticalReadings, observedRun, runFinal,
    fiveCriticalReadings, Tick.post,
    checkEmergencyConditions, HW.observing, HW.init, defaultGlobals, emergencyLevel1,
    emergencyLevel2, emergencyLevel3, triggerBeepAlert_eq, emergencyShutdownUPS, timeElapsed,
    ulongSub, discharging_ne_charging, discharging_ne_bypass]

/-- C22, the defect: with the default settings, five ticks one second apart at 25 V and
5 %, discharging, form a run from the initial state; after the third tick the critical
alert is active and the low-battery alert is not, and after the fifth tick both alerts are
active: the Level-2 block activates the low-battery alert on its fifth count without
looking at the critical alert. -/
theorem both_alerts_active :
    alarmRun defaultGlobals HW.init (observedRun defaultGlobals HW.init fiveCriticalReadings) ∧
    afterThreeCritical.lowBatteryAlertActive = false ∧
    afterThreeCritical.criticalBatteryAlertActive = true ∧
    afterFiveCritical.lowBatteryAlertActive = true ∧
    afterFiveCritical.criticalBatteryAlertActive = true :=
  ⟨alarmRun_observedRun defaultGlobals fiveCriticalReadings HW.init, afterThreeCritical_alarm.1,
    afterThreeCritical_alarm.2, afterFiveCritical_alarm.1, afterFiveCritical_alarm.2.1⟩

/-- C23, the defect: the first tick of a freshly constructed manager that is warmed up,
with the battery at 23 V and 5 %, discharging, sees the power station on for the first
time and restarts the warm-up (warmed-up flag false, warm-up start at the clock value of
the tick), and on the same tick the three alarm levels are evaluated: each of the three
debounce counters goes from 0 to 1. -/
theorem edge_tick_evaluates :
    edgeTick.pre.isWarmedUp = true ∧ edgeTick.pre.isPowerStationOn = false ∧
    edgeTick.pre.voltageMinSafeCounter = 0 ∧ edgeTick.pre.batteryLowWarningCounter = 0 ∧
    edgeTick.pre.batteryCriticalCounter = 0 ∧
    (edgeTick.post defaultGlobals).isWarmedUp = false ∧
    (edgeTick.post defaultGlobals).warmupStartTime = 1000 ∧
    (edgeTick.post defaultGlobals).isPowerStationOn = true ∧
    (edgeTick.post defaultGlobals).voltageMinSafeCounter = 1 ∧
    (edgeTick.post defaultGlobals).batteryLowWarningCounter = 1 ∧
    (edgeTick.post defaultGlobals).batteryCriticalCounter = 1 := by
  norm_num [edgeTick, Tick.post,
    checkEmergencyConditions, HW.observing, HW.init, defaultGlobals, emergencyLevel1,
    emergencyLevel2, emergencyLevel3, triggerBeepAlert_eq, emergencyShutdownUPS, timeElapsed,
    ulongSub, discharging_ne_charging, discharging_ne_bypass]

/-- C24: `timeElapsed` across the wrap of the 32-bit clock.  For every start time `s` and
true elapsed time `e` below `2 ^ 32` and every interval `i` (below `2 ^ 32` or not),
`timeElapsed(s, i)` evaluated
when the clock reads `(s + e) mod 2 ^ 32` is true exactly when `e ≥ i`. -/
theorem timeElapsed_wraparound (s e i : ℕ) (hs : s < 4294967296) (he : e < 4294967296) :
    timeElapsed ((s + e) % 4294967296) s i = true ↔ e ≥ i := by
  have h : ulongSub ((s + e) % 4294967296) s = e := by
    unfold ulongSub
    omega
  simp [timeElapsed, h]

/-- An instance of C24: started 296 ms before the clock wraps, an interval of 500 ms has
elapsed after 1000 ms, when the clock reads 704, and has not elapsed after 400 ms. -/
theorem timeElapsed_wraparound_witness :
    (4294967000 + 1000) % 4294967296 = 704 ∧
    timeElapsed ((4294967000 + 1000) % 4294967296) 4294967000 500 = true ∧
    ¬ timeElapsed ((4294967000 + 400) % 4294967296) 4294967000 500 = true :=
  ⟨by norm_num,
    (timeElapsed_wraparound 4294967000 1000 500 (by norm_num) (by norm_num)).mpr
      (by norm_num),
    fun h => absurd
      ((timeElapsed_wraparound 4294967000 400 500 (by norm_num) (by norm_num)).mp h)
      (by norm_num)⟩

/-- C25, the defect: `applyAdvancedSettings` accepts a SOC buffer size of 11 and stores it
unchanged.  With that size, ten calls of `getStableSOC` on a freshly constructed manager
leave the write index at 10, outside the ten slots `0..9` of `socBuffer`, without wrapping;
the eleventh call writes `socBuffer[10]`, which the embedding reports as `none`. -/
theorem oversize_buffer_write :
    oversizeGlobals.g_socBufferSize = 11 ∧
    (feedSOC oversizeGlobals (List.replicate 10 50) HW.init).map
      (fun s => (s.socBufferIndex, s.socBufferFull)) = some (10, false) ∧
    (∀ s, feedSOC oversizeGlobals (List.replicate 10 50) HW.init = some s →
      updateSOCBuffer oversizeGlobals 50 s = none) ∧
    feedSOC oversizeGlobals (List.replicate 11 50) HW.init = none := by
  have h10 : ∃ s, feedSOC oversizeGlobals (List.replicate 10 50) HW.init = some s ∧
      s.socBufferIndex = 10 ∧ s.socBufferFull = false := by
    simp [feedSOC, getStableSOC, updateSOCBuffer, getMedianSOC, socCount, agreeCount,
      sortArray, sortInner, swapIfGreater, oversizeGlobals, applyAdvancedSettings,
      getAdvancedSettings, defaultGlobals, HW.init, SOC_BUFFER_SIZE, fabs, List.replicate,
      List.range, List.range.loop, List.range']
  obtain ⟨s, hs, hi, hf⟩ := h10
  have hu : updateSOCBuffer oversizeGlobals 50 s = none := by
    simp [updateSOCBuffer, hi, SOC_BUFFER_SIZE]
  refine ⟨rfl, ?_, ?_, ?_⟩
  · rw [hs]
    simp [hi, hf]
  · intro s2 h2
    rw [hs] at h2
    cases h2
    exact hu
  · have e : (List.replicate 11 (50 : ℚ)) = List.replicate 10 50 ++ [50] := by
      simp [List.replicate]
    have happ : ∀ (xs ys : List ℚ) (a : HW),
        feedSOC oversizeGlobals (xs ++ ys) a =
          (feedSOC oversizeGlobals xs a).bind (feedSOC oversizeGlobals ys) := by
      intro xs
      induction xs with
      | nil => intro ys a; rfl
      | cons x rest ih =>
        intro ys a
        simp only [List.cons_append, feedSOC]
        cases getStableSOC oversizeGlobals x a with
        | none => rfl
        | some b => exact ih ys b
    rw [e, happ, hs]
    simp [feedSOC, getStableSOC, hu]

/-- The block "LIVELLO 1" takes a min-safe counter between 0 and 4 to one between 0
and 4. -/
theorem emergencyLevel1_bound (g : Globals) (now : ℕ) (s : HW)
    (h0 : 0 ≤ s.voltageMinSafeCounter) (h4 : s.voltageMinSafeCounter ≤ 4) :
    0 ≤ (emergencyLevel1 g now s).1.voltageMinSafeCounter ∧
    (emergencyLevel1 g now s).1.voltageMinSafeCounter ≤ 4 := by
  simp only [emergencyLevel1, triggerBeepAlert_eq, emergencyShutdownUPS]
  split_ifs <;> (simp; try omega)

/-- One call of `checkEmergencyConditions` takes a min-safe counter between 0 and 4 to one
between 0 and 4, whatever the rest of the state is. -/
theorem checkEmergencyConditions_bound (g : Globals) (now : ℕ) (s : HW)
    (h0 : 0 ≤ s.voltageMinSafeCounter) (h4 : s.voltageMinSafeCounter ≤ 4) :
    0 ≤ (checkEmergencyConditions g now s).1.voltageMinSafeCounter ∧
    (checkEmergencyConditions g now s).1.voltageMinSafeCounter ≤ 4 := by
  unfold checkEmergencyConditions
  simp only []
  split_ifs
  all_goals first
    | exact ⟨h0, h4⟩
    | (simp; done)
    | (rw [(emergencyLevel3_minSafe g now _).1, (emergencyLevel2_minSafe g now _).1]
       apply emergencyLevel1_bound <;> assumption)

/-- C30: min-safe counter bound.  In every run of `checkEmergencyConditions` ticks from the
initial state (any settings; between ticks everything but the alarm variables may change,
so any warm-up status, voltage, SOC, battery state and clock value), the min-safe-voltage
debounce counter is between 0 and 4 at the end of every tick. -/
theorem minSafeCounter_bound (g : Globals) (ticks : List Tick)
    (hrun : alarmRun g HW.init ticks) :
    ∀ t ∈ ticks, 0 ≤ (t.post g).voltageMinSafeCounter ∧ (t.post g).voltageMinSafeCounter ≤ 4 := by
  have key : ∀ (ticks : List Tick) (s : HW), 0 ≤ s.voltageMinSafeCounter →
      s.voltageMinSafeCounter ≤ 4 → alarmRun g s ticks →
      ∀ t ∈ ticks, 0 ≤ (t.post g).voltageMinSafeCounter ∧
        (t.post g).voltageMinSafeCounter ≤ 4 := by
    intro ticks
    induction ticks with
    | nil => intro s _ _ _ t ht; simp at ht
    | cons q rest ih =>
      intro s h0 h4 hr t ht
      obtain ⟨hsame, hrest⟩ := hr
      have e : s.voltageMinSafeCounter = q.pre.voltageMinSafeCounter := hsame.1
      have hq := checkEmergencyConditions_bound g q.now q.pre (e ▸ h0) (e ▸ h4)
      rcases List.mem_cons.mp ht with h | h
      · subst h
        exact hq
      · exact ih (q.post g) hq.1 hq.2 hrest t h
  exact key ticks HW.init (by simp [HW.init]) (by simp [HW.init]) hrun

/-- An instance of C30: after each of five ticks at 23 V from the initial state, with the
default settings, the min-safe counter is between 0 and 4. -/
theorem minSafeCounter_bound_witness :
    alarmRun defaultGlobals HW.init
      (observedRun defaultGlobals HW.init fiveLowVoltageReadings) ∧
    ∀ t ∈ observedRun defaultGlobals HW.init fiveLowVoltageReadings,
      0 ≤ (t.post defaultGlobals).voltageMinSafeCounter ∧
      (t.post defaultGlobals).voltageMinSafeCounter ≤ 4 :=
  ⟨alarmRun_observedRun defaultGlobals fiveLowVoltageReadings HW.init,
    minSafeCounter_bound defaultGlobals _
      (alarmRun_observedRun defaultGlobals fiveLowVoltageReadings HW.init)⟩

/-- C28: `detectState` under swapping of the two powers.  For every threshold of at least 0
and every pair of powers, the result is Bypass exactly when the result on the swapped pair
is Bypass, Rest exactly when the result on the swapped pair is Rest, and Charging exactly
when the result on the swapped pair is Discharging. -/
theorem detectState_swap (g : Globals) (a b : ℚ) (hT : 0 ≤ g.g_powerThreshold) :
    (detectState g a b = STATE_BYPASS ↔ detectState g b a = STATE_BYPASS) ∧
    (detectState g a b = STATE_REST ↔ detectState g b a = STATE_REST) ∧
    (detectState g a b = STATE_CHARGING ↔ detectState g b a = STATE_DISCHARGING) ∧
    (detectState g a b = STATE_DISCHARGING ↔ detectState g b a = STATE_CHARGING) := by
  have hsym : fabs (a - b) = fabs (b - a) := by
    rw [fabs_eq_abs, fabs_eq_abs, abs_sub_comm]
  have hmin : min a b = min b a := min_comm a b
  unfold detectState
  simp only [hsym, hmin]
  by_cases hb : b > g.g_powerThreshold ∧ a > g.g_powerThreshold ∧
      fabs (b - a) < min b a * (3 / 10)
  · rw [if_pos hb, if_pos ⟨hb.2.1, hb.1, hb.2.2⟩]
    simp
  · rw [if_neg hb, if_neg (fun h => hb ⟨h.2.1, h.1, h.2.2⟩)]
    split_ifs <;> simp <;> linarith

/-- An instance of C28 with the default threshold of 10 W: 100 W in and 0 W out is
Charging, 0 W in and 100 W out is Discharging. -/
theorem detectState_swap_witness :
    (0 : ℚ) ≤ defaultGlobals.g_powerThreshold ∧
    detectState defaultGlobals 100 0 = STATE_CHARGING ∧
    detectState defaultGlobals 0 100 = STATE_DISCHARGING := by
  have hT : (0 : ℚ) ≤ defaultGlobals.g_powerThreshold := by norm_num [defaultGlobals]
  have h1 : detectState defaultGlobals 100 0 = STATE_CHARGING := by
    norm_num [detectState, defaultGlobals, fabs_eq_abs]
  exact ⟨hT, h1, (detectState_swap defaultGlobals 100 0 hT).2.2.1.mp h1⟩

/-! ## Properties of the compensation table and the curves -/

/-- C26 as stated fails: 28.4 V is below 28.5 V, yet the discharge table maps 28.4 V to
28.4 V and 28.5 V to 27.5 V. -/
theorem compensateVoltageDischarge_not_monotone :
    (284 / 10 : ℚ) ≤ 285 / 10 ∧
    compensateVoltageDischarge (284 / 10) = 284 / 10 ∧
    compensateVoltageDischarge (285 / 10) = 275 / 10 ∧
    ¬ compensateVoltageDischarge (284 / 10) ≤ compensateVoltageDischarge (285 / 10) := by
  norm_num [compensateVoltageDischarge]

/-- The value of the discharge table on each of its bands. -/
theorem compensateVoltageDischarge_bands (v : ℚ) :
    (v < 215 / 10 → compensateVoltageDischarge v = v) ∧
    (215 / 10 ≤ v → v < 22 → compensateVoltageDischarge v = v + 150 / 100) ∧
    (22 ≤ v → v < 24 → compensateVoltageDischarge v = v) ∧
    (24 ≤ v → v < 248 / 10 → compensateVoltageDischarge v = v + 50 / 100) ∧
    (248 / 10 ≤ v → v < 25 → compensateVoltageDischarge v = v + 40 / 100) ∧
    (25 ≤ v → v < 252 / 10 → compensateVoltageDischarge v = v + 30 / 100) ∧
    (252 / 10 ≤ v → v < 255 / 10 → compensateVoltageDischarge v = v + 20 / 100) ∧
    (255 / 10 ≤ v → v < 26 → compensateVoltageDischarge v = v + 10 / 100) ∧
    (26 ≤ v → v < 285 / 10 → compensateVoltageDischarge v = v) ∧
    (285 / 10 ≤ v → compensateVoltageDischarge v = v - 1) := by
  have n1 : ∀ c : ℚ, v < c → (v ≥ c) = False := fun c h => eq_false (not_le.mpr h)
  have p1 : ∀ c : ℚ, c ≤ v → (v ≥ c) = True := fun c h => eq_true h
  refine ⟨?_, ?_, ?_, ?_, ?_, ?_, ?_, ?_, ?_, ?_⟩
  · intro h2
    simp only [compensateVoltageDischarge, n1 (285 / 10) (by linarith), n1 (27) (by linarith),
      n1 (265 / 10) (by linarith), n1 (26) (by linarith), n1 (255 / 10) (by linarith), n1 (252 /
      10) (by linarith), n1 (25) (by linarith), n1 (248 / 10) (by linarith), n1 (245 / 10) (by
      linarith), n1 (24) (by linarith), n1 (235 / 10) (by linarith), n1 (23) (by linarith), n1
      (225 / 10) (by linarith), n1 (22) (by linarith), n1 (215 / 10) (by linarith), if_false,
      if_true, sub_zero, add_zero, ite_self]
  · intro h1 h2
    simp only [compensateVoltageDischarge, n1 (285 / 10) (by linarith), n1 (27) (by linarith),
      n1 (265 / 10) (by linarith), n1 (26) (by linarith), n1 (255 / 10) (by linarith), n1 (252 /
      10) (by linarith), n1 (25) (by linarith), n1 (248 / 10) (by linarith), n1 (245 / 10) (by
      linarith), n1 (24) (by linarith), n1 (235 / 10) (by linarith), n1 (23) (by linarith), n1
      (225 / 10) (by linarith), n1 (22) (by linarith), p1 (215 / 10) (by linarith), if_false,
      if_true, sub_zero, add_zero, ite_self]
  · intro h1 h2
    simp only [compensateVoltageDischarge, n1 (285 / 10) (by linarith), n1 (27) (by linarith),
      n1 (265 / 10) (by linarith), n1 (26) (by linarith), n1 (255 / 10) (by linarith), n1 (252 /
      10) (by linarith), n1 (25) (by linarith), n1 (248 / 10) (by linarith), n1 (245 / 10) (by
      linarith), n1 (24) (by linarith), p1 (22) (by linarith), p1 (215 / 10) (by linarith),
      if_false, if_true, sub_zero, add_zero, ite_self]
  · intro h1 h2
    simp only [compensateVoltageDischarge, n1 (285 / 10) (by linarith), n1 (27) (by linarith),
      n1 (265 / 10) (by linarith), n1 (26) (by linarith), n1 (255 / 10) (by linarith), n1 (252 /
      10) (by linarith), n1 (25) (by linarith), n1 (248 / 10) (by linarith), p1 (24) (by
      linarith), p1 (235 / 10) (by linarith), p1 (23) (by linarith), p1 (225 / 10) (by linarith),
      p1 (22) (by linarith), p1 (215 / 10) (by linarith), if_false, if_true, sub_zero, add_zero,
      ite_self]
  · intro h1 h2
    simp only [compensateVoltageDischarge, n1 (285 / 10) (by linarith), n1 (27) (by linarith),
      n1 (265 / 10) (by linarith), n1 (26) (by linarith), n1 (255 / 10) (by linarith), n1 (252 /
      10) (by linarith), n1 (25) (by linarith), p1 (248 / 10) (by linarith), p1 (245 / 10) (by
      linarith), p1 (24) (by linarith), p1 (235 / 10) (by linarith), p1 (23) (by linarith), p1
      (225 / 10) (by linarith), p1 (22) (by linarith), p1 (215 / 10) (by linarith), if_false,
      if_true, sub_zero, add_zero, ite_self]
  · intro h1 h2
    simp only [compensateVoltageDischarge, n1 (285 / 10) (by linarith), n1 (27) (by linarith),
      n1 (265 / 10) (by linarith), n1 (26) (by linarith), n1 (255 / 10) (by linarith), n1 (252 /
      10) (by linarith), p1 (25) (by linarith), p1 (248 / 10) (by linarith), p1 (245 / 10) (by
      linarith), p1 (24) (by linarith), p1 (235 / 10) (by linarith), p1 (23) (by linarith), p1
      (225 / 10) (by linarith), p1 (22) (by linarith), p1 (215 / 10) (by linarith), if_false,
      if_true, sub_zero, add_zero, ite_self]
  · intro h1 h2
    simp only [compensateVoltageDischarge, n1 (285 / 10) (by linarith), n1 (27) (by linarith),
      n1 (265 / 10) (by linarith), n1 (26) (by linarith), n1 (255 / 10) (by linarith), p1 (252 /
      10) (by linarith), p1 (25) (by linarith), p1 (248 / 10) (by linarith), p1 (245 / 10) (by
      linarith), p1 (24) (by linarith), p1 (235 / 10) (by linarith), p1 (23) (by linarith), p1
      (225 / 10) (by linarith), p1 (22) (by linarith), p1 (215 / 10) (by linarith), if_false,
      if_true, sub_zero, add_zero, ite_self]
  · intro h1 h2
    simp only [compensateVoltageDischarge, n1 (285 / 10) (by linarith), n1 (27) (by linarith),
      n1 (265 / 10) (by linarith), n1 (26) (by linarith), p1 (255 / 10) (by linarith), p1 (252 /
      10) (by linarith), p1 (25) (by linarith), p1 (248 / 10) (by linarith), p1 (245 / 10) (by
      linarith), p1 (24) (by linarith), p1 (235 / 10) (by linarith), p1 (23) (by linarith), p1
      (225 / 10) (by linarith), p1 (22) (by linarith), p1 (215 / 10) (by linarith), if_false,
      if_true, sub_zero, add_zero, ite_self]
  · intro h1 h2
    simp only [compensateVoltageDischarge, n1 (285 / 10) (by linarith), p1 (26) (by linarith),
      p1 (255 / 10) (by linarith), p1 (252 / 10) (by linarith), p1 (25) (by linarith), p1 (248 /
      10) (by linarith), p1 (245 / 10) (by linarith), p1 (24) (by linarith), p1 (235 / 10) (by
      linarith), p1 (23) (by linarith), p1 (225 / 10) (by linarith), p1 (22) (by linarith), p1
      (215 / 10) (by linarith), if_false, if_true, sub_zero, add_zero, ite_self]
  · intro h1
    simp only [compensateVoltageDischarge, p1 (285 / 10) (by linarith), p1 (27) (by linarith),
      p1 (265 / 10) (by linarith), p1 (26) (by linarith), p1 (255 / 10) (by linarith), p1 (252 /
      10) (by linarith), p1 (25) (by linarith), p1 (248 / 10) (by linarith), p1 (245 / 10) (by
      linarith), p1 (24) (by linarith), p1 (235 / 10) (by linarith), p1 (23) (by linarith), p1
      (225 / 10) (by linarith), p1 (22) (by linarith), p1 (215 / 10) (by linarith), if_false,
      if_true, sub_zero, add_zero, ite_self]

/-- C26, amended: `compensateVoltageDischarge` is order-preserving on each of the eight
voltage ranges below 22 V, from 22 V to below 24.8 V, from 24.8 V to below 25 V, from 25 V
to below 25.2 V, from 25.2 V to below 25.5 V, from 25.5 V to below 26 V, from 26 V to below
28.5 V, and from 28.5 V up. -/
theorem compensateVoltageDischarge_monotone_on_ranges (v1 v2 : ℚ) (h : v1 ≤ v2)
    (hr : v2 < 22 ∨ (22 ≤ v1 ∧ v2 < 248 / 10) ∨ (248 / 10 ≤ v1 ∧ v2 < 25) ∨
      (25 ≤ v1 ∧ v2 < 252 / 10) ∨ (252 / 10 ≤ v1 ∧ v2 < 255 / 10) ∨
      (255 / 10 ≤ v1 ∧ v2 < 26) ∨ (26 ≤ v1 ∧ v2 < 285 / 10) ∨ 285 / 10 ≤ v1) :
    compensateVoltageDischarge v1 ≤ compensateVoltageDischarge v2 := by
  obtain ⟨a0, a1, a2, a3, a4, a5, a6, a7, a8, a9⟩ := compensateVoltageDischarge_bands v1
  obtain ⟨b0, b1, b2, b3, b4, b5, b6, b7, b8, b9⟩ := compensateVoltageDischarge_bands v2
  rcases hr with hr | ⟨h1, h2⟩ | ⟨h1, h2⟩ | ⟨h1, h2⟩ | ⟨h1, h2⟩ | ⟨h1, h2⟩ | ⟨h1, h2⟩ | hr
  · rcases lt_or_le v2 (215 / 10) with c2 | c2
    · rw [a0 (by linarith), b0 c2]
      exact h
    · rw [b1 c2 hr]
      rcases lt_or_le v1 (215 / 10) with c1 | c1
      · rw [a0 c1]
        linarith
      · rw [a1 c1 (by linarith)]
        linarith
  · rcases lt_or_le v1 24 with c1 | c1
    · rw [a2 h1 c1]
      rcases lt_or_le v2 24 with c2 | c2
      · rw [b2 (by linarith) c2]
        exact h
      · rw [b3 c2 h2]
        linarith
    · rw [a3 c1 (by linarith), b3 (by linarith) h2]
      linarith
  · rw [a4 h1 (by linarith), b4 (by linarith) h2]
    linarith
  · rw [a5 h1 (by linarith), b5 (by linarith) h2]
    linarith
  · rw [a6 h1 (by linarith), b6 (by linarith) h2]
    linarith
  · rw [a7 h1 (by linarith), b7 (by linarith) h2]
    linarith
  · rw [a8 h1 (by linarith), b8 (by linarith) h2]
    exact h
  · rw [a9 hr, b9 (by linarith)]
    linarith

/-- An instance of the amended C26: 22.5 V and 24.5 V lie in the range from 22 V to below
24.8 V, and the table maps them to 22.5 V and 25 V. -/
theorem compensateVoltageDischarge_monotone_on_ranges_witness :
    (225 / 10 : ℚ) ≤ 245 / 10 ∧
    compensateVoltageDischarge (225 / 10) ≤ compensateVoltageDischarge (245 / 10) :=
  ⟨by norm_num,
    compensateVoltageDischarge_monotone_on_ranges (225 / 10) (245 / 10) (by norm_num)
      (Or.inr (Or.inl ⟨by norm_num, by norm_num⟩))⟩

/-- On a table whose voltages do not increase from one row to the next, a later row has a
voltage at most that of an earlier row. -/
theorem curveVoltage_antitone (curve : List (ℚ × ℚ)) (n : ℕ)
    (hord : ∀ k, k < n → curveVoltage curve (k + 1) ≤ curveVoltage curve k) :
    ∀ (m i : ℕ), i + m ≤ n → curveVoltage curve (i + m) ≤ curveVoltage curve i := by
  intro m
  induction m with
  | zero => intro i _; exact le_rfl
  | succ m ih =>
    intro i hi
    have h1 := ih (i + 1) (by omega)
    have h2 := hord i (by omega)
    have e : i + 1 + m = i + (m + 1) := by omega
    rw [e] at h1
    exact le_trans h1 h2

/-- On a table of `n + 1` rows whose voltages do not increase from one row to the next, a
voltage above the last row, at least the voltage of row `k + 1` and below the voltage of
row `k` is converted by interpolation between the rows `k` and `k + 1`. -/
theorem percentOn_segment (curve : List (ℚ × ℚ)) (n : ℕ)
    (hord : ∀ k, k < n → curveVoltage curve (k + 1) ≤ curveVoltage curve k)
    (v : ℚ) (k : ℕ) (hk : k < n) (hlast : curveVoltage curve n < v)
    (hlow : curveVoltage curve (k + 1) ≤ v) (hhigh : v < curveVoltage curve k) :
    percentOn curve (n + 1) v = segmentValue curve v k := by
  have h0 : v < curveVoltage curve 0 := by
    have := curveVoltage_antitone curve n hord k 0 (by omega)
    rw [zero_add] at this
    exact lt_of_lt_of_le hhigh this
  obtain ⟨j, _, hj, hj1, hj2, hscan⟩ :=
    curveScan_bracket curve v n 0 h0 (by rw [zero_add]; exact le_of_lt hlast)
  have hjk : j = k := by
    rcases lt_trichotomy j k with h | h | h
    · exfalso
      have := curveVoltage_antitone curve n hord (k - (j + 1)) (j + 1) (by omega)
      have e : j + 1 + (k - (j + 1)) = k := by omega
      rw [e] at this
      linarith
    · exact h
    · exfalso
      have := curveVoltage_antitone curve n hord (j - (k + 1)) (k + 1) (by omega)
      have e : k + 1 + (j - (k + 1)) = j := by omega
      rw [e] at this
      linarith
  unfold percentOn
  simp only [Nat.add_sub_cancel]
  rw [if_neg (not_le.mpr hlast), if_neg (not_le.mpr h0), hscan, hjk]

/-- The voltages of the normal curve do not increase from one row to the next. -/
theorem normalCurve_voltages : ∀ k, k < 22 →
    curveVoltage BATTERY_CURVE_NORMAL (k + 1) ≤ curveVoltage BATTERY_CURVE_NORMAL k :=
  fun k hk => (normalCurve_ordered k hk).1

/-- The voltages of the charging curve do not increase from one row to the next. -/
theorem chargeCurve_voltages : ∀ k, k < 17 →
    curveVoltage BATTERY_CURVE_CHARGE (k + 1) ≤ curveVoltage BATTERY_CURVE_CHARGE k :=
  fun k hk => (chargeCurve_ordered k hk).1

/-- The normal curve never gives a negative percentage. -/
theorem normalCurve_nonneg (v : ℚ) : 0 ≤ percentOn BATTERY_CURVE_NORMAL 23 v := by
  rcases le_or_lt v 22 with h | h
  · have : percentOn BATTERY_CURVE_NORMAL 23 v = 0 := by
      unfold percentOn
      rw [if_pos (by norm_num [curveVoltage, BATTERY_CURVE_NORMAL]; linarith)]
    rw [this]
  · have h0 : percentOn BATTERY_CURVE_NORMAL 23 22 = 0 := by
      unfold percentOn
      rw [if_pos (by norm_num [curveVoltage, BATTERY_CURVE_NORMAL])]
    have := percentOn_mono BATTERY_CURVE_NORMAL 22 normalCurve_ordered
      (by norm_num [curvePercent, BATTERY_CURVE_NORMAL])
      (by norm_num [curvePercent, BATTERY_CURVE_NORMAL]) 22 v (le_of_lt h)
    rw [h0] at this
    exact this

/-- The first fourteen rows of the two curves, down to 25.35 V, are the same. -/
theorem curves_agree : ∀ k, k < 14 →
    BATTERY_CURVE_CHARGE.getD k (0, 0) = BATTERY_CURVE_NORMAL.getD k (0, 0) := by
  intro k hk
  interval_cases k <;> rfl

/-- At or above 25.35 V the two curves give the same percentage. -/
theorem curves_equal_above (v : ℚ) (hv : 2535 / 100 ≤ v) :
    percentOn BATTERY_CURVE_CHARGE 18 v = percentOn BATTERY_CURVE_NORMAL 23 v := by
  rcases le_or_lt (2670 / 100) v with htop | htop
  · have e1 : percentOn BATTERY_CURVE_CHARGE 18 v = 100 := by
      unfold percentOn
      rw [if_neg (by norm_num [curveVoltage, BATTERY_CURVE_CHARGE]; linarith),
        if_pos (by norm_num [curveVoltage, BATTERY_CURVE_CHARGE]; linarith)]
    have e2 : percentOn BATTERY_CURVE_NORMAL 23 v = 100 := by
      unfold percentOn
      rw [if_neg (by norm_num [curveVoltage, BATTERY_CURVE_NORMAL]; linarith),
        if_pos (by norm_num [curveVoltage, BATTERY_CURVE_NORMAL]; linarith)]
    rw [e1, e2]
  · obtain ⟨j, _, hj, hj1, hj2, _⟩ :=
      curveScan_bracket BATTERY_CURVE_NORMAL v 13 0
        (by norm_num [curveVoltage, BATTERY_CURVE_NORMAL]; linarith)
        (by norm_num [curveVoltage, BATTERY_CURVE_NORMAL]; linarith)
    have hj13 : j < 13 := by omega
    have a1 : curveVoltage BATTERY_CURVE_CHARGE (j + 1) =
        curveVoltage BATTERY_CURVE_NORMAL (j + 1) := by
      unfold curveVoltage
      rw [curves_agree (j + 1) (by omega)]
    have a2 : curveVoltage BATTERY_CURVE_CHARGE j = curveVoltage BATTERY_CURVE_NORMAL j := by
      unfold curveVoltage
      rw [curves_agree j (by omega)]
    have a3 : curvePercent BATTERY_CURVE_CHARGE (j + 1) =
        curvePercent BATTERY_CURVE_NORMAL (j + 1) := by
      unfold curvePercent
      rw [curves_agree (j + 1) (by omega)]
    have a4 : curvePercent BATTERY_CURVE_CHARGE j = curvePercent BATTERY_CURVE_NORMAL j := by
      unfold curvePercent
      rw [curves_agree j (by omega)]
    rw [percentOn_segment BATTERY_CURVE_NORMAL 22 normalCurve_voltages v j (by omega)
        (by norm_num [curveVoltage, BATTERY_CURVE_NORMAL]; linarith) hj1 hj2,
      percentOn_segment BATTERY_CURVE_CHARGE 17 chargeCurve_voltages v j (by omega)
        (by norm_num [curveVoltage, BATTERY_CURVE_CHARGE]; linarith) (a1 ▸ hj1) (a2 ▸ hj2)]
    unfold segmentValue
    rw [a1, a2, a3, a4]

/-- Below 25.35 V the charging curve gives at most the percentage of the normal curve. -/
theorem charge_le_normal_below (v : ℚ) (hv : v < 2535 / 100) :
    percentOn BATTERY_CURVE_CHARGE 18 v ≤ percentOn BATTERY_CURVE_NORMAL 23 v := by
  rcases le_or_lt v 24 with h24 | h24
  · have e1 : percentOn BATTERY_CURVE_CHARGE 18 v = 0 := by
      unfold percentOn
      rw [if_pos (by norm_num [curveVoltage, BATTERY_CURVE_CHARGE]; linarith)]
    rw [e1]
    exact normalCurve_nonneg v
  have hc : ∀ k, k < 17 → curveVoltage BATTERY_CURVE_CHARGE (k + 1) ≤ v →
      v < curveVoltage BATTERY_CURVE_CHARGE k →
      percentOn BATTERY_CURVE_CHARGE 18 v = segmentValue BATTERY_CURVE_CHARGE v k :=
    fun k hk => percentOn_segment BATTERY_CURVE_CHARGE 17 chargeCurve_voltages v k hk
      (by norm_num [curveVoltage, BATTERY_CURVE_CHARGE]; linarith)
  have hn : ∀ k, k < 22 → curveVoltage BATTERY_CURVE_NORMAL (k + 1) ≤ v →
      v < curveVoltage BATTERY_CURVE_NORMAL k →
      percentOn BATTERY_CURVE_NORMAL 23 v = segmentValue BATTERY_CURVE_NORMAL v k :=
    fun k hk => percentOn_segment BATTERY_CURVE_NORMAL 22 normalCurve_voltages v k hk
      (by norm_num [curveVoltage, BATTERY_CURVE_NORMAL]; linarith)
  rcases lt_or_le v (245 / 10) with h1 | h1
  · rw [hc 16 (by norm_num) (by norm_num [curveVoltage, BATTERY_CURVE_CHARGE]; linarith)
        (by norm_num [curveVoltage, BATTERY_CURVE_CHARGE]; linarith),
      hn 16 (by norm_num) (by norm_num [curveVoltage, BATTERY_CURVE_NORMAL]; linarith)
        (by norm_num [curveVoltage, BATTERY_CURVE_NORMAL]; linarith)]
    norm_num [segmentValue, curvePercent, curveVoltage, BATTERY_CURVE_CHARGE,
      BATTERY_CURVE_NORMAL]
    linarith
  rcases lt_or_le v 25 with h2 | h2
  · rw [hc 16 (by norm_num) (by norm_num [curveVoltage, BATTERY_CURVE_CHARGE]; linarith)
        (by norm_num [curveVoltage, BATTERY_CURVE_CHARGE]; linarith),
      hn 15 (by norm_num) (by norm_num [curveVoltage, BATTERY_CURVE_NORMAL]; linarith)
        (by norm_num [curveVoltage, BATTERY_CURVE_NORMAL]; linarith)]
    norm_num [segmentValue, curvePercent, curveVoltage, BATTERY_CURVE_CHARGE,
      BATTERY_CURVE_NORMAL]
    linarith
  rcases lt_or_le v (2515 / 100) with h3 | h3
  · rw [hc 15 (by norm_num) (by norm_num [curveVoltage, BATTERY_CURVE_CHARGE]; linarith)
        (by norm_num [curveVoltage, BATTERY_CURVE_CHARGE]; linarith),
      hn 14 (by norm_num) (by norm_num [curveVoltage, BATTERY_CURVE_NORMAL]; linarith)
        (by norm_num [curveVoltage, BATTERY_CURVE_NORMAL]; linarith)]
    norm_num [segmentValue, curvePercent, curveVoltage, BATTERY_CURVE_CHARGE,
      BATTERY_CURVE_NORMAL]
    linarith
  rcases lt_or_le v (2525 / 100) with h4 | h4
  · rw [hc 14 (by norm_num) (by norm_num [curveVoltage, BATTERY_CURVE_CHARGE]; linarith)
        (by norm_num [curveVoltage, BATTERY_CURVE_CHARGE]; linarith),
      hn 13 (by norm_num) (by norm_num [curveVoltage, BATTERY_CURVE_NORMAL]; linarith)
        (by norm_num [curveVoltage, BATTERY_CURVE_NORMAL]; linarith)]
    norm_num [segmentValue, curvePercent, curveVoltage, BATTERY_CURVE_CHARGE,
      BATTERY_CURVE_NORMAL]
    linarith
  · rw [hc 13 (by norm_num) (by norm_num [curveVoltage, BATTERY_CURVE_CHARGE]; linarith)
        (by norm_num [curveVoltage, BATTERY_CURVE_CHARGE]; linarith),
      hn 13 (by norm_num) (by norm_num [curveVoltage, BATTERY_CURVE_NORMAL]; linarith)
        (by norm_num [curveVoltage, BATTERY_CURVE_NORMAL]; linarith)]
    norm_num [segmentValue, curvePercent, curveVoltage, BATTERY_CURVE_CHARGE,
      BATTERY_CURVE_NORMAL]
    linarith

/-- C29: the charging curve is never more optimistic than the normal curve.  For every
voltage, the SOC that `voltageToBatteryPercent` returns in the Charging state is at most
the SOC it returns for the same voltage in any other state, and the two are equal for
every voltage at or above 25.35 V. -/
theorem charging_curve_le_normal (state : BatteryState) (v : ℚ)
    (hs : state ≠ STATE_CHARGING) :
    voltageToBatteryPercent STATE_CHARGING v ≤ voltageToBatteryPercent state v ∧
    (2535 / 100 ≤ v →
      voltageToBatteryPercent STATE_CHARGING v = voltageToBatteryPercent state v) := by
  have e1 : voltageToBatteryPercent STATE_CHARGING v =
      percentOn BATTERY_CURVE_CHARGE 18 v := by
    simp [voltageToBatteryPercent, selectCurve, selectPoints, CURVE_CHARGE_POINTS]
  have e2 : voltageToBatteryPercent state v = percentOn BATTERY_CURVE_NORMAL 23 v := by
    simp [voltageToBatteryPercent, selectCurve, selectPoints, CURVE_NORMAL_POINTS, hs]
  rw [e1, e2]
  refine ⟨?_, curves_equal_above v⟩
  rcases lt_or_le v (2535 / 100) with h | h
  · exact charge_le_normal_below v h
  · exact le_of_eq (curves_equal_above v h)

/-- An instance of C29: at 25 V the charging curve gives 5 % and the normal curve, in the
Rest state, 15 %; at 26 V both give the same percentage. -/
theorem charging_curve_le_normal_witness :
    STATE_REST ≠ STATE_CHARGING ∧
    voltageToBatteryPercent STATE_CHARGING 25 ≤ voltageToBatteryPercent STATE_REST 25 ∧
    voltageToBatteryPercent STATE_CHARGING 26 = voltageToBatteryPercent STATE_REST 26 :=
  ⟨by decide, (charging_curve_le_normal STATE_REST 25 (by decide)).1,
    (charging_curve_le_normal STATE_REST 26 (by decide)).2 (by norm_num)⟩

/-! ## The agreement rule on a buffer that is at least half full -/

/-- In a sorted list an entry at a later index is at least an entry at an earlier index. -/
theorem sorted_getD_le (l : List ℚ) (hs : l.Sorted (· ≤ ·)) (i j : ℕ) (hij : i ≤ j)
    (hj : j < l.length) : l.getD i 0 ≤ l.getD j 0 := by
  rw [List.getD_eq_getElem l 0 (lt_of_le_of_lt hij hj), List.getD_eq_getElem l 0 hj]
  have := @List.Sorted.rel_get_of_le ℚ (· ≤ ·) _ l hs ⟨i, lt_of_le_of_lt hij hj⟩ ⟨j, hj⟩ hij
  simpa using this

/-- In a sorted list of `n` entries whose entry at index `i` is above `c`, at least `n - i`
entries are above `c`. -/
theorem sorted_countP_above (l : List ℚ) (hs : l.Sorted (· ≤ ·)) (i : ℕ) (hi : i < l.length)
    (c : ℚ) (hc : c < l.getD i 0) :
    l.length ≤ i + l.countP (fun y => decide (y > c)) := by
  have h1 := sorted_countP_lt l hs i hi
  have h2 := @List.length_eq_countP_add_countP ℚ (fun y => decide (y < l.getD i 0)) l
  have h3 : l.countP (fun a => decide ¬ decide (a < l.getD i 0) = true) ≤
      l.countP (fun y => decide (y > c)) := by
    apply List.countP_mono_left
    intro x _ hx
    simp only [decide_eq_true_eq, not_lt] at hx ⊢
    exact lt_of_lt_of_le hc hx
  omega

/-- In a sorted list whose entry at index `i` is below `c`, at least `i + 1` entries are
below `c`. -/
theorem sorted_countP_below (l : List ℚ) (hs : l.Sorted (· ≤ ·)) (i : ℕ) (hi : i < l.length)
    (c : ℚ) (hc : l.getD i 0 < c) :
    i + 1 ≤ l.countP (fun y => decide (y < c)) := by
  have h1 := sorted_countP_le l hs i hi
  have h3 : l.countP (fun y => decide (y ≤ l.getD i 0)) ≤
      l.countP (fun y => decide (y < c)) := by
    apply List.countP_mono_left
    intro x _ hx
    simp only [decide_eq_true_eq] at hx ⊢
    exact lt_of_le_of_lt hx hc
  omega

/-- In a sorted list of at least `2 * N - 1` entries whose median is more than 3 away from
`d`, at least `N` entries lie on the median's side of `d` by more than 1. -/
theorem median_side_count (l : List ℚ) (hs : l.Sorted (· ≤ ·)) (N : ℤ)
    (hn : 2 * N - 1 ≤ l.length) (hpos : 0 < l.length) (d m : ℚ)
    (hm : m = if l.length % 2 = 0 then
        (l.getD (l.length / 2 - 1) 0 + l.getD (l.length / 2) 0) / 2
      else l.getD (l.length / 2) 0)
    (hfar : fabs (m - d) > 3) :
    N ≤ ((l.countP (fun y =>
      if m > d then decide (y > d + 1) else decide (y < d - 1)) : ℕ) : ℤ) := by
  rw [fabs_eq_abs] at hfar
  have hmid : l.getD (l.length / 2 - 1) 0 ≤ l.getD (l.length / 2) 0 :=
    sorted_getD_le l hs _ _ (by omega) (by omega)
  by_cases hmd : m > d
  · simp only [hmd, if_true]
    have h3 : m - d > 3 := by
      rwa [abs_of_pos (by linarith)] at hfar
    have hup : m ≤ l.getD (l.length / 2) 0 := by
      rw [hm]
      split_ifs
      · linarith
      · exact le_rfl
    have := sorted_countP_above l hs (l.length / 2) (by omega) (d + 1) (by linarith)
    omega
  · simp only [hmd, if_false]
    have h3 : d - m > 3 := by
      rw [abs_of_nonpos (by linarith)] at hfar
      linarith
    by_cases hev : l.length % 2 = 0
    · have hlo : l.getD (l.length / 2 - 1) 0 ≤ m := by
        rw [hm, if_pos hev]
        linarith
      have := sorted_countP_below l hs (l.length / 2 - 1) (by omega) (d - 1) (by linarith)
      omega
    · have hlo : l.getD (l.length / 2) 0 ≤ m := by
        rw [hm, if_neg hev]
      have := sorted_countP_below l hs (l.length / 2) (by omega) (d - 1) (by linarith)
      omega

/-- `sortArray` on a whole array gives the array in increasing order. -/
theorem sortArray_eq_insertionSort (arr : List ℚ) :
    sortArray arr arr.length = arr.insertionSort (· ≤ ·) := by
  obtain ⟨h1, h2⟩ := sortArray_sorted_perm arr
  exact List.eq_of_perm_of_sorted (h2.trans (List.perm_insertionSort (· ≤ ·) arr).symm) h1
    (List.sorted_insertionSort (· ≤ ·) arr)

/-- With a sample count between 1 and the capacity, `getMedianSOC` returns the median of
the buffered samples. -/
theorem getMedianSOC_eq_medianOf (g : Globals) (s : HW)
    (hlen : s.socBuffer.length = SOC_BUFFER_SIZE)
    (h1 : 0 < socCount g s) (h2 : socCount g s ≤ SOC_BUFFER_SIZE) :
    getMedianSOC g s = some (medianOf (s.socBuffer.take (socCount g s).toNat)) := by
  have hl : (s.socBuffer.take (socCount g s).toNat).length = (socCount g s).toNat := by
    rw [List.length_take, hlen]
    apply min_eq_left
    omega
  unfold getMedianSOC medianOf
  simp only []
  rw [if_neg (by omega), if_neg (by omega), hl]
  have e := sortArray_eq_insertionSort (s.socBuffer.take (socCount g s).toNat)
  rw [hl] at e
  rw [e]
  split_ifs <;> rfl

/-- `updateSOCBuffer` keeps the number of slots of the buffer. -/
theorem updateSOCBuffer_length (g : Globals) (x : ℚ) (s s1 : HW)
    (hu : updateSOCBuffer g x s = some s1) : s1.socBuffer.length = s.socBuffer.length := by
  simp only [updateSOCBuffer] at hu
  split_ifs at hu <;> (rw [← Option.some.inj hu]; simp)

/-- C27: the agreement-count rule never blocks once the buffer is half full.  For every
agreement count `N` of at least 1 and every call of `getStableSOC` on a ten-slot buffer
whose push succeeds, that does not take the first-sample shortcut, and after which the
buffer holds at least `2 * N - 1` samples and no more than its ten slots, the call returns
and the displayed SOC is the median of the buffered samples: the value of `getMedianSOC`,
which is the reference median of the first `count` slots. -/
theorem agreement_never_blocks (g : Globals) (x : ℚ) (s s1 : HW)
    (hlen : s.socBuffer.length = SOC_BUFFER_SIZE)
    (hN : 1 ≤ g.g_socChangeThreshold)
    (hu : updateSOCBuffer g x s = some s1)
    (hfirst : ¬ (s1.displayedSOC = 0 ∧ s1.socBufferIndex = 1))
    (hcount : 2 * g.g_socChangeThreshold - 1 ≤ socCount g s1)
    (hcap : socCount g s1 ≤ SOC_BUFFER_SIZE) :
    ∃ s2, getStableSOC g x s = some s2 ∧
      getMedianSOC g s1 = some s2.displayedSOC ∧
      s2.displayedSOC = medianOf (s1.socBuffer.take (socCount g s1).toNat) := by
  have hl1 : s1.socBuffer.length = SOC_BUFFER_SIZE :=
    (updateSOCBuffer_length g x s s1 hu).trans hlen
  have hpos : 0 < socCount g s1 := by omega
  have hm := getMedianSOC_eq_medianOf g s1 hl1 hpos hcap
  have hl : (s1.socBuffer.take (socCount g s1).toNat).length = (socCount g s1).toNat := by
    rw [List.length_take, hl1]
    apply min_eq_left
    omega
  unfold getStableSOC
  rw [hu]
  simp only []
  rw [if_neg hfirst, hm]
  simp only []
  by_cases hfar : fabs (medianOf (s1.socBuffer.take (socCount g s1).toNat) -
      s1.displayedSOC) > 3
  · rw [if_pos hfar]
    have hagree : agreeCount s1.socBuffer (socCount g s1).toNat
        (medianOf (s1.socBuffer.take (socCount g s1).toNat)) s1.displayedSOC ≥
        g.g_socChangeThreshold := by
      rw [agreeCount_eq_countP s1.socBuffer _ _ (socCount g s1).toNat (by rw [hl1]; omega),
        ← (List.perm_insertionSort (· ≤ ·) (s1.socBuffer.take (socCount g s1).toNat)).countP_eq]
      apply median_side_count _ (List.sorted_insertionSort (· ≤ ·) _) _ _ _ _ _ _ hfar
      · rw [List.length_insertionSort, hl]
        omega
      · rw [List.length_insertionSort, hl]
        omega
      · unfold medianOf
        rw [List.length_insertionSort]
    rw [if_pos hagree]
    exact ⟨_, rfl, rfl, rfl⟩
  · rw [if_neg hfar]
    exact ⟨_, rfl, rfl, rfl⟩

/-- An instance of C27 with the default agreement count of 3: the manager displays 50 % and
holds 50, 50, 60, 60; a fifth sample of 60 makes five samples with median 60, which is
more than 3 away from 50, and the displayed SOC becomes 60. -/
theorem agreement_never_blocks_witness :
    fourSamples.socBuffer.length = SOC_BUFFER_SIZE ∧
    (1 : ℤ) ≤ defaultGlobals.g_socChangeThreshold ∧
    updateSOCBuffer defaultGlobals 60 fourSamples = some fiveSamples ∧
    ¬ (fiveSamples.displayedSOC = 0 ∧ fiveSamples.socBufferIndex = 1) ∧
    2 * defaultGlobals.g_socChangeThreshold - 1 ≤ socCount defaultGlobals fiveSamples ∧
    socCount defaultGlobals fiveSamples ≤ SOC_BUFFER_SIZE ∧
    medianOf (fiveSamples.socBuffer.take (socCount defaultGlobals fiveSamples).toNat) = 60 ∧
    ∃ s2, getStableSOC defaultGlobals 60 fourSamples = some s2 ∧
      getMedianSOC defaultGlobals fiveSamples = some s2.displayedSOC ∧
      s2.displayedSOC =
        medianOf (fiveSamples.socBuffer.take (socCount defaultGlobals fiveSamples).toNat) := by
  have a1 : fourSamples.socBuffer.length = SOC_BUFFER_SIZE := rfl
  have a2 : (1 : ℤ) ≤ defaultGlobals.g_socChangeThreshold := by norm_num [defaultGlobals]
  have a3 : updateSOCBuffer defaultGlobals 60 fourSamples = some fiveSamples := by
    simp [updateSOCBuffer, fourSamples, fiveSamples, HW.init, defaultGlobals, SOC_BUFFER_SIZE]
  have a4 : ¬ (fiveSamples.displayedSOC = 0 ∧ fiveSamples.socBufferIndex = 1) := by
    simp [fiveSamples, fourSamples]
  have a5 : 2 * defaultGlobals.g_socChangeThreshold - 1 ≤
      socCount defaultGlobals fiveSamples := by
    simp [socCount, fiveSamples, fourSamples, HW.init, defaultGlobals]
  have a6 : socCount defaultGlobals fiveSamples ≤ SOC_BUFFER_SIZE := by
    simp [socCount, fiveSamples, fourSamples, HW.init, defaultGlobals, SOC_BUFFER_SIZE]
  have a7 : medianOf
      (fiveSamples.socBuffer.take (socCount defaultGlobals fiveSamples).toNat) = 60 := by
    simp [medianOf, socCount, fiveSamples, fourSamples, HW.init, List.insertionSort,
      List.orderedInsert]
  exact ⟨a1, a2, a3, a4, a5, a6, a7,
    agreement_never_blocks defaultGlobals 60 fourSamples fiveSamples a1 a2 a3 a4 a5 a6⟩

end OukitelP800
